import Mathlib

/-!
PulseMaker: the timing and mode state machine of `src/main.cpp`.

The global variables of the sketch are gathered in one record, `Machine`, and every
routine of the sketch is a function on that record.  Inputs that the sketch obtains from
its peripherals (the button event returned by `encoder.getButton()`, the rotation delta
returned by `encoder.getValue()`, the level returned by `digitalRead`, the clock returned
by `millis()`) are arguments of the routine that reads them.

Machine integers are unbounded numbers with the reduction written out:
`uint16_t` values are `Nat` reduced modulo `65536`, `int16_t` values are `Int` brought
into `[-32768, 32767]` by `wrapI16`, `unsigned long` values are `Nat` modulo `2 ^ 32`.
-/

namespace PulseMaker

/-- The enumeration `States` (main.cpp, lines 68-89), constructors in declaration order. -/
inductive States where
  | PULSE_ONE
  | PULSE_IDLE
  | PULSE_TWO
  | VIEW_ONCE
  | VIEW_TWICE
  | VIEW_CONTINOUS
  | EDIT_PULSE1
  | EDIT_PULSE2
  | EDIT_IDLE
  deriving DecidableEq

/-- The button events of `ClickEncoder::Button`, numbered 0..6 as in the comments of
`handle_encoder_button` (lines 507-575). -/
inductive Button where
  | Open
  | Closed
  | Pressed
  | Held
  | Released
  | Clicked
  | DoubleClicked
  deriving DecidableEq

/-- The global variables of main.cpp (lines 37-111) together with the content of the
EEPROM and the sequence of `EEPROM.write` calls made so far (address, byte), oldest first.
`viewstate` is a `uint8_t` that is only ever assigned enumerators of `States`, so it is
given that type.  `out` is the level last handed to `digitalWrite(OUTPIN, out)`:
`true` is `HIGH`, `false` is `LOW`. -/
structure Machine where
  state : States
  viewstate : States
  pulse1 : Nat
  idle : Nat
  pulse2 : Nat
  pulse1_counter : Nat
  idle_counter : Nat
  pulse2_counter : Nat
  out : Bool
  btn_held_handled : Bool
  buttonState : Button
  encPos : Int
  oldEncPos : Int
  extraButtonLastState : Nat
  extraButtonState : Nat
  extraButtonLastMillis : Nat
  eeprom : Nat → Nat
  eepromWrites : List (Nat × Nat)

/-- Line 103: `#define MIN_LENGTH 1`. -/
def MIN_LENGTH : Nat := 1

/-- Line 106: `#define P1ADDR 0`. -/
def P1ADDR : Nat := 0

/-- Line 107: `#define P2ADDR 2`. -/
def P2ADDR : Nat := 2

/-- Line 108: `#define IDLEADDR 4`. -/
def IDLEADDR : Nat := 4

/-- Line 56: `unsigned long extraButtonDebounce = 10`, never assigned afterwards. -/
def extraButtonDebounce : Nat := 10

/-- Conversion of an integer to `int16_t` (two's complement, modulo `2 ^ 16`). -/
def wrapI16 (x : Int) : Int := (x + 32768) % 65536 - 32768

/-- Conversion of an integer to `uint16_t` (modulo `2 ^ 16`). -/
def wrapU16 (x : Int) : Nat := (x % 65536).toNat

/-- Lines 113-123: `pulsing()`. -/
def pulsing (s : Machine) : Bool :=
  if s.state = States.PULSE_ONE ∨ s.state = States.PULSE_TWO ∨ s.state = States.PULSE_IDLE then
    true
  else
    false

/-- Lines 124-134: `editing()`. -/
def editing (s : Machine) : Bool :=
  if s.state = States.EDIT_PULSE1 ∨ s.state = States.EDIT_PULSE2 ∨ s.state = States.EDIT_IDLE then
    true
  else
    false

/-- Lines 143-164 of `handle_pulsing`: the block guarded by `state == PULSE_ONE`. -/
def pulse_one_block (s : Machine) : Machine :=
  if s.state = States.PULSE_ONE then
    let s := { s with out := true }
    if s.pulse1_counter ≥ s.pulse1 then
      if s.viewstate = States.VIEW_ONCE then
        { s with state := States.VIEW_ONCE, out := false }
      else
        { s with state := States.PULSE_IDLE }
    else s
  else s

/-- Lines 166-188 of `handle_pulsing`: the block guarded by `state == PULSE_IDLE`. -/
def pulse_idle_block (s : Machine) : Machine :=
  if s.state = States.PULSE_IDLE then
    let s := { s with out := false }
    if s.idle_counter ≥ s.idle then
      if s.viewstate = States.VIEW_CONTINOUS then
        { s with pulse1_counter := 0, pulse2_counter := 0, idle_counter := 0,
                 state := States.PULSE_ONE }
      else
        { s with state := States.PULSE_TWO }
    else s
  else s

/-- Lines 190-199 of `handle_pulsing`: the block guarded by `state == PULSE_TWO`. -/
def pulse_two_block (s : Machine) : Machine :=
  if s.state = States.PULSE_TWO then
    let s := { s with out := true }
    if s.pulse2_counter ≥ s.pulse2 then
      { s with state := States.VIEW_TWICE }
    else s
  else s

/-- Lines 136-204: `handle_pulsing()`.  The three blocks run one after the other, each
testing the `state` left by the one before; the final `digitalWrite(OUTPIN, out)` writes
the field `out` of the result. -/
def handle_pulsing (s : Machine) : Machine :=
  let s := { s with out := false }
  if pulsing s then
    pulse_two_block (pulse_idle_block (pulse_one_block s))
  else s

/-- Lines 245-266: `timerIsr()`.  The counters are `uint16_t`; `encoder.service()` only
touches the encoder driver. -/
def timerIsr (s : Machine) : Machine :=
  let s := handle_pulsing s
  let s := if s.state = States.PULSE_ONE then
      { s with pulse1_counter := (s.pulse1_counter + 1) % 65536 } else s
  let s := if s.state = States.PULSE_IDLE then
      { s with idle_counter := (s.idle_counter + 1) % 65536 } else s
  let s := if s.state = States.PULSE_TWO then
      { s with pulse2_counter := (s.pulse2_counter + 1) % 65536 } else s
  s

/-- The state after `n` consecutive timer callbacks with no other event in between. -/
def ticks : Nat → Machine → Machine
  | 0, s => s
  | n + 1, s => ticks n (timerIsr s)

/-- The call `EEPROM.write(address, value)` of the Arduino EEPROM library: the byte at
`address` is replaced and the call is recorded. -/
def EEPROM_write (address value : Nat) (s : Machine) : Machine :=
  { s with eeprom := fun a => if a = address then value else s.eeprom a,
           eepromWrites := s.eepromWrites ++ [(address, value)] }

/-- The call `EEPROM.read(address)` of the Arduino EEPROM library; it returns a `uint8_t`. -/
def EEPROM_read (address : Nat) (s : Machine) : Nat :=
  s.eeprom address % 256

/-- Lines 269-275: `EEPROMWriteInt16(address, value)`. -/
def EEPROMWriteInt16 (address value : Nat) (s : Machine) : Machine :=
  let two := value % 256
  let one := (value / 256) % 256
  EEPROM_write (address + 1) one (EEPROM_write address two s)

/-- Lines 276-281: `EEPROMReadInt16(address)`; the sum is returned as an `int16_t`. -/
def EEPROMReadInt16 (address : Nat) (s : Machine) : Int :=
  let two := EEPROM_read address s
  let one := EEPROM_read (address + 1) s
  wrapI16 (((two % 256 + (one * 256) % 65536 : Nat) : Int))

/-- Lines 432-433 of `setup`: `pulse1 = 50; EEPROMWriteInt16(P1ADDR, pulse1);`. -/
def setup_default_pulse1 (s : Machine) : Machine :=
  let s := { s with pulse1 := 50 }
  EEPROMWriteInt16 P1ADDR s.pulse1 s

/-- Lines 438-439 of `setup`: `pulse2 = 200; EEPROMWriteInt16(P2ADDR, pulse2);`. -/
def setup_default_pulse2 (s : Machine) : Machine :=
  let s := { s with pulse2 := 200 }
  EEPROMWriteInt16 P2ADDR s.pulse2 s

/-- Lines 444-445 of `setup`: `idle = 50; EEPROMWriteInt16(IDLEADDR, idle);`. -/
def setup_default_idle (s : Machine) : Machine :=
  let s := { s with idle := 50 }
  EEPROMWriteInt16 IDLEADDR s.idle s

/-- Lines 415-454: `setup()`, started on the EEPROM content `mem`.  The other globals have
their initialisers of lines 37-111 (zero where none is written). -/
def setup (mem : Nat → Nat) : Machine :=
  let s : Machine :=
    { state := States.PULSE_ONE, viewstate := States.PULSE_ONE,
      pulse1 := 0, idle := 0, pulse2 := 0,
      pulse1_counter := 0, idle_counter := 0, pulse2_counter := 0,
      out := false, btn_held_handled := false, buttonState := Button.Open,
      encPos := 0, oldEncPos := 0,
      extraButtonLastState := 1, extraButtonState := 0, extraButtonLastMillis := 0,
      eeprom := mem, eepromWrites := [] }
  let s := { s with oldEncPos := -1 }
  let s := { s with pulse1 := wrapU16 (EEPROMReadInt16 P1ADDR s) }
  let s := if s.pulse1 < MIN_LENGTH then
      setup_default_pulse1 s else s
  let s := { s with pulse2 := wrapU16 (EEPROMReadInt16 P2ADDR s) }
  let s := if s.pulse2 < MIN_LENGTH then
      setup_default_pulse2 s else s
  let s := { s with idle := wrapU16 (EEPROMReadInt16 IDLEADDR s) }
  let s := if s.idle < MIN_LENGTH then
      setup_default_idle s else s
  { s with btn_held_handled := false, state := States.VIEW_ONCE,
           viewstate := States.VIEW_ONCE }

/-- Lines 472-480 of `handle_encoder_rotate`: the two limit tests on the `int16_t`
variable `encPos`.  The comparisons are made on the promoted values; the assignment
`encPos = 65535` converts the constant to `int16_t`. -/
def limits (encPos : Int) : Int :=
  let encPos := if encPos ≤ (MIN_LENGTH : Int) then (MIN_LENGTH : Int) else encPos
  let encPos := if encPos ≥ 65535 then wrapI16 65535 else encPos
  encPos

/-- Lines 459-470 of `handle_encoder_rotate`: `encPos` is loaded from the duration being
edited; the `uint16_t` value is converted to the `int16_t` variable. -/
def rotate_load (s : Machine) : Machine :=
  let s := if s.state = States.EDIT_PULSE1 then { s with encPos := wrapI16 s.pulse1 } else s
  let s := if s.state = States.EDIT_PULSE2 then { s with encPos := wrapI16 s.pulse2 } else s
  let s := if s.state = States.EDIT_IDLE then { s with encPos := wrapI16 s.idle } else s
  s

/-- Lines 485-496 of `handle_encoder_rotate`: `encPos` is stored into the duration being
edited; the `int16_t` value is converted to the `uint16_t` variable. -/
def rotate_store (s : Machine) : Machine :=
  let s := if s.state = States.EDIT_PULSE1 then { s with pulse1 := wrapU16 s.encPos } else s
  let s := if s.state = States.EDIT_PULSE2 then { s with pulse2 := wrapU16 s.encPos } else s
  let s := if s.state = States.EDIT_IDLE then { s with idle := wrapU16 s.encPos } else s
  s

/-- Lines 481-484 of `handle_encoder_rotate`: a changed position is remembered. -/
def rotate_remember (s : Machine) : Machine :=
  if s.encPos ≠ s.oldEncPos then { s with oldEncPos := s.encPos } else s

/-- Lines 457-497: `handle_encoder_rotate()`, with `delta` the value returned by
`encoder.getValue()` (an `int16_t`).  The sum of line 471 is stored in the `int16_t`
variable `encPos`, then limited (lines 472-480) and remembered (lines 481-484). -/
def handle_encoder_rotate (delta : Int) (s : Machine) : Machine :=
  let s := rotate_load s
  let s := { s with encPos := wrapI16 (s.encPos + delta) }
  let s := { s with encPos := limits s.encPos }
  let s := rotate_remember s
  rotate_store s

/-- Lines 516-541: the `ClickEncoder::Held` case. -/
def on_held (s : Machine) : Machine :=
  if !s.btn_held_handled && !pulsing s then
    let s :=
      if s.state = States.VIEW_ONCE then
        { s with state := States.VIEW_TWICE, viewstate := States.VIEW_TWICE }
      else if s.state = States.VIEW_TWICE then
        { s with state := States.VIEW_CONTINOUS, viewstate := States.VIEW_CONTINOUS }
      else if s.state = States.VIEW_CONTINOUS then
        { s with state := States.VIEW_ONCE, viewstate := States.VIEW_ONCE }
      else s
    { s with btn_held_handled := true }
  else s

/-- Lines 548-573: the `ClickEncoder::Clicked` case. -/
def on_clicked (s : Machine) : Machine :=
  if !pulsing s && !editing s then
    { s with pulse1_counter := 0, pulse2_counter := 0, idle_counter := 0,
             state := States.PULSE_ONE }
  else if pulsing s && s.viewstate = States.VIEW_CONTINOUS then
    { s with state := States.VIEW_CONTINOUS }
  else s

/-- Lines 592-609: the `EDIT_PULSE1` case of the double-click switch; three independent
tests of `viewstate`. -/
def dbl_edit_pulse1 (s : Machine) : Machine :=
  let s := if s.viewstate = States.VIEW_ONCE then
      { EEPROMWriteInt16 P1ADDR s.pulse1 s with state := States.VIEW_ONCE } else s
  let s := if s.viewstate = States.VIEW_TWICE then { s with state := States.EDIT_IDLE } else s
  let s := if s.viewstate = States.VIEW_CONTINOUS then
      { s with state := States.EDIT_IDLE } else s
  s

/-- Lines 610-623: the `EDIT_IDLE` case of the double-click switch. -/
def dbl_edit_idle (s : Machine) : Machine :=
  let s := if s.viewstate = States.VIEW_TWICE then { s with state := States.EDIT_PULSE2 } else s
  let s := if s.viewstate = States.VIEW_CONTINOUS then
      { EEPROMWriteInt16 IDLEADDR s.idle (EEPROMWriteInt16 P1ADDR s.pulse1 s) with
        state := States.VIEW_CONTINOUS }
    else s
  s

/-- Lines 624-631: the `EDIT_PULSE2` case of the double-click switch. -/
def dbl_edit_pulse2 (s : Machine) : Machine :=
  { EEPROMWriteInt16 IDLEADDR s.idle
      (EEPROMWriteInt16 P2ADDR s.pulse2 (EEPROMWriteInt16 P1ADDR s.pulse1 s)) with
    state := States.VIEW_TWICE }

/-- Lines 575-640: the `ClickEncoder::DoubleClicked` case. -/
def on_double_clicked (s : Machine) : Machine :=
  if !pulsing s then
    match s.state with
    | States.VIEW_ONCE => { s with state := States.EDIT_PULSE1 }
    | States.VIEW_TWICE => { s with state := States.EDIT_PULSE1 }
    | States.VIEW_CONTINOUS => { s with state := States.EDIT_PULSE1 }
    | States.EDIT_PULSE1 => dbl_edit_pulse1 s
    | States.EDIT_IDLE => dbl_edit_idle s
    | States.EDIT_PULSE2 => dbl_edit_pulse2 s
    | States.PULSE_ONE => s
    | States.PULSE_TWO => s
    | States.PULSE_IDLE => s
  else s

/-- Lines 499-643: `handle_encoder_button()`, with `b` the value returned by
`encoder.getButton()`; it is first stored in the global `buttonState`. -/
def handle_encoder_button (b : Button) (s : Machine) : Machine :=
  let s := { s with buttonState := b }
  match b with
  | Button.Open => s
  | Button.Closed => s
  | Button.Pressed => s
  | Button.Held => on_held s
  | Button.Released => { s with btn_held_handled := false }
  | Button.Clicked => on_clicked s
  | Button.DoubleClicked => on_double_clicked s

/-- Lines 206-242: `handle_extra_button()`, with `val` the level returned by
`digitalRead(pinExtraSw)` (`0` is `LOW`) and `t1`, `t2` the values returned by the two
calls of `millis()` (`unsigned long`, 32 bits, so the difference is taken modulo `2 ^ 32`). -/
def handle_extra_button (val t1 t2 : Nat) (s : Machine) : Machine :=
  let s := if val ≠ s.extraButtonLastState then
      { s with extraButtonLastMillis := t1 % 2 ^ 32 } else s
  let s :=
    if (t2 % 2 ^ 32 + 2 ^ 32 - s.extraButtonLastMillis) % 2 ^ 32 > extraButtonDebounce then
      if val ≠ s.extraButtonState then
        let s := { s with extraButtonState := val }
        if s.extraButtonState = 0 then
          if !pulsing s && !editing s then
            { s with pulse1_counter := 0, pulse2_counter := 0, idle_counter := 0,
                     state := States.PULSE_ONE }
          else if pulsing s && s.viewstate = States.VIEW_CONTINOUS then
            { s with state := States.VIEW_CONTINOUS }
          else s
        else s
      else s
    else s
  { s with extraButtonLastState := val }

/-- A machine in the given state and mode with the given durations and everything else
at rest; used to write concrete inputs. -/
def mk (st vs : States) (p1 idl p2 : Nat) : Machine :=
  { state := st, viewstate := vs, pulse1 := p1, idle := idl, pulse2 := p2,
    pulse1_counter := 0, idle_counter := 0, pulse2_counter := 0,
    out := false, btn_held_handled := false, buttonState := Button.Open,
    encPos := 0, oldEncPos := -1,
    extraButtonLastState := 1, extraButtonState := 0, extraButtonLastMillis := 0,
    eeprom := fun _ => 255, eepromWrites := [] }

/-- The machine is inside a continuous stream: mode Continuous, `pulse1` and `idle` in
`[1, 65535]`, and either in `PULSE_ONE` with the first counter not past `pulse1` and the
idle counter at 0, or in `PULSE_IDLE` with the idle counter in `[1, idle]`. -/
def streaming (s : Machine) : Prop :=
  s.viewstate = States.VIEW_CONTINOUS ∧ 1 ≤ s.pulse1 ∧ s.pulse1 ≤ 65535 ∧
  1 ≤ s.idle ∧ s.idle ≤ 65535 ∧
  ((s.state = States.PULSE_ONE ∧ s.pulse1_counter ≤ s.pulse1 ∧ s.idle_counter = 0) ∨
   (s.state = States.PULSE_IDLE ∧ 1 ≤ s.idle_counter ∧ s.idle_counter ≤ s.idle))

instance (s : Machine) : Decidable (streaming s) := by
  unfold streaming
  infer_instance

/-- The double-click of `handle_encoder_button` performs a storage write exactly in these
states (the `EEPROMWriteInt16` calls of lines 597, 619-620 and 627-629). -/
def confirming (s : Machine) : Prop :=
  (s.state = States.EDIT_PULSE1 ∧ s.viewstate = States.VIEW_ONCE) ∨
  (s.state = States.EDIT_IDLE ∧ s.viewstate = States.VIEW_CONTINOUS) ∨
  s.state = States.EDIT_PULSE2

instance (s : Machine) : Decidable (confirming s) := by
  unfold confirming
  infer_instance

/-- One pass of `loop()` (lines 645-650) restricted to the encoder: the rotation `delta`
is handled, then the button event `b`. -/
def loop_encoder (delta : Int) (b : Button) (s : Machine) : Machine :=
  handle_encoder_button b (handle_encoder_rotate delta s)

/-- The adjustment formula of the specification, `clamp(x, lo, hi)`, over the integers. -/
def spec_clamp (x lo hi : Int) : Int :=
  if x < lo then lo else if hi < x then hi else x

/-- The duration identified by the active editing state: `pulse1` in `EDIT_PULSE1`,
`pulse2` in `EDIT_PULSE2`, `idle` in `EDIT_IDLE` (lines 459-470 and 485-496); 0 in a
state that edits nothing. -/
def edited (s : Machine) : Nat :=
  match s.state with
  | States.EDIT_PULSE1 => s.pulse1
  | States.EDIT_PULSE2 => s.pulse2
  | States.EDIT_IDLE => s.idle
  | _ => 0

/-- The cycle of the modes, `Once → Twice → Continuous → Once`, on the view states that
stand for them (lines 521-537); every other state is mapped to itself. -/
def next_view : States → States
  | States.VIEW_ONCE => States.VIEW_TWICE
  | States.VIEW_TWICE => States.VIEW_CONTINOUS
  | States.VIEW_CONTINOUS => States.VIEW_ONCE
  | st => st

/-- The state is one of the three view states. -/
def viewing (s : Machine) : Bool :=
  if s.state = States.VIEW_ONCE ∨ s.state = States.VIEW_TWICE ∨
      s.state = States.VIEW_CONTINOUS then
    true
  else
    false

/-- One long press: the encoder reports `Held` on `k + 1` consecutive polls while the
button is kept down, then `Released`. -/
def press_and_release (k : Nat) (s : Machine) : Machine :=
  handle_encoder_button Button.Released
    (Nat.iterate (handle_encoder_button Button.Held) (k + 1) s)

/-- The unsigned 16-bit value held little-endian by the two storage bytes at `a` and
`a + 1` (each byte taken modulo 256, as `EEPROM.read` returns it). -/
def stored16 (mem : Nat → Nat) (a : Nat) : Nat :=
  mem a % 256 + 256 * (mem (a + 1) % 256)

/-- The globals as `setup` finds them, with line 427 (`oldEncPos = -1`) done: the first
two steps of `setup`. -/
def setup_init (mem : Nat → Nat) : Machine :=
  { state := States.PULSE_ONE, viewstate := States.PULSE_ONE,
    pulse1 := 0, idle := 0, pulse2 := 0,
    pulse1_counter := 0, idle_counter := 0, pulse2_counter := 0,
    out := false, btn_held_handled := false, buttonState := Button.Open,
    encPos := 0, oldEncPos := -1,
    extraButtonLastState := 1, extraButtonState := 0, extraButtonLastMillis := 0,
    eeprom := mem, eepromWrites := [] }

/-- Lines 429-434 of `setup`: `pulse1` is loaded, and defaulted when below `MIN_LENGTH`. -/
def setup_load_pulse1 (s : Machine) : Machine :=
  let s := { s with pulse1 := wrapU16 (EEPROMReadInt16 P1ADDR s) }
  if s.pulse1 < MIN_LENGTH then setup_default_pulse1 s else s

/-- Lines 435-440 of `setup`: `pulse2` is loaded, and defaulted when below `MIN_LENGTH`. -/
def setup_load_pulse2 (s : Machine) : Machine :=
  let s := { s with pulse2 := wrapU16 (EEPROMReadInt16 P2ADDR s) }
  if s.pulse2 < MIN_LENGTH then setup_default_pulse2 s else s

/-- Lines 441-446 of `setup`: `idle` is loaded, and defaulted when below `MIN_LENGTH`. -/
def setup_load_idle (s : Machine) : Machine :=
  let s := { s with idle := wrapU16 (EEPROMReadInt16 IDLEADDR s) }
  if s.idle < MIN_LENGTH then setup_default_idle s else s

/-- Lines 448-450 of `setup`: the flag, the state and the mode are initialised. -/
def setup_finish (s : Machine) : Machine :=
  { s with btn_held_handled := false, state := States.VIEW_ONCE,
           viewstate := States.VIEW_ONCE }

/-- The call `handle_extra_button()` that reads level `val` at clock values `t1`, `t2`
handles a press of the auxiliary switch: the level is LOW (line 222), it differs from the
debounced level `extraButtonState` (line 218), and it has been stable for more than the
debounce time (line 215, with the clock value line 212 stores when the level has just
changed). -/
def extra_press (val t1 t2 : Nat) (s : Machine) : Prop :=
  val = 0 ∧ val ≠ s.extraButtonState ∧
  (t2 % 2 ^ 32 + 2 ^ 32 -
      (if val ≠ s.extraButtonLastState then t1 % 2 ^ 32 else s.extraButtonLastMillis))
    % 2 ^ 32 > extraButtonDebounce

instance (val t1 t2 : Nat) (s : Machine) : Decidable (extra_press val t1 t2 s) := by
  unfold extra_press
  infer_instance

/-- The events that drive the machine, each taken as an atomic step: a timer callback, a
poll of the encoder button returning `b`, a call of `handle_extra_button` reading level
`val` at clock values `t1`, `t2`, and a call of `handle_encoder_rotate` reading the
rotation `delta`. -/
inductive Event where
  | tick
  | button (b : Button)
  | extra (val t1 t2 : Nat)
  | rotate (delta : Int)

/-- The effect of one event. -/
def step : Event → Machine → Machine
  | Event.tick, s => timerIsr s
  | Event.button b, s => handle_encoder_button b s
  | Event.extra val t1 t2, s => handle_extra_button val t1 t2 s
  | Event.rotate delta, s => handle_encoder_rotate delta s

/-- The state after a finite sequence of events, first event first. -/
def run : List Event → Machine → Machine
  | [], s => s
  | e :: es, s => run es (step e s)

/-- The state is consistent with the mode: the mode is one of the three view enumerators;
a view state is the view state of the mode; `PULSE_IDLE` and `EDIT_IDLE` occur only in
modes Twice and Continuous; `PULSE_TWO` and `EDIT_PULSE2` occur only in mode Twice. -/
def consistent (s : Machine) : Prop :=
  (s.viewstate = States.VIEW_ONCE ∨ s.viewstate = States.VIEW_TWICE ∨
    s.viewstate = States.VIEW_CONTINOUS) ∧
  (viewing s = true → s.state = s.viewstate) ∧
  (s.state = States.PULSE_IDLE ∨ s.state = States.EDIT_IDLE →
    s.viewstate = States.VIEW_TWICE ∨ s.viewstate = States.VIEW_CONTINOUS) ∧
  (s.state = States.PULSE_TWO ∨ s.state = States.EDIT_PULSE2 →
    s.viewstate = States.VIEW_TWICE)

instance (s : Machine) : Decidable (consistent s) := by
  unfold consistent
  infer_instance

/-- The mode, the three durations and the storage of `r` are those of `s`. -/
def kept (s r : Machine) : Prop :=
  r.viewstate = s.viewstate ∧ r.pulse1 = s.pulse1 ∧ r.idle = s.idle ∧ r.pulse2 = s.pulse2 ∧
  r.eeprom = s.eeprom ∧ r.eepromWrites = s.eepromWrites

/-- The storage is in step with the durations: the durations are 16-bit values, and every
slot that the confirming double-click of the current edit session will not write holds
its duration, that is all three slots outside an edit session, the slots of `idle` and
`pulse2` in an edit session of mode Once, and the slot of `pulse2` in an edit session of
mode Continuous. -/
def synced (s : Machine) : Prop :=
  s.pulse1 ≤ 65535 ∧ s.idle ≤ 65535 ∧ s.pulse2 ≤ 65535 ∧
  (editing s = false → stored16 s.eeprom P1ADDR = s.pulse1) ∧
  (editing s = false ∨ s.viewstate = States.VIEW_ONCE →
    stored16 s.eeprom IDLEADDR = s.idle) ∧
  (editing s = false ∨ s.viewstate = States.VIEW_ONCE ∨
      s.viewstate = States.VIEW_CONTINOUS →
    stored16 s.eeprom P2ADDR = s.pulse2)

/-! ## One timer callback -/

theorem timerIsr_not_pulsing (s : Machine) (h : pulsing s = false) :
    timerIsr s = { s with out := false } := by
  have h1 : s.state ≠ States.PULSE_ONE := by
    intro h'; simp [pulsing, h'] at h
  have h2 : s.state ≠ States.PULSE_IDLE := by
    intro h'; simp [pulsing, h'] at h
  have h3 : s.state ≠ States.PULSE_TWO := by
    intro h'; simp [pulsing, h'] at h
  simp [timerIsr, handle_pulsing, pulsing, h1, h2, h3]

theorem timerIsr_one_stay (s : Machine) (hs : s.state = States.PULSE_ONE)
    (hc : s.pulse1_counter < s.pulse1) :
    timerIsr s = { s with out := true, pulse1_counter := (s.pulse1_counter + 1) % 65536 } := by
  simp [timerIsr, handle_pulsing, pulsing, pulse_one_block, pulse_idle_block,
    pulse_two_block, hs, Nat.not_le.mpr hc]

theorem timerIsr_one_once (s : Machine) (hs : s.state = States.PULSE_ONE)
    (hc : s.pulse1 ≤ s.pulse1_counter) (hv : s.viewstate = States.VIEW_ONCE) :
    timerIsr s = { s with state := States.VIEW_ONCE, out := false } := by
  simp [timerIsr, handle_pulsing, pulsing, pulse_one_block, pulse_idle_block,
    pulse_two_block, hs, hc, hv]

theorem timerIsr_one_idle (s : Machine) (hs : s.state = States.PULSE_ONE)
    (hc : s.pulse1 ≤ s.pulse1_counter) (hv : s.viewstate ≠ States.VIEW_ONCE)
    (hi : s.idle_counter < s.idle) :
    timerIsr s = { s with state := States.PULSE_IDLE, out := false,
                          idle_counter := (s.idle_counter + 1) % 65536 } := by
  simp [timerIsr, handle_pulsing, pulsing, pulse_one_block, pulse_idle_block,
    pulse_two_block, hs, hc, hv, Nat.not_le.mpr hi]

theorem timerIsr_idle_stay (s : Machine) (hs : s.state = States.PULSE_IDLE)
    (hi : s.idle_counter < s.idle) :
    timerIsr s = { s with out := false, idle_counter := (s.idle_counter + 1) % 65536 } := by
  simp [timerIsr, handle_pulsing, pulsing, pulse_one_block, pulse_idle_block,
    pulse_two_block, hs, Nat.not_le.mpr hi]

theorem timerIsr_idle_restart (s : Machine) (hs : s.state = States.PULSE_IDLE)
    (hi : s.idle ≤ s.idle_counter) (hv : s.viewstate = States.VIEW_CONTINOUS) :
    timerIsr s = { s with state := States.PULSE_ONE, out := false, pulse1_counter := 1,
                          idle_counter := 0, pulse2_counter := 0 } := by
  simp [timerIsr, handle_pulsing, pulsing, pulse_one_block, pulse_idle_block,
    pulse_two_block, hs, hi, hv]

theorem timerIsr_idle_two (s : Machine) (hs : s.state = States.PULSE_IDLE)
    (hi : s.idle ≤ s.idle_counter) (hv : s.viewstate ≠ States.VIEW_CONTINOUS)
    (hq : s.pulse2_counter < s.pulse2) :
    timerIsr s = { s with state := States.PULSE_TWO, out := true,
                          pulse2_counter := (s.pulse2_counter + 1) % 65536 } := by
  simp [timerIsr, handle_pulsing, pulsing, pulse_one_block, pulse_idle_block,
    pulse_two_block, hs, hi, hv, Nat.not_le.mpr hq]

theorem timerIsr_two_stay (s : Machine) (hs : s.state = States.PULSE_TWO)
    (hq : s.pulse2_counter < s.pulse2) :
    timerIsr s = { s with out := true, pulse2_counter := (s.pulse2_counter + 1) % 65536 } := by
  simp [timerIsr, handle_pulsing, pulsing, pulse_one_block, pulse_idle_block,
    pulse_two_block, hs, Nat.not_le.mpr hq]

theorem timerIsr_two_end (s : Machine) (hs : s.state = States.PULSE_TWO)
    (hq : s.pulse2 ≤ s.pulse2_counter) :
    timerIsr s = { s with state := States.VIEW_TWICE, out := true } := by
  simp [timerIsr, handle_pulsing, pulsing, pulse_one_block, pulse_idle_block,
    pulse_two_block, hs, hq]

/-! ## Runs of timer callbacks -/

theorem ticks_add (a b : Nat) (s : Machine) : ticks (a + b) s = ticks b (ticks a s) := by
  induction a generalizing s with
  | zero => simp [ticks]
  | succ a ih =>
    rw [Nat.add_right_comm]
    simp only [ticks]
    exact ih _

theorem ticks_succ (n : Nat) (s : Machine) : ticks (n + 1) s = timerIsr (ticks n s) := by
  rw [ticks_add]
  rfl

theorem mod_small {c d : Nat} (h : c < d) (hd : d ≤ 65535) : (c + 1) % 65536 = c + 1 :=
  Nat.mod_eq_of_lt (by omega)

theorem ticks_one_phase (k : Nat) (s : Machine) (hs : s.state = States.PULSE_ONE)
    (ho : s.out = true) (hk : s.pulse1_counter + k ≤ s.pulse1) (hd : s.pulse1 ≤ 65535) :
    ticks k s = { s with pulse1_counter := s.pulse1_counter + k } := by
  induction k generalizing s with
  | zero => simp [ticks]
  | succ k ih =>
    have hlt : s.pulse1_counter < s.pulse1 := by omega
    simp only [ticks]
    rw [timerIsr_one_stay s hs hlt, mod_small hlt hd]
    rw [ih { s with out := true, pulse1_counter := s.pulse1_counter + 1 } hs rfl
      (by show s.pulse1_counter + 1 + k ≤ s.pulse1; omega) hd]
    cases s
    simp at ho ⊢
    constructor
    · omega
    · exact ho

theorem ticks_idle_phase (k : Nat) (s : Machine) (hs : s.state = States.PULSE_IDLE)
    (ho : s.out = false) (hk : s.idle_counter + k ≤ s.idle) (hd : s.idle ≤ 65535) :
    ticks k s = { s with idle_counter := s.idle_counter + k } := by
  induction k generalizing s with
  | zero => simp [ticks]
  | succ k ih =>
    have hlt : s.idle_counter < s.idle := by omega
    simp only [ticks]
    rw [timerIsr_idle_stay s hs hlt, mod_small hlt hd]
    rw [ih { s with out := false, idle_counter := s.idle_counter + 1 } hs rfl
      (by show s.idle_counter + 1 + k ≤ s.idle; omega) hd]
    cases s
    simp at ho ⊢
    constructor
    · omega
    · exact ho

theorem ticks_two_phase (k : Nat) (s : Machine) (hs : s.state = States.PULSE_TWO)
    (ho : s.out = true) (hk : s.pulse2_counter + k ≤ s.pulse2) (hd : s.pulse2 ≤ 65535) :
    ticks k s = { s with pulse2_counter := s.pulse2_counter + k } := by
  induction k generalizing s with
  | zero => simp [ticks]
  | succ k ih =>
    have hlt : s.pulse2_counter < s.pulse2 := by omega
    simp only [ticks]
    rw [timerIsr_two_stay s hs hlt, mod_small hlt hd]
    rw [ih { s with out := true, pulse2_counter := s.pulse2_counter + 1 } hs rfl
      (by show s.pulse2_counter + 1 + k ≤ s.pulse2; omega) hd]
    cases s
    simp at ho ⊢
    constructor
    · omega
    · exact ho

theorem ticks_rest (k : Nat) (s : Machine) (hs : pulsing s = false) (ho : s.out = false) :
    ticks k s = s := by
  induction k generalizing s with
  | zero => rfl
  | succ k ih =>
    simp only [ticks]
    have h : timerIsr s = s := by
      rw [timerIsr_not_pulsing s hs]
      cases s
      simp at ho ⊢
      exact ho
    rw [h]
    exact ih s hs ho

theorem ticks_one (s : Machine) : ticks 1 s = timerIsr s := rfl

/-- First phase: from `PULSE_ONE` with the counter at 0, the first `n ≤ pulse1` callbacks
write HIGH and count. -/
theorem one_run (s : Machine) (n : Nat) (hs : s.state = States.PULSE_ONE)
    (hc : s.pulse1_counter = 0) (hn1 : 1 ≤ n) (hn : n ≤ s.pulse1) (hp : s.pulse1 ≤ 65535) :
    ticks n s = { s with out := true, pulse1_counter := n } := by
  obtain ⟨k, rfl⟩ := Nat.exists_eq_add_of_le hn1
  have hlt : s.pulse1_counter < s.pulse1 := by omega
  rw [ticks_add, ticks_one, timerIsr_one_stay s hs hlt, mod_small hlt hp]
  rw [ticks_one_phase k { s with out := true, pulse1_counter := s.pulse1_counter + 1 } hs rfl
    (by show s.pulse1_counter + 1 + k ≤ s.pulse1; omega) hp]
  cases s
  simp at hc ⊢
  omega

/-- Idle phase: the callback that finds the first pulse over enters `PULSE_IDLE`, and the
first `n ≤ idle` callbacks from there write LOW and count. -/
theorem idle_run (s : Machine) (n : Nat) (hs : s.state = States.PULSE_ONE)
    (hc : s.pulse1 ≤ s.pulse1_counter) (hv : s.viewstate ≠ States.VIEW_ONCE)
    (hi : s.idle_counter = 0) (hn1 : 1 ≤ n) (hn : n ≤ s.idle) (hd : s.idle ≤ 65535) :
    ticks n s = { s with state := States.PULSE_IDLE, out := false, idle_counter := n } := by
  obtain ⟨k, rfl⟩ := Nat.exists_eq_add_of_le hn1
  have hlt : s.idle_counter < s.idle := by omega
  rw [ticks_add, ticks_one, timerIsr_one_idle s hs hc hv hlt, mod_small hlt hd]
  rw [ticks_idle_phase k
    { s with state := States.PULSE_IDLE, out := false, idle_counter := s.idle_counter + 1 }
    rfl rfl (by show s.idle_counter + 1 + k ≤ s.idle; omega) hd]
  cases s
  simp at hi ⊢
  omega

/-- Second pulse: the callback that finds the idle time over enters `PULSE_TWO`, and the
first `n ≤ pulse2` callbacks from there write HIGH and count. -/
theorem two_run (s : Machine) (n : Nat) (hs : s.state = States.PULSE_IDLE)
    (hc : s.idle ≤ s.idle_counter) (hv : s.viewstate ≠ States.VIEW_CONTINOUS)
    (hq : s.pulse2_counter = 0) (hn1 : 1 ≤ n) (hn : n ≤ s.pulse2) (hd : s.pulse2 ≤ 65535) :
    ticks n s = { s with state := States.PULSE_TWO, out := true, pulse2_counter := n } := by
  obtain ⟨k, rfl⟩ := Nat.exists_eq_add_of_le hn1
  have hlt : s.pulse2_counter < s.pulse2 := by omega
  rw [ticks_add, ticks_one, timerIsr_idle_two s hs hc hv hlt, mod_small hlt hd]
  rw [ticks_two_phase k
    { s with state := States.PULSE_TWO, out := true, pulse2_counter := s.pulse2_counter + 1 }
    rfl rfl (by show s.pulse2_counter + 1 + k ≤ s.pulse2; omega) hd]
  cases s
  simp at hq ⊢
  omega

/-- End of the second pulse: the callback that finds it over still writes HIGH; every
later callback writes LOW. -/
theorem two_end_run (s : Machine) (n : Nat) (hs : s.state = States.PULSE_TWO)
    (hq : s.pulse2 ≤ s.pulse2_counter) (hn1 : 1 ≤ n) :
    ticks n s = { s with state := States.VIEW_TWICE, out := decide (n = 1) } := by
  obtain ⟨k, rfl⟩ := Nat.exists_eq_add_of_le hn1
  rw [ticks_add, ticks_one, timerIsr_two_end s hs hq]
  cases k with
  | zero => simp [ticks]
  | succ k =>
    simp only [ticks]
    rw [timerIsr_not_pulsing _ (by simp [pulsing])]
    rw [ticks_rest k _ (by simp [pulsing]) rfl]
    simp

/-- End of a single pulse: the callback that finds the pulse over writes LOW and returns
to `VIEW_ONCE`, where every later callback leaves the machine. -/
theorem once_end_run (s : Machine) (n : Nat) (hs : s.state = States.PULSE_ONE)
    (hc : s.pulse1 ≤ s.pulse1_counter) (hv : s.viewstate = States.VIEW_ONCE) (hn1 : 1 ≤ n) :
    ticks n s = { s with state := States.VIEW_ONCE, out := false } := by
  obtain ⟨k, rfl⟩ := Nat.exists_eq_add_of_le hn1
  rw [ticks_add, ticks_one, timerIsr_one_once s hs hc hv]
  exact ticks_rest k _ (by simp [pulsing]) rfl

/-! ## The click that starts or stops a sequence -/

theorem clicked_view (s : Machine)
    (h : s.state = States.VIEW_ONCE ∨ s.state = States.VIEW_TWICE ∨
      s.state = States.VIEW_CONTINOUS) :
    handle_encoder_button Button.Clicked s =
      { s with buttonState := Button.Clicked, pulse1_counter := 0, pulse2_counter := 0,
               idle_counter := 0, state := States.PULSE_ONE } := by
  rcases h with h | h | h <;>
    simp [handle_encoder_button, on_clicked, pulsing, editing, h]

/-! ## Single pulse -/

theorem once_late (s : Machine) (n : Nat) (hs : s.state = States.PULSE_ONE)
    (hv : s.viewstate = States.VIEW_ONCE) (hc : s.pulse1_counter = 0)
    (hp1 : 1 ≤ s.pulse1) (hp : s.pulse1 ≤ 65535) (hn : s.pulse1 < n) :
    ticks n s = { s with state := States.VIEW_ONCE, out := false,
                         pulse1_counter := s.pulse1 } := by
  obtain ⟨m, rfl⟩ := Nat.exists_eq_add_of_lt hn
  rw [Nat.add_assoc, ticks_add, one_run s s.pulse1 hs hc hp1 (Nat.le_refl _) hp]
  rw [once_end_run { s with out := true, pulse1_counter := s.pulse1 } (m + 1) hs
    (Nat.le_refl _) hv (by omega)]

/-- C2. Single-pulse cycle: in mode Once, after the click that starts the sequence from
`VIEW_ONCE`, the callback of tick `t` (the `t+1`-th callback) writes HIGH exactly when
`t < pulse1`; the state is `PULSE_ONE` up to and including the `pulse1`-th callback, the
callback of tick `pulse1` leaves `VIEW_ONCE` with the output LOW, the machine then stays
in `VIEW_ONCE`, and it is never in `PULSE_IDLE` or `PULSE_TWO`. -/
theorem once_full_cycle (s : Machine) (hst : s.state = States.VIEW_ONCE)
    (hv : s.viewstate = States.VIEW_ONCE) (hp1 : 1 ≤ s.pulse1) (hp : s.pulse1 ≤ 65535) :
    (∀ t, (ticks (t + 1) (handle_encoder_button Button.Clicked s)).out = true ↔
        t < s.pulse1) ∧
    (∀ n, n ≤ s.pulse1 →
        (ticks n (handle_encoder_button Button.Clicked s)).state = States.PULSE_ONE) ∧
    (ticks (s.pulse1 + 1) (handle_encoder_button Button.Clicked s)).state
        = States.VIEW_ONCE ∧
    (ticks (s.pulse1 + 1) (handle_encoder_button Button.Clicked s)).out = false ∧
    (∀ n, s.pulse1 < n →
        (ticks n (handle_encoder_button Button.Clicked s)).state = States.VIEW_ONCE) ∧
    (∀ n, (ticks n (handle_encoder_button Button.Clicked s)).state ≠ States.PULSE_IDLE ∧
        (ticks n (handle_encoder_button Button.Clicked s)).state ≠ States.PULSE_TWO) := by
  have hcv := clicked_view s (Or.inl hst)
  generalize handle_encoder_button Button.Clicked s = s0 at hcv ⊢
  have hs : s0.state = States.PULSE_ONE := by rw [hcv]
  have hv0 : s0.viewstate = States.VIEW_ONCE := by rw [hcv]; exact hv
  have hc : s0.pulse1_counter = 0 := by rw [hcv]
  have hpe : s0.pulse1 = s.pulse1 := by rw [hcv]
  clear hcv
  rw [← hpe] at hp1 hp ⊢
  have early : ∀ n, n ≤ s0.pulse1 → (ticks n s0).state = States.PULSE_ONE := by
    intro n hn
    rcases Nat.eq_zero_or_pos n with h0 | h0
    · rw [h0]; exact hs
    · rw [one_run s0 n hs hc h0 hn hp]; exact hs
  have late : ∀ n, s0.pulse1 < n → (ticks n s0).state = States.VIEW_ONCE := by
    intro n hn
    rw [once_late s0 n hs hv0 hc hp1 hp hn]
  refine ⟨?_, early, late _ (by omega), ?_, late, ?_⟩
  · intro t
    rcases Nat.lt_or_ge t s0.pulse1 with h | h
    · rw [one_run s0 (t + 1) hs hc (by omega) h hp]
      simp [h]
    · rw [once_late s0 (t + 1) hs hv0 hc hp1 hp (by omega)]
      simp
      omega
  · rw [once_late s0 (s0.pulse1 + 1) hs hv0 hc hp1 hp (by omega)]
  · intro n
    rcases Nat.lt_or_ge s0.pulse1 n with h | h
    · rw [late n h]; simp
    · rw [early n h]; simp

/-- Witness of C2 at `pulse1 = 50` (with `idle = 50`, `pulse2 = 200`). -/
theorem once_full_cycle_witness :
    (∀ t, (ticks (t + 1) (handle_encoder_button Button.Clicked
        (mk States.VIEW_ONCE States.VIEW_ONCE 50 50 200))).out = true ↔ t < 50) ∧
    (∀ n, n ≤ 50 → (ticks n (handle_encoder_button Button.Clicked
        (mk States.VIEW_ONCE States.VIEW_ONCE 50 50 200))).state = States.PULSE_ONE) ∧
    (ticks 51 (handle_encoder_button Button.Clicked
        (mk States.VIEW_ONCE States.VIEW_ONCE 50 50 200))).state = States.VIEW_ONCE ∧
    (ticks 51 (handle_encoder_button Button.Clicked
        (mk States.VIEW_ONCE States.VIEW_ONCE 50 50 200))).out = false ∧
    (∀ n, 50 < n → (ticks n (handle_encoder_button Button.Clicked
        (mk States.VIEW_ONCE States.VIEW_ONCE 50 50 200))).state = States.VIEW_ONCE) ∧
    (∀ n, (ticks n (handle_encoder_button Button.Clicked
        (mk States.VIEW_ONCE States.VIEW_ONCE 50 50 200))).state ≠ States.PULSE_IDLE ∧
      (ticks n (handle_encoder_button Button.Clicked
        (mk States.VIEW_ONCE States.VIEW_ONCE 50 50 200))).state ≠ States.PULSE_TWO) :=
  once_full_cycle (mk States.VIEW_ONCE States.VIEW_ONCE 50 50 200) rfl rfl
    (by decide) (by decide)

/-! ## Double pulse -/

theorem first_then_idle (s : Machine) (n : Nat) (hs : s.state = States.PULSE_ONE)
    (hv : s.viewstate ≠ States.VIEW_ONCE) (hc : s.pulse1_counter = 0)
    (hi : s.idle_counter = 0) (hp1 : 1 ≤ s.pulse1) (hp : s.pulse1 ≤ 65535)
    (hd : s.idle ≤ 65535) (hn1 : 1 ≤ n) (hn : n ≤ s.idle) :
    ticks (s.pulse1 + n) s =
      { s with state := States.PULSE_IDLE, out := false, pulse1_counter := s.pulse1,
               idle_counter := n } := by
  rw [ticks_add, one_run s s.pulse1 hs hc hp1 (Nat.le_refl _) hp]
  rw [idle_run { s with out := true, pulse1_counter := s.pulse1 } n hs (Nat.le_refl _)
    hv hi hn1 hn hd]

theorem twice_two (s : Machine) (n : Nat) (hs : s.state = States.PULSE_ONE)
    (hv : s.viewstate = States.VIEW_TWICE) (hc : s.pulse1_counter = 0)
    (hi : s.idle_counter = 0) (hq : s.pulse2_counter = 0)
    (hp1 : 1 ≤ s.pulse1) (hp : s.pulse1 ≤ 65535) (hd1 : 1 ≤ s.idle) (hd : s.idle ≤ 65535)
    (hq2 : s.pulse2 ≤ 65535) (hn1 : 1 ≤ n) (hn : n ≤ s.pulse2) :
    ticks (s.pulse1 + s.idle + n) s =
      { s with state := States.PULSE_TWO, out := true, pulse1_counter := s.pulse1,
               idle_counter := s.idle, pulse2_counter := n } := by
  rw [ticks_add, first_then_idle s s.idle hs (by simp [hv]) hc hi hp1 hp hd hd1 (Nat.le_refl _)]
  rw [two_run { s with state := States.PULSE_IDLE, out := false, pulse1_counter := s.pulse1,
                       idle_counter := s.idle } n rfl (Nat.le_refl _)
    (by simp [hv]) hq hn1 hn hq2]

theorem twice_end (s : Machine) (n : Nat) (hs : s.state = States.PULSE_ONE)
    (hv : s.viewstate = States.VIEW_TWICE) (hc : s.pulse1_counter = 0)
    (hi : s.idle_counter = 0) (hq : s.pulse2_counter = 0)
    (hp1 : 1 ≤ s.pulse1) (hp : s.pulse1 ≤ 65535) (hd1 : 1 ≤ s.idle) (hd : s.idle ≤ 65535)
    (hq1 : 1 ≤ s.pulse2) (hq2 : s.pulse2 ≤ 65535) (hn1 : 1 ≤ n) :
    ticks (s.pulse1 + s.idle + s.pulse2 + n) s =
      { s with state := States.VIEW_TWICE, out := decide (n = 1),
               pulse1_counter := s.pulse1, idle_counter := s.idle,
               pulse2_counter := s.pulse2 } := by
  rw [ticks_add, twice_two s s.pulse2 hs hv hc hi hq hp1 hp hd1 hd hq2 hq1 (Nat.le_refl _)]
  rw [two_end_run { s with state := States.PULSE_TWO, out := true,
                           pulse1_counter := s.pulse1, idle_counter := s.idle,
                           pulse2_counter := s.pulse2 } n rfl (Nat.le_refl _) hn1]

/-- C1, as the code runs. Double-pulse cycle: in mode Twice, after the click that starts
the sequence from `VIEW_TWICE`, the callback of tick `t` writes HIGH for `t < pulse1`, LOW
for `pulse1 ≤ t < pulse1 + idle`, and HIGH for `pulse1 + idle ≤ t ≤ pulse1 + idle + pulse2`,
the last tick included: the callback of tick `pulse1 + idle + pulse2` finds `PULSE_TWO`,
leaves `VIEW_TWICE` and still writes HIGH.  Only the callbacks after it write LOW. -/
theorem twice_cycle_as_coded (s : Machine) (hst : s.state = States.VIEW_TWICE)
    (hv : s.viewstate = States.VIEW_TWICE)
    (hp1 : 1 ≤ s.pulse1) (hp : s.pulse1 ≤ 65535) (hd1 : 1 ≤ s.idle) (hd : s.idle ≤ 65535)
    (hq1 : 1 ≤ s.pulse2) (hq2 : s.pulse2 ≤ 65535) :
    (∀ t, t < s.pulse1 →
        (ticks (t + 1) (handle_encoder_button Button.Clicked s)).out = true) ∧
    (∀ t, s.pulse1 ≤ t → t < s.pulse1 + s.idle →
        (ticks (t + 1) (handle_encoder_button Button.Clicked s)).out = false) ∧
    (∀ t, s.pulse1 + s.idle ≤ t → t ≤ s.pulse1 + s.idle + s.pulse2 →
        (ticks (t + 1) (handle_encoder_button Button.Clicked s)).out = true) ∧
    (ticks (s.pulse1 + s.idle + s.pulse2) (handle_encoder_button Button.Clicked s)).state
        = States.PULSE_TWO ∧
    (ticks (s.pulse1 + s.idle + s.pulse2 + 1) (handle_encoder_button Button.Clicked s)).state
        = States.VIEW_TWICE ∧
    (∀ t, s.pulse1 + s.idle + s.pulse2 < t →
        (ticks (t + 1) (handle_encoder_button Button.Clicked s)).out = false ∧
        (ticks (t + 1) (handle_encoder_button Button.Clicked s)).state
          = States.VIEW_TWICE) := by
  have hcv := clicked_view s (Or.inr (Or.inl hst))
  generalize handle_encoder_button Button.Clicked s = s0 at hcv ⊢
  have hs : s0.state = States.PULSE_ONE := by rw [hcv]
  have hv0 : s0.viewstate = States.VIEW_TWICE := by rw [hcv]; exact hv
  have hc : s0.pulse1_counter = 0 := by rw [hcv]
  have hi : s0.idle_counter = 0 := by rw [hcv]
  have hq : s0.pulse2_counter = 0 := by rw [hcv]
  have hpe : s0.pulse1 = s.pulse1 := by rw [hcv]
  have hde : s0.idle = s.idle := by rw [hcv]
  have hqe : s0.pulse2 = s.pulse2 := by rw [hcv]
  clear hcv
  rw [← hpe, ← hde, ← hqe]
  rw [← hpe] at hp1 hp
  rw [← hde] at hd1 hd
  rw [← hqe] at hq1 hq2
  refine ⟨?_, ?_, ?_, ?_, ?_, ?_⟩
  · intro t ht
    rw [one_run s0 (t + 1) hs hc (by omega) ht hp]
  · intro t h1 h2
    obtain ⟨j, rfl⟩ := Nat.exists_eq_add_of_le h1
    rw [Nat.add_assoc, first_then_idle s0 (j + 1) hs (by simp [hv0]) hc hi hp1 hp hd (by omega) (by omega)]
  · intro t h1 h2
    obtain ⟨j, rfl⟩ := Nat.exists_eq_add_of_le h1
    rcases Nat.lt_or_ge j s0.pulse2 with h | h
    · rw [Nat.add_assoc, twice_two s0 (j + 1) hs hv0 hc hi hq hp1 hp hd1 hd hq2
        (by omega) (by omega)]
    · have hj : j = s0.pulse2 := by omega
      rw [hj, twice_end s0 1 hs hv0 hc hi hq hp1 hp hd1 hd hq1 hq2 (Nat.le_refl _)]
      simp
  · rw [twice_two s0 s0.pulse2 hs hv0 hc hi hq hp1 hp hd1 hd hq2 hq1 (Nat.le_refl _)]
  · rw [twice_end s0 1 hs hv0 hc hi hq hp1 hp hd1 hd hq1 hq2 (Nat.le_refl _)]
  · intro t ht
    obtain ⟨j, rfl⟩ := Nat.exists_eq_add_of_lt ht
    rw [Nat.add_assoc, Nat.add_assoc (s0.pulse1 + s0.idle + s0.pulse2),
      twice_end s0 (j + 1 + 1) hs hv0 hc hi hq hp1 hp hd1 hd hq1 hq2 (by omega)]
    simp

/-- Witness of C1 at the example of the specification, `pulse1 = 50`, `idle = 50`,
`pulse2 = 200`: the callback of tick 300 leaves `VIEW_TWICE` and writes HIGH. -/
theorem twice_cycle_as_coded_witness :
    (ticks 301 (handle_encoder_button Button.Clicked
        (mk States.VIEW_TWICE States.VIEW_TWICE 50 50 200))).out = true ∧
    (ticks 300 (handle_encoder_button Button.Clicked
        (mk States.VIEW_TWICE States.VIEW_TWICE 50 50 200))).state = States.PULSE_TWO ∧
    (ticks 301 (handle_encoder_button Button.Clicked
        (mk States.VIEW_TWICE States.VIEW_TWICE 50 50 200))).state = States.VIEW_TWICE ∧
    (ticks 302 (handle_encoder_button Button.Clicked
        (mk States.VIEW_TWICE States.VIEW_TWICE 50 50 200))).out = false :=
  have h := twice_cycle_as_coded (mk States.VIEW_TWICE States.VIEW_TWICE 50 50 200) rfl rfl
    (by decide) (by decide) (by decide) (by decide) (by decide) (by decide)
  ⟨h.2.2.1 300 (by decide) (by decide), h.2.2.2.1, h.2.2.2.2.1,
    (h.2.2.2.2.2 301 (by decide)).1⟩

/-! ## Continuous stream -/

theorem streaming_timerIsr (s : Machine) (h : streaming s) : streaming (timerIsr s) := by
  obtain ⟨hv, hp1, hp, hd1, hd, hph⟩ := h
  rcases hph with ⟨hs, hc, hi⟩ | ⟨hs, hi1, hi⟩
  · rcases Nat.lt_or_ge s.pulse1_counter s.pulse1 with hlt | hge
    · rw [timerIsr_one_stay s hs hlt, mod_small hlt hp]
      exact ⟨hv, hp1, hp, hd1, hd, Or.inl ⟨hs, hlt, hi⟩⟩
    · rw [timerIsr_one_idle s hs hge (by simp [hv]) (by omega), hi]
      exact ⟨hv, hp1, hp, hd1, hd, Or.inr ⟨rfl, by simp, by simpa using hd1⟩⟩
  · rcases Nat.lt_or_ge s.idle_counter s.idle with hlt | hge
    · rw [timerIsr_idle_stay s hs hlt, mod_small hlt hd]
      exact ⟨hv, hp1, hp, hd1, hd, Or.inr ⟨hs, by simp, hlt⟩⟩
    · rw [timerIsr_idle_restart s hs hge hv]
      exact ⟨hv, hp1, hp, hd1, hd, Or.inl ⟨rfl, hp1, rfl⟩⟩

theorem streaming_ticks (n : Nat) (s : Machine) (h : streaming s) : streaming (ticks n s) := by
  induction n generalizing s with
  | zero => exact h
  | succ n ih => exact ih _ (streaming_timerIsr s h)

theorem streaming_reach_idle (d : Nat) (s : Machine) (h : streaming s)
    (hs : s.state = States.PULSE_ONE) (hd : s.pulse1 - s.pulse1_counter = d) :
    (ticks (d + 1) s).state = States.PULSE_IDLE := by
  induction d generalizing s with
  | zero =>
    obtain ⟨hv, hp1, hp, hd1, hd2, hph⟩ := h
    rcases hph with ⟨_, hc, hi⟩ | ⟨hs2, _, _⟩
    · rw [ticks_one, timerIsr_one_idle s hs (by omega) (by simp [hv]) (by omega)]
    · rw [hs] at hs2; cases hs2
  | succ d ih =>
    have hlt : s.pulse1_counter < s.pulse1 := by omega
    have hst := streaming_timerIsr s h
    have hp := h.2.2.1
    simp only [ticks]
    rw [timerIsr_one_stay s hs hlt, mod_small hlt hp] at hst ⊢
    exact ih _ hst hs (by show s.pulse1 - (s.pulse1_counter + 1) = d; omega)

theorem streaming_reach_one (d : Nat) (s : Machine) (h : streaming s)
    (hs : s.state = States.PULSE_IDLE) (hd : s.idle - s.idle_counter = d) :
    (ticks (d + 1) s).state = States.PULSE_ONE := by
  induction d generalizing s with
  | zero =>
    obtain ⟨hv, hp1, hp, hd1, hd2, hph⟩ := h
    rw [ticks_one, timerIsr_idle_restart s hs (by omega) hv]
  | succ d ih =>
    have hlt : s.idle_counter < s.idle := by omega
    have hst := streaming_timerIsr s h
    have hp := h.2.2.2.2.1
    simp only [ticks]
    rw [timerIsr_idle_stay s hs hlt, mod_small hlt hp] at hst ⊢
    exact ih _ hst hs (by show s.idle - (s.idle_counter + 1) = d; omega)

theorem streaming_state (s : Machine) (h : streaming s) :
    s.state = States.PULSE_ONE ∨ s.state = States.PULSE_IDLE := by
  rcases h.2.2.2.2.2 with h1 | h1
  · exact Or.inl h1.1
  · exact Or.inr h1.1

theorem streaming_recurs (s : Machine) (h : streaming s) :
    (∃ k, 1 ≤ k ∧ (ticks k s).state = States.PULSE_ONE) ∧
    (∃ k, 1 ≤ k ∧ (ticks k s).state = States.PULSE_IDLE) := by
  rcases streaming_state s h with hs | hs
  · have h1 := streaming_reach_idle _ s h hs rfl
    have h2 := streaming_reach_one _ _ (streaming_ticks _ s h) h1 rfl
    rw [← ticks_add] at h2
    exact ⟨⟨_, by omega, h2⟩, ⟨_, by omega, h1⟩⟩
  · have h1 := streaming_reach_one _ s h hs rfl
    have h2 := streaming_reach_idle _ _ (streaming_ticks _ s h) h1 rfl
    rw [← ticks_add] at h2
    exact ⟨⟨_, by omega, h1⟩, ⟨_, by omega, h2⟩⟩

theorem clicked_streaming (s : Machine) (h : streaming s) :
    handle_encoder_button Button.Clicked s =
      { s with buttonState := Button.Clicked, state := States.VIEW_CONTINOUS } := by
  rcases streaming_state s h with hs | hs <;>
    simp [handle_encoder_button, on_clicked, pulsing, editing, hs, h.1]

/-- C3. A continuous stream never stops by itself: in mode Continuous with `pulse1` and
`idle` in `[1, 65535]` (any `pulse2`), after the click that starts the sequence from
`VIEW_CONTINOUS` and any number `n` of timer callbacks the state is `PULSE_ONE` or
`PULSE_IDLE`; each of the two states is reached again strictly later than `n`; and a click
delivered after the `n`-th callback sets the state to `VIEW_CONTINOUS`. -/
theorem continuous_never_stops (s : Machine) (hst : s.state = States.VIEW_CONTINOUS)
    (hv : s.viewstate = States.VIEW_CONTINOUS)
    (hp1 : 1 ≤ s.pulse1) (hp : s.pulse1 ≤ 65535) (hd1 : 1 ≤ s.idle) (hd : s.idle ≤ 65535)
    (n : Nat) :
    ((ticks n (handle_encoder_button Button.Clicked s)).state = States.PULSE_ONE ∨
      (ticks n (handle_encoder_button Button.Clicked s)).state = States.PULSE_IDLE) ∧
    (∃ m, n < m ∧
      (ticks m (handle_encoder_button Button.Clicked s)).state = States.PULSE_ONE) ∧
    (∃ m, n < m ∧
      (ticks m (handle_encoder_button Button.Clicked s)).state = States.PULSE_IDLE) ∧
    (handle_encoder_button Button.Clicked
      (ticks n (handle_encoder_button Button.Clicked s))).state = States.VIEW_CONTINOUS := by
  have hcv := clicked_view s (Or.inr (Or.inr hst))
  have h0 : streaming (handle_encoder_button Button.Clicked s) := by
    rw [hcv]
    exact ⟨hv, hp1, hp, hd1, hd, Or.inl ⟨rfl, Nat.zero_le _, rfl⟩⟩
  have hn := streaming_ticks n _ h0
  obtain ⟨⟨k1, hk1, e1⟩, ⟨k2, hk2, e2⟩⟩ := streaming_recurs _ hn
  rw [← ticks_add] at e1 e2
  refine ⟨streaming_state _ hn, ⟨n + k1, by omega, e1⟩, ⟨n + k2, by omega, e2⟩, ?_⟩
  rw [clicked_streaming _ hn]

/-- Witness of C3 at `pulse1 = 50`, `idle = 50`, after 1000 callbacks. -/
theorem continuous_never_stops_witness :
    ((ticks 1000 (handle_encoder_button Button.Clicked
        (mk States.VIEW_CONTINOUS States.VIEW_CONTINOUS 50 50 200))).state
          = States.PULSE_ONE ∨
      (ticks 1000 (handle_encoder_button Button.Clicked
        (mk States.VIEW_CONTINOUS States.VIEW_CONTINOUS 50 50 200))).state
          = States.PULSE_IDLE) ∧
    (∃ m, 1000 < m ∧ (ticks m (handle_encoder_button Button.Clicked
        (mk States.VIEW_CONTINOUS States.VIEW_CONTINOUS 50 50 200))).state
          = States.PULSE_ONE) ∧
    (∃ m, 1000 < m ∧ (ticks m (handle_encoder_button Button.Clicked
        (mk States.VIEW_CONTINOUS States.VIEW_CONTINOUS 50 50 200))).state
          = States.PULSE_IDLE) ∧
    (handle_encoder_button Button.Clicked
      (ticks 1000 (handle_encoder_button Button.Clicked
        (mk States.VIEW_CONTINOUS States.VIEW_CONTINOUS 50 50 200)))).state
          = States.VIEW_CONTINOUS :=
  continuous_never_stops (mk States.VIEW_CONTINOUS States.VIEW_CONTINOUS 50 50 200) rfl rfl
    (by decide) (by decide) (by decide) (by decide) 1000

theorem stream_restart (s : Machine) (hs : s.state = States.PULSE_ONE)
    (hv : s.viewstate = States.VIEW_CONTINOUS) (hc : s.pulse1_counter = 0)
    (hi : s.idle_counter = 0) (hp1 : 1 ≤ s.pulse1) (hp : s.pulse1 ≤ 65535)
    (hd1 : 1 ≤ s.idle) (hd : s.idle ≤ 65535) :
    ticks (s.pulse1 + s.idle + 1) s =
      { s with state := States.PULSE_ONE, out := false, pulse1_counter := 1,
               idle_counter := 0, pulse2_counter := 0 } := by
  rw [ticks_add, first_then_idle s s.idle hs (by simp [hv]) hc hi hp1 hp hd hd1
    (Nat.le_refl _), ticks_one]
  rw [timerIsr_idle_restart
    { s with state := States.PULSE_IDLE, out := false, pulse1_counter := s.pulse1,
             idle_counter := s.idle } rfl (Nat.le_refl _) hv]

theorem stream_second (s : Machine) (n : Nat) (hs : s.state = States.PULSE_ONE)
    (hv : s.viewstate = States.VIEW_CONTINOUS) (hc : s.pulse1_counter = 0)
    (hi : s.idle_counter = 0) (hp1 : 1 ≤ s.pulse1) (hp : s.pulse1 ≤ 65535)
    (hd1 : 1 ≤ s.idle) (hd : s.idle ≤ 65535) (hn1 : 1 ≤ n) (hn : n + 1 ≤ s.pulse1) :
    ticks (s.pulse1 + s.idle + 1 + n) s =
      { s with state := States.PULSE_ONE, out := true, pulse1_counter := n + 1,
               idle_counter := 0, pulse2_counter := 0 } := by
  obtain ⟨k, rfl⟩ := Nat.exists_eq_add_of_le hn1
  rw [ticks_add, stream_restart s hs hv hc hi hp1 hp hd1 hd, ticks_add, ticks_one]
  rw [timerIsr_one_stay
    { s with state := States.PULSE_ONE, out := false, pulse1_counter := 1,
             idle_counter := 0, pulse2_counter := 0 } rfl (by show 1 < s.pulse1; omega)]
  rw [ticks_one_phase k
    { s with state := States.PULSE_ONE, out := true, pulse1_counter := (1 + 1) % 65536,
             idle_counter := 0, pulse2_counter := 0 } rfl rfl
    (by show (1 + 1) % 65536 + k ≤ s.pulse1; omega) hp]
  simp
  omega

theorem stream_second_end (s : Machine) (hs : s.state = States.PULSE_ONE)
    (hv : s.viewstate = States.VIEW_CONTINOUS) (hc : s.pulse1_counter = 0)
    (hi : s.idle_counter = 0) (hp1 : 1 ≤ s.pulse1) (hp : s.pulse1 ≤ 65535)
    (hd1 : 1 ≤ s.idle) (hd : s.idle ≤ 65535) :
    ticks (s.pulse1 + s.idle + 1 + s.pulse1) s =
      { s with state := States.PULSE_IDLE, out := false, pulse1_counter := s.pulse1,
               idle_counter := 1, pulse2_counter := 0 } := by
  rcases Nat.eq_or_lt_of_le hp1 with h1 | h1
  · have e : s.pulse1 + s.idle + 1 + s.pulse1 = s.pulse1 + s.idle + 1 + 1 := by omega
    rw [e, ticks_add, stream_restart s hs hv hc hi hp1 hp hd1 hd, ticks_one]
    rw [timerIsr_one_idle
      { s with state := States.PULSE_ONE, out := false, pulse1_counter := 1,
               idle_counter := 0, pulse2_counter := 0 } rfl (by show s.pulse1 ≤ 1; omega)
      (by simp [hv]) (by show 0 < s.idle; omega)]
    simp
    omega
  · have e : s.pulse1 + s.idle + 1 + s.pulse1 = s.pulse1 + s.idle + 1 + (s.pulse1 - 1) + 1 := by
      omega
    rw [e, ticks_add,
      stream_second s (s.pulse1 - 1) hs hv hc hi hp1 hp hd1 hd (by omega) (by omega),
      ticks_one]
    rw [timerIsr_one_idle
      { s with state := States.PULSE_ONE, out := true, pulse1_counter := s.pulse1 - 1 + 1,
               idle_counter := 0, pulse2_counter := 0 } rfl
      (by show s.pulse1 ≤ s.pulse1 - 1 + 1; omega)
      (by simp [hv]) (by show 0 < s.idle; omega)]
    simp
    omega

theorem stream_period_base (s : Machine) (hs : s.state = States.PULSE_ONE)
    (hv : s.viewstate = States.VIEW_CONTINOUS) (hc : s.pulse1_counter = 0)
    (hi : s.idle_counter = 0) (hq : s.pulse2_counter = 0)
    (hp1 : 1 ≤ s.pulse1) (hp : s.pulse1 ≤ 65535)
    (hd1 : 1 ≤ s.idle) (hd : s.idle ≤ 65535) :
    ticks (s.pulse1 + s.idle + 2) s = ticks 2 s := by
  rcases Nat.eq_or_lt_of_le hp1 with h1 | h1
  · have e : s.pulse1 + s.idle + 2 = s.pulse1 + s.idle + 1 + s.pulse1 := by omega
    have e2 : 2 = s.pulse1 + 1 := by omega
    rw [e, stream_second_end s hs hv hc hi hp1 hp hd1 hd]
    rw [e2, first_then_idle s 1 hs (by simp [hv]) hc hi hp1 hp hd (Nat.le_refl _) hd1]
    simp [hq]
  · rw [stream_second s 1 hs hv hc hi hp1 hp hd1 hd (Nat.le_refl _) (by omega)]
    rw [one_run s 2 hs hc (by omega) (by omega) hp]
    cases s
    simp at hs hi hq ⊢
    exact ⟨hs.symm, hi.symm, hq.symm⟩

theorem stream_period (s : Machine) (hs : s.state = States.PULSE_ONE)
    (hv : s.viewstate = States.VIEW_CONTINOUS) (hc : s.pulse1_counter = 0)
    (hi : s.idle_counter = 0) (hq : s.pulse2_counter = 0)
    (hp1 : 1 ≤ s.pulse1) (hp : s.pulse1 ≤ 65535)
    (hd1 : 1 ≤ s.idle) (hd : s.idle ≤ 65535) (r n : Nat) (hn : 2 ≤ n) :
    ticks (n + r * (s.pulse1 + s.idle)) s = ticks n s := by
  induction r with
  | zero => simp
  | succ r ih =>
    obtain ⟨m, rfl⟩ := Nat.exists_eq_add_of_le hn
    have e : 2 + m + (r + 1) * (s.pulse1 + s.idle) =
        (s.pulse1 + s.idle + 2) + (m + r * (s.pulse1 + s.idle)) := by
      rw [Nat.succ_mul]
      omega
    rw [e, ticks_add, stream_period_base s hs hv hc hi hq hp1 hp hd1 hd, ← ticks_add,
      ← Nat.add_assoc]
    exact ih

/-- C4, as the code runs. Continuous stream widths: in mode Continuous, after the click
that starts the stream from `VIEW_CONTINOUS`, the first repetition writes HIGH on the
`pulse1` ticks `[0, pulse1)`; the callback of tick `pulse1 + idle` finds the idle time over,
resets the counters, re-enters `PULSE_ONE` and writes LOW, and `timerIsr` then increments
`pulse1_counter`, so that callback leaves `pulse1_counter = 1`; the output is LOW on the
`idle + 1` ticks `[pulse1, pulse1 + idle]` and HIGH on the `pulse1 - 1` ticks
`(pulse1 + idle, 2 * pulse1 + idle)`; and from the second callback on the run has period
`pulse1 + idle`, so every later repetition is the same as the second. -/
theorem continuous_widths_as_coded (s : Machine) (hst : s.state = States.VIEW_CONTINOUS)
    (hv : s.viewstate = States.VIEW_CONTINOUS)
    (hp1 : 1 ≤ s.pulse1) (hp : s.pulse1 ≤ 65535) (hd1 : 1 ≤ s.idle) (hd : s.idle ≤ 65535) :
    (ticks (s.pulse1 + s.idle) (handle_encoder_button Button.Clicked s)).state
        = States.PULSE_IDLE ∧
    (ticks (s.pulse1 + s.idle) (handle_encoder_button Button.Clicked s)).idle_counter
        = s.idle ∧
    (ticks (s.pulse1 + s.idle + 1) (handle_encoder_button Button.Clicked s)).state
        = States.PULSE_ONE ∧
    (ticks (s.pulse1 + s.idle + 1) (handle_encoder_button Button.Clicked s)).pulse1_counter
        = 1 ∧
    (∀ t, t < s.pulse1 →
        (ticks (t + 1) (handle_encoder_button Button.Clicked s)).out = true) ∧
    (∀ t, s.pulse1 ≤ t → t ≤ s.pulse1 + s.idle →
        (ticks (t + 1) (handle_encoder_button Button.Clicked s)).out = false) ∧
    (∀ t, s.pulse1 + s.idle < t → t < s.pulse1 + s.idle + s.pulse1 →
        (ticks (t + 1) (handle_encoder_button Button.Clicked s)).out = true) ∧
    (ticks (s.pulse1 + s.idle + s.pulse1 + 1) (handle_encoder_button Button.Clicked s)).out
        = false ∧
    (∀ r t, 1 ≤ t →
        ticks (t + 1 + r * (s.pulse1 + s.idle)) (handle_encoder_button Button.Clicked s) =
          ticks (t + 1) (handle_encoder_button Button.Clicked s)) := by
  have hcv := clicked_view s (Or.inr (Or.inr hst))
  generalize handle_encoder_button Button.Clicked s = s0 at hcv ⊢
  have hs : s0.state = States.PULSE_ONE := by rw [hcv]
  have hv0 : s0.viewstate = States.VIEW_CONTINOUS := by rw [hcv]; exact hv
  have hc : s0.pulse1_counter = 0 := by rw [hcv]
  have hi : s0.idle_counter = 0 := by rw [hcv]
  have hq : s0.pulse2_counter = 0 := by rw [hcv]
  have hpe : s0.pulse1 = s.pulse1 := by rw [hcv]
  have hde : s0.idle = s.idle := by rw [hcv]
  clear hcv
  rw [← hpe, ← hde]
  rw [← hpe] at hp1 hp
  rw [← hde] at hd1 hd
  have hvn : s0.viewstate ≠ States.VIEW_ONCE := by simp [hv0]
  refine ⟨?_, ?_, ?_, ?_, ?_, ?_, ?_, ?_, ?_⟩
  · rw [first_then_idle s0 s0.idle hs hvn hc hi hp1 hp hd hd1 (Nat.le_refl _)]
  · rw [first_then_idle s0 s0.idle hs hvn hc hi hp1 hp hd hd1 (Nat.le_refl _)]
  · rw [stream_restart s0 hs hv0 hc hi hp1 hp hd1 hd]
  · rw [stream_restart s0 hs hv0 hc hi hp1 hp hd1 hd]
  · intro t ht
    rw [one_run s0 (t + 1) hs hc (by omega) ht hp]
  · intro t h1 h2
    obtain ⟨j, rfl⟩ := Nat.exists_eq_add_of_le h1
    rcases Nat.lt_or_ge j s0.idle with h | h
    · rw [Nat.add_assoc, first_then_idle s0 (j + 1) hs hvn hc hi hp1 hp hd (by omega)
        (by omega)]
    · have hj : j = s0.idle := by omega
      rw [hj, stream_restart s0 hs hv0 hc hi hp1 hp hd1 hd]
  · intro t h1 h2
    obtain ⟨j, rfl⟩ := Nat.exists_eq_add_of_lt h1
    have e : s0.pulse1 + s0.idle + j + 1 + 1 = s0.pulse1 + s0.idle + 1 + (1 + j) := by
      omega
    rw [e, stream_second s0 (1 + j) hs hv0 hc hi hp1 hp hd1 hd (by omega) (by omega)]
  · have e : s0.pulse1 + s0.idle + s0.pulse1 + 1 = s0.pulse1 + s0.idle + 1 + s0.pulse1 := by
      omega
    rw [e, stream_second_end s0 hs hv0 hc hi hp1 hp hd1 hd]
  · intro r t ht
    exact stream_period s0 hs hv0 hc hi hq hp1 hp hd1 hd r (t + 1) (by omega)

/-- Witness of C4 at `pulse1 = 50`, `idle = 50`: the callback of tick 100 leaves
`PULSE_ONE` with `pulse1_counter = 1` and writes LOW, the callback of tick 149 writes HIGH
and that of tick 150 writes LOW, so the second repetition is HIGH on 49 ticks. -/
theorem continuous_widths_as_coded_witness :
    (ticks 101 (handle_encoder_button Button.Clicked
        (mk States.VIEW_CONTINOUS States.VIEW_CONTINOUS 50 50 200))).state
          = States.PULSE_ONE ∧
    (ticks 101 (handle_encoder_button Button.Clicked
        (mk States.VIEW_CONTINOUS States.VIEW_CONTINOUS 50 50 200))).pulse1_counter = 1 ∧
    (ticks 101 (handle_encoder_button Button.Clicked
        (mk States.VIEW_CONTINOUS States.VIEW_CONTINOUS 50 50 200))).out = false ∧
    (ticks 150 (handle_encoder_button Button.Clicked
        (mk States.VIEW_CONTINOUS States.VIEW_CONTINOUS 50 50 200))).out = true ∧
    (ticks 151 (handle_encoder_button Button.Clicked
        (mk States.VIEW_CONTINOUS States.VIEW_CONTINOUS 50 50 200))).out = false :=
  have h := continuous_widths_as_coded
    (mk States.VIEW_CONTINOUS States.VIEW_CONTINOUS 50 50 200) rfl rfl
    (by decide) (by decide) (by decide) (by decide)
  ⟨h.2.2.1, h.2.2.2.1, h.2.2.2.2.2.1 100 (by decide) (by decide),
    h.2.2.2.2.2.2.1 149 (by decide) (by decide), h.2.2.2.2.2.2.2.1⟩

/-! ## Button events -/

/-- C5. Start: in `VIEW_ONCE`, `VIEW_TWICE` or `VIEW_CONTINOUS`, whatever the counters hold,
a click sets the three counters to 0 and the state to `PULSE_ONE` and changes nothing else
but the stored event (so the mode and the three durations are kept); hence, when
`pulse1 ≥ 1`, the first callback after it compares the counter value 0 with `pulse1`:
it stays in `PULSE_ONE`, writes HIGH and leaves `pulse1_counter = 1`. -/
theorem start_click (s : Machine)
    (h : s.state = States.VIEW_ONCE ∨ s.state = States.VIEW_TWICE ∨
      s.state = States.VIEW_CONTINOUS) :
    handle_encoder_button Button.Clicked s =
      { s with buttonState := Button.Clicked, pulse1_counter := 0, pulse2_counter := 0,
               idle_counter := 0, state := States.PULSE_ONE } ∧
    (handle_encoder_button Button.Clicked s).pulse1_counter = 0 ∧
    (handle_encoder_button Button.Clicked s).idle_counter = 0 ∧
    (handle_encoder_button Button.Clicked s).pulse2_counter = 0 ∧
    (handle_encoder_button Button.Clicked s).state = States.PULSE_ONE ∧
    (handle_encoder_button Button.Clicked s).viewstate = s.viewstate ∧
    (handle_encoder_button Button.Clicked s).pulse1 = s.pulse1 ∧
    (handle_encoder_button Button.Clicked s).idle = s.idle ∧
    (handle_encoder_button Button.Clicked s).pulse2 = s.pulse2 ∧
    (1 ≤ s.pulse1 →
      (timerIsr (handle_encoder_button Button.Clicked s)).state = States.PULSE_ONE ∧
      (timerIsr (handle_encoder_button Button.Clicked s)).out = true ∧
      (timerIsr (handle_encoder_button Button.Clicked s)).pulse1_counter = 1) := by
  have hcv := clicked_view s h
  refine ⟨hcv, ?_, ?_, ?_, ?_, ?_, ?_, ?_, ?_, ?_⟩ <;> rw [hcv]
  intro hp
  rw [timerIsr_one_stay _ rfl (by show 0 < s.pulse1; omega)]
  exact ⟨rfl, rfl, rfl⟩

/-- Witness of C5: in `VIEW_TWICE` with stale counters 7, 8, 9. -/
theorem start_click_witness :
    (handle_encoder_button Button.Clicked
      { mk States.VIEW_TWICE States.VIEW_TWICE 50 50 200 with
        pulse1_counter := 7, idle_counter := 8, pulse2_counter := 9 }).pulse1_counter = 0 ∧
    (handle_encoder_button Button.Clicked
      { mk States.VIEW_TWICE States.VIEW_TWICE 50 50 200 with
        pulse1_counter := 7, idle_counter := 8, pulse2_counter := 9 }).idle_counter = 0 ∧
    (handle_encoder_button Button.Clicked
      { mk States.VIEW_TWICE States.VIEW_TWICE 50 50 200 with
        pulse1_counter := 7, idle_counter := 8, pulse2_counter := 9 }).pulse2_counter = 0 ∧
    (handle_encoder_button Button.Clicked
      { mk States.VIEW_TWICE States.VIEW_TWICE 50 50 200 with
        pulse1_counter := 7, idle_counter := 8, pulse2_counter := 9 }).state
          = States.PULSE_ONE :=
  have h := start_click
    { mk States.VIEW_TWICE States.VIEW_TWICE 50 50 200 with
      pulse1_counter := 7, idle_counter := 8, pulse2_counter := 9 } (Or.inr (Or.inl rfl))
  ⟨h.2.1, h.2.2.1, h.2.2.2.1, h.2.2.2.2.1⟩

/-- C6. Stop and ignored clicks: a click in a pulsing state with mode Continuous sets the
state to `VIEW_CONTINOUS` and changes nothing else but the stored event; a click in a
pulsing state with any other mode (Once, Twice), or in an editing state, changes nothing
but the stored event. -/
theorem click_stop_or_ignored (s : Machine) :
    (pulsing s = true → s.viewstate = States.VIEW_CONTINOUS →
      handle_encoder_button Button.Clicked s =
        { s with buttonState := Button.Clicked, state := States.VIEW_CONTINOUS }) ∧
    (pulsing s = true → s.viewstate ≠ States.VIEW_CONTINOUS →
      handle_encoder_button Button.Clicked s = { s with buttonState := Button.Clicked }) ∧
    (editing s = true →
      handle_encoder_button Button.Clicked s = { s with buttonState := Button.Clicked }) := by
  refine ⟨?_, ?_, ?_⟩
  · intro hp hv
    have hp2 : s.state = States.PULSE_ONE ∨ s.state = States.PULSE_TWO ∨
        s.state = States.PULSE_IDLE := by
      simpa [pulsing] using hp
    rcases hp2 with h | h | h <;>
      simp [handle_encoder_button, on_clicked, pulsing, editing, h, hv]
  · intro hp hv
    have hp2 : s.state = States.PULSE_ONE ∨ s.state = States.PULSE_TWO ∨
        s.state = States.PULSE_IDLE := by
      simpa [pulsing] using hp
    rcases hp2 with h | h | h <;>
      simp [handle_encoder_button, on_clicked, pulsing, editing, h, hv]
  · intro he
    have he2 : s.state = States.EDIT_PULSE1 ∨ s.state = States.EDIT_PULSE2 ∨
        s.state = States.EDIT_IDLE := by
      simpa [editing] using he
    rcases he2 with h | h | h <;>
      simp [handle_encoder_button, on_clicked, pulsing, editing, h]

/-- Witness of C6: a stop in `PULSE_IDLE` of a continuous stream, an ignored click in
`PULSE_TWO` of a double pulse, an ignored click in `EDIT_IDLE`. -/
theorem click_stop_or_ignored_witness :
    (handle_encoder_button Button.Clicked
        (mk States.PULSE_IDLE States.VIEW_CONTINOUS 50 50 200)).state
      = States.VIEW_CONTINOUS ∧
    (handle_encoder_button Button.Clicked
        (mk States.PULSE_TWO States.VIEW_TWICE 50 50 200)).state = States.PULSE_TWO ∧
    (handle_encoder_button Button.Clicked
        (mk States.EDIT_IDLE States.VIEW_TWICE 50 50 200)).state = States.EDIT_IDLE :=
  ⟨by rw [(click_stop_or_ignored (mk States.PULSE_IDLE States.VIEW_CONTINOUS 50 50 200)).1
      rfl rfl],
   by rw [(click_stop_or_ignored (mk States.PULSE_TWO States.VIEW_TWICE 50 50 200)).2.1
      rfl (by decide)]; rfl,
   by rw [(click_stop_or_ignored (mk States.EDIT_IDLE States.VIEW_TWICE 50 50 200)).2.2
      rfl]; rfl⟩

theorem dbl_frame (s : Machine) :
    (handle_encoder_button Button.DoubleClicked s).viewstate = s.viewstate ∧
    (handle_encoder_button Button.DoubleClicked s).pulse1 = s.pulse1 ∧
    (handle_encoder_button Button.DoubleClicked s).idle = s.idle ∧
    (handle_encoder_button Button.DoubleClicked s).pulse2 = s.pulse2 ∧
    (handle_encoder_button Button.DoubleClicked s).pulse1_counter = s.pulse1_counter ∧
    (handle_encoder_button Button.DoubleClicked s).idle_counter = s.idle_counter ∧
    (handle_encoder_button Button.DoubleClicked s).pulse2_counter = s.pulse2_counter := by
  rcases s with ⟨st, vs, p1, idl, p2, c1, ci, c2, o, bh, bs, ep, oep, xl, xs, xm, mem, wr⟩
  cases st <;> cases vs <;>
    simp [handle_encoder_button, on_double_clicked, pulsing, dbl_edit_pulse1, dbl_edit_idle,
      dbl_edit_pulse2, EEPROMWriteInt16, EEPROM_write]

theorem dbl_state (s : Machine) :
    (handle_encoder_button Button.DoubleClicked s).state =
      match s.state, s.viewstate with
      | States.VIEW_ONCE, _ => States.EDIT_PULSE1
      | States.VIEW_TWICE, _ => States.EDIT_PULSE1
      | States.VIEW_CONTINOUS, _ => States.EDIT_PULSE1
      | States.EDIT_PULSE1, States.VIEW_ONCE => States.VIEW_ONCE
      | States.EDIT_PULSE1, States.VIEW_TWICE => States.EDIT_IDLE
      | States.EDIT_PULSE1, States.VIEW_CONTINOUS => States.EDIT_IDLE
      | States.EDIT_IDLE, States.VIEW_TWICE => States.EDIT_PULSE2
      | States.EDIT_IDLE, States.VIEW_CONTINOUS => States.VIEW_CONTINOUS
      | States.EDIT_PULSE2, _ => States.VIEW_TWICE
      | st, _ => st := by
  rcases s with ⟨st, vs, p1, idl, p2, c1, ci, c2, o, bh, bs, ep, oep, xl, xs, xm, mem, wr⟩
  cases st <;> cases vs <;>
    simp [handle_encoder_button, on_double_clicked, pulsing, dbl_edit_pulse1, dbl_edit_idle,
      dbl_edit_pulse2, EEPROMWriteInt16, EEPROM_write]

/-- C7. Double-click transition table: from any view state the next state is `EDIT_PULSE1`;
from `EDIT_PULSE1` it is `VIEW_ONCE` in mode Once and `EDIT_IDLE` in modes Twice and
Continuous; from `EDIT_IDLE` it is `EDIT_PULSE2` in mode Twice and `VIEW_CONTINOUS` in mode
Continuous; from `EDIT_PULSE2` in mode Twice it is `VIEW_TWICE`; in a pulsing state nothing
changes but the stored event.  In every state the mode, the three durations and the three
counters are kept.  Hence 2 double-clicks from `VIEW_ONCE` in mode Once, 4 from
`VIEW_TWICE` in mode Twice and 3 from `VIEW_CONTINOUS` in mode Continuous come back to
that view state. -/
theorem toggle_edit_table (s : Machine) :
    ((s.state = States.VIEW_ONCE ∨ s.state = States.VIEW_TWICE ∨
        s.state = States.VIEW_CONTINOUS) →
      handle_encoder_button Button.DoubleClicked s =
        { s with buttonState := Button.DoubleClicked, state := States.EDIT_PULSE1 }) ∧
    (s.state = States.EDIT_PULSE1 → s.viewstate = States.VIEW_ONCE →
      (handle_encoder_button Button.DoubleClicked s).state = States.VIEW_ONCE) ∧
    (s.state = States.EDIT_PULSE1 →
      (s.viewstate = States.VIEW_TWICE ∨ s.viewstate = States.VIEW_CONTINOUS) →
      (handle_encoder_button Button.DoubleClicked s).state = States.EDIT_IDLE) ∧
    (s.state = States.EDIT_IDLE → s.viewstate = States.VIEW_TWICE →
      (handle_encoder_button Button.DoubleClicked s).state = States.EDIT_PULSE2) ∧
    (s.state = States.EDIT_IDLE → s.viewstate = States.VIEW_CONTINOUS →
      (handle_encoder_button Button.DoubleClicked s).state = States.VIEW_CONTINOUS) ∧
    (s.state = States.EDIT_PULSE2 → s.viewstate = States.VIEW_TWICE →
      (handle_encoder_button Button.DoubleClicked s).state = States.VIEW_TWICE) ∧
    (pulsing s = true →
      handle_encoder_button Button.DoubleClicked s =
        { s with buttonState := Button.DoubleClicked }) ∧
    ((handle_encoder_button Button.DoubleClicked s).viewstate = s.viewstate ∧
      (handle_encoder_button Button.DoubleClicked s).pulse1 = s.pulse1 ∧
      (handle_encoder_button Button.DoubleClicked s).idle = s.idle ∧
      (handle_encoder_button Button.DoubleClicked s).pulse2 = s.pulse2 ∧
      (handle_encoder_button Button.DoubleClicked s).pulse1_counter = s.pulse1_counter ∧
      (handle_encoder_button Button.DoubleClicked s).idle_counter = s.idle_counter ∧
      (handle_encoder_button Button.DoubleClicked s).pulse2_counter = s.pulse2_counter) ∧
    (s.state = States.VIEW_ONCE → s.viewstate = States.VIEW_ONCE →
      (handle_encoder_button Button.DoubleClicked
        (handle_encoder_button Button.DoubleClicked s)).state = States.VIEW_ONCE) ∧
    (s.state = States.VIEW_TWICE → s.viewstate = States.VIEW_TWICE →
      (handle_encoder_button Button.DoubleClicked
        (handle_encoder_button Button.DoubleClicked
          (handle_encoder_button Button.DoubleClicked
            (handle_encoder_button Button.DoubleClicked s)))).state = States.VIEW_TWICE) ∧
    (s.state = States.VIEW_CONTINOUS → s.viewstate = States.VIEW_CONTINOUS →
      (handle_encoder_button Button.DoubleClicked
        (handle_encoder_button Button.DoubleClicked
          (handle_encoder_button Button.DoubleClicked s))).state
        = States.VIEW_CONTINOUS) := by
  refine ⟨?_, ?_, ?_, ?_, ?_, ?_, ?_, dbl_frame s, ?_, ?_, ?_⟩
  · intro h
    rcases h with h | h | h <;>
      simp [handle_encoder_button, on_double_clicked, pulsing, h]
  · intro h hv
    rw [dbl_state, h, hv]
  · intro h hv
    rcases hv with hv | hv <;> rw [dbl_state, h, hv]
  · intro h hv
    rw [dbl_state, h, hv]
  · intro h hv
    rw [dbl_state, h, hv]
  · intro h hv
    rw [dbl_state, h, hv]
  · intro hp
    have hp2 : s.state = States.PULSE_ONE ∨ s.state = States.PULSE_TWO ∨
        s.state = States.PULSE_IDLE := by
      simpa [pulsing] using hp
    rcases hp2 with h | h | h <;>
      simp [handle_encoder_button, on_double_clicked, pulsing, h]
  · intro h hv
    have v1 := (dbl_frame s).1
    have s1 := dbl_state s
    rw [h, hv] at s1
    rw [hv] at v1
    rw [dbl_state, s1, v1]
  · intro h hv
    have v1 := (dbl_frame s).1
    have s1 := dbl_state s
    rw [h, hv] at s1
    rw [hv] at v1
    have v2 := (dbl_frame (handle_encoder_button Button.DoubleClicked s)).1
    have s2 := dbl_state (handle_encoder_button Button.DoubleClicked s)
    rw [s1, v1] at s2
    rw [v1] at v2
    have v3 := (dbl_frame (handle_encoder_button Button.DoubleClicked
      (handle_encoder_button Button.DoubleClicked s))).1
    have s3 := dbl_state (handle_encoder_button Button.DoubleClicked
      (handle_encoder_button Button.DoubleClicked s))
    rw [s2, v2] at s3
    rw [v2] at v3
    rw [dbl_state, s3, v3]
  · intro h hv
    have v1 := (dbl_frame s).1
    have s1 := dbl_state s
    rw [h, hv] at s1
    rw [hv] at v1
    have v2 := (dbl_frame (handle_encoder_button Button.DoubleClicked s)).1
    have s2 := dbl_state (handle_encoder_button Button.DoubleClicked s)
    rw [s1, v1] at s2
    rw [v1] at v2
    rw [dbl_state, s2, v2]

/-- Witness of C7: four double-clicks from `VIEW_TWICE` in mode Twice, three from
`VIEW_CONTINOUS` in mode Continuous, two from `VIEW_ONCE` in mode Once. -/
theorem toggle_edit_table_witness :
    (handle_encoder_button Button.DoubleClicked
      (handle_encoder_button Button.DoubleClicked
        (mk States.VIEW_ONCE States.VIEW_ONCE 50 50 200))).state = States.VIEW_ONCE ∧
    (handle_encoder_button Button.DoubleClicked
      (handle_encoder_button Button.DoubleClicked
        (handle_encoder_button Button.DoubleClicked
          (handle_encoder_button Button.DoubleClicked
            (mk States.VIEW_TWICE States.VIEW_TWICE 50 50 200))))).state
      = States.VIEW_TWICE ∧
    (handle_encoder_button Button.DoubleClicked
      (handle_encoder_button Button.DoubleClicked
        (handle_encoder_button Button.DoubleClicked
          (mk States.VIEW_CONTINOUS States.VIEW_CONTINOUS 50 50 200)))).state
      = States.VIEW_CONTINOUS :=
  ⟨(toggle_edit_table (mk States.VIEW_ONCE States.VIEW_ONCE 50 50 200)).2.2.2.2.2.2.2.2.1
      rfl rfl,
   (toggle_edit_table (mk States.VIEW_TWICE States.VIEW_TWICE 50 50 200)).2.2.2.2.2.2.2.2.2.1
      rfl rfl,
   (toggle_edit_table
      (mk States.VIEW_CONTINOUS States.VIEW_CONTINOUS 50 50 200)).2.2.2.2.2.2.2.2.2.2
      rfl rfl⟩

/-! ## Storage -/

theorem wrapU16_wrapI16 (x : Int) : wrapU16 (wrapI16 x) = wrapU16 x := by
  unfold wrapU16 wrapI16
  omega

theorem wrapU16_natCast (v : Nat) (h : v ≤ 65535) : wrapU16 (v : Int) = v := by
  unfold wrapU16
  omega

theorem read_after_write (a v : Nat) (s : Machine) (h : v ≤ 65535) :
    wrapU16 (EEPROMReadInt16 a (EEPROMWriteInt16 a v s)) = v := by
  have e : ¬ (a = a + 1) := by omega
  simp only [EEPROMReadInt16, EEPROMWriteInt16, EEPROM_read, EEPROM_write, wrapU16_wrapI16,
    e, if_true, if_false]
  rw [wrapU16_natCast _ (by omega)]
  omega

theorem read_other_write (a b v : Nat) (s : Machine) (h1 : b + 1 < a ∨ a + 1 < b) :
    EEPROMReadInt16 a (EEPROMWriteInt16 b v s) = EEPROMReadInt16 a s := by
  have e1 : a ≠ b := by omega
  have e2 : a ≠ b + 1 := by omega
  have e3 : a + 1 ≠ b := by omega
  have e4 : a + 1 ≠ b + 1 := by omega
  simp [EEPROMReadInt16, EEPROMWriteInt16, EEPROM_read, EEPROM_write, e1, e2, e3, e4]

theorem read_state_update (a : Nat) (s : Machine) (st : States) :
    EEPROMReadInt16 a { s with state := st } = EEPROMReadInt16 a s := rfl

theorem rotate_load_eq (s : Machine) :
    rotate_load s =
      { s with encPos :=
          if s.state = States.EDIT_PULSE1 then wrapI16 s.pulse1
          else if s.state = States.EDIT_PULSE2 then wrapI16 s.pulse2
          else if s.state = States.EDIT_IDLE then wrapI16 s.idle
          else s.encPos } := by
  rcases s with ⟨st, vs, p1, idl, p2, c1, ci, c2, o, bh, bs, ep, oep, xl, xs, xm, mem, wr⟩
  cases st <;> simp [rotate_load]

theorem rotate_store_eq (s : Machine) :
    rotate_store s =
      { s with pulse1 := if s.state = States.EDIT_PULSE1 then wrapU16 s.encPos else s.pulse1,
               pulse2 := if s.state = States.EDIT_PULSE2 then wrapU16 s.encPos else s.pulse2,
               idle := if s.state = States.EDIT_IDLE then wrapU16 s.encPos else s.idle } := by
  rcases s with ⟨st, vs, p1, idl, p2, c1, ci, c2, o, bh, bs, ep, oep, xl, xs, xm, mem, wr⟩
  cases st <;> simp [rotate_store]

theorem rotate_remember_eq (s : Machine) :
    rotate_remember s = { s with oldEncPos := s.encPos } := by
  unfold rotate_remember
  by_cases h : s.encPos = s.oldEncPos
  · rw [if_neg (not_not.mpr h)]
    cases s
    simp at h ⊢
    exact h.symm
  · rw [if_pos h]

/-- The value `handle_encoder_rotate` leaves in `encPos`. -/
theorem rotate_encPos (delta : Int) (s : Machine) :
    (handle_encoder_rotate delta s).encPos =
      limits (wrapI16 ((if s.state = States.EDIT_PULSE1 then wrapI16 s.pulse1
          else if s.state = States.EDIT_PULSE2 then wrapI16 s.pulse2
          else if s.state = States.EDIT_IDLE then wrapI16 s.idle
          else s.encPos) + delta)) := by
  simp only [handle_encoder_rotate, rotate_remember_eq, rotate_store_eq, rotate_load_eq]

theorem rotate_eq (delta : Int) (s : Machine) :
    handle_encoder_rotate delta s =
      { s with encPos := (handle_encoder_rotate delta s).encPos,
               oldEncPos := (handle_encoder_rotate delta s).encPos,
               pulse1 := if s.state = States.EDIT_PULSE1 then
                   wrapU16 (handle_encoder_rotate delta s).encPos else s.pulse1,
               pulse2 := if s.state = States.EDIT_PULSE2 then
                   wrapU16 (handle_encoder_rotate delta s).encPos else s.pulse2,
               idle := if s.state = States.EDIT_IDLE then
                   wrapU16 (handle_encoder_rotate delta s).encPos else s.idle } := by
  rw [rotate_encPos]
  simp only [handle_encoder_rotate, rotate_remember_eq, rotate_store_eq, rotate_load_eq]

theorem rotate_frame (delta : Int) (s : Machine) :
    (handle_encoder_rotate delta s).eeprom = s.eeprom ∧
    (handle_encoder_rotate delta s).eepromWrites = s.eepromWrites ∧
    (handle_encoder_rotate delta s).state = s.state ∧
    (handle_encoder_rotate delta s).viewstate = s.viewstate := by
  rw [rotate_eq]
  exact ⟨rfl, rfl, rfl, rfl⟩

theorem wrapU16_le (x : Int) : wrapU16 x ≤ 65535 := by
  unfold wrapU16
  omega

theorem dbl_confirm_once (s : Machine) (h : s.state = States.EDIT_PULSE1)
    (hv : s.viewstate = States.VIEW_ONCE) :
    handle_encoder_button Button.DoubleClicked s =
      { EEPROMWriteInt16 P1ADDR s.pulse1 { s with buttonState := Button.DoubleClicked } with
        state := States.VIEW_ONCE } := by
  simp [handle_encoder_button, on_double_clicked, pulsing, dbl_edit_pulse1, h, hv,
    EEPROMWriteInt16, EEPROM_write]

theorem dbl_confirm_continuous (s : Machine) (h : s.state = States.EDIT_IDLE)
    (hv : s.viewstate = States.VIEW_CONTINOUS) :
    handle_encoder_button Button.DoubleClicked s =
      { EEPROMWriteInt16 IDLEADDR s.idle
          (EEPROMWriteInt16 P1ADDR s.pulse1 { s with buttonState := Button.DoubleClicked }) with
        state := States.VIEW_CONTINOUS } := by
  simp [handle_encoder_button, on_double_clicked, pulsing, dbl_edit_idle, h, hv,
    EEPROMWriteInt16, EEPROM_write]

theorem dbl_confirm_twice (s : Machine) (h : s.state = States.EDIT_PULSE2) :
    handle_encoder_button Button.DoubleClicked s =
      { EEPROMWriteInt16 IDLEADDR s.idle
          (EEPROMWriteInt16 P2ADDR s.pulse2
            (EEPROMWriteInt16 P1ADDR s.pulse1 { s with buttonState := Button.DoubleClicked })) with
        state := States.VIEW_TWICE } := by
  simp [handle_encoder_button, on_double_clicked, pulsing, dbl_edit_pulse2, h,
    EEPROMWriteInt16, EEPROM_write]

theorem dbl_no_write (s : Machine) (h : ¬ confirming s) :
    (handle_encoder_button Button.DoubleClicked s).eepromWrites = s.eepromWrites ∧
    (handle_encoder_button Button.DoubleClicked s).eeprom = s.eeprom := by
  rcases s with ⟨st, vs, p1, idl, p2, c1, ci, c2, o, bh, bs, ep, oep, xl, xs, xm, mem, wr⟩
  cases st <;> cases vs <;>
    simp [confirming] at h <;>
    simp [handle_encoder_button, on_double_clicked, pulsing, dbl_edit_pulse1, dbl_edit_idle]

/-- C8. Edit-session persistence, with the storage and the sequence of `EEPROM.write`
calls as explicit state.  A double-click in `EDIT_PULSE1` of mode Once writes the two
bytes of `pulse1` at addresses 0, 1, once each, and no other byte; in `EDIT_IDLE` of mode
Continuous it writes `pulse1` at 0, 1 and `idle` at 4, 5, once each, and leaves the slot at
2, 3 as it was; in `EDIT_PULSE2` it writes `pulse1`, `pulse2`, `idle` at 0..5, once each.
After each of these the slot reads back the duration.  Every other double-click (from a
view state, `EDIT_PULSE1` to `EDIT_IDLE`, `EDIT_IDLE` to `EDIT_PULSE2`, any pulsing state)
makes no write.  In particular three passes of the loop from `VIEW_CONTINOUS`, each
ending in a double-click, with rotations `d1` (editing `pulse1`) and `d2` (editing `idle`)
in the second and third, write nothing in the first two passes and in the third write
the edited `pulse1` and `idle`, which then read back from slots 0 and 4. -/
theorem edit_session_persistence (s : Machine) :
    (s.state = States.EDIT_PULSE1 → s.viewstate = States.VIEW_ONCE →
      (handle_encoder_button Button.DoubleClicked s).eepromWrites =
        s.eepromWrites ++ [(0, s.pulse1 % 256), (1, s.pulse1 / 256 % 256)] ∧
      (∀ a, 2 ≤ a → (handle_encoder_button Button.DoubleClicked s).eeprom a = s.eeprom a) ∧
      (s.pulse1 ≤ 65535 →
        wrapU16 (EEPROMReadInt16 P1ADDR (handle_encoder_button Button.DoubleClicked s))
          = s.pulse1)) ∧
    (s.state = States.EDIT_IDLE → s.viewstate = States.VIEW_CONTINOUS →
      (handle_encoder_button Button.DoubleClicked s).eepromWrites =
        s.eepromWrites ++ [(0, s.pulse1 % 256), (1, s.pulse1 / 256 % 256),
          (4, s.idle % 256), (5, s.idle / 256 % 256)] ∧
      (∀ a, a ≠ 0 → a ≠ 1 → a ≠ 4 → a ≠ 5 →
        (handle_encoder_button Button.DoubleClicked s).eeprom a = s.eeprom a) ∧
      EEPROMReadInt16 P2ADDR (handle_encoder_button Button.DoubleClicked s) =
        EEPROMReadInt16 P2ADDR s ∧
      (s.pulse1 ≤ 65535 →
        wrapU16 (EEPROMReadInt16 P1ADDR (handle_encoder_button Button.DoubleClicked s))
          = s.pulse1) ∧
      (s.idle ≤ 65535 →
        wrapU16 (EEPROMReadInt16 IDLEADDR (handle_encoder_button Button.DoubleClicked s))
          = s.idle)) ∧
    (s.state = States.EDIT_PULSE2 →
      (handle_encoder_button Button.DoubleClicked s).eepromWrites =
        s.eepromWrites ++ [(0, s.pulse1 % 256), (1, s.pulse1 / 256 % 256),
          (2, s.pulse2 % 256), (3, s.pulse2 / 256 % 256),
          (4, s.idle % 256), (5, s.idle / 256 % 256)] ∧
      (∀ a, 6 ≤ a → (handle_encoder_button Button.DoubleClicked s).eeprom a = s.eeprom a) ∧
      (s.pulse1 ≤ 65535 →
        wrapU16 (EEPROMReadInt16 P1ADDR (handle_encoder_button Button.DoubleClicked s))
          = s.pulse1) ∧
      (s.pulse2 ≤ 65535 →
        wrapU16 (EEPROMReadInt16 P2ADDR (handle_encoder_button Button.DoubleClicked s))
          = s.pulse2) ∧
      (s.idle ≤ 65535 →
        wrapU16 (EEPROMReadInt16 IDLEADDR (handle_encoder_button Button.DoubleClicked s))
          = s.idle)) ∧
    (¬ confirming s →
      (handle_encoder_button Button.DoubleClicked s).eepromWrites = s.eepromWrites ∧
      (handle_encoder_button Button.DoubleClicked s).eeprom = s.eeprom) ∧
    (s.state = States.VIEW_CONTINOUS → s.viewstate = States.VIEW_CONTINOUS →
      ∀ d0 d1 d2 : Int,
      (loop_encoder d0 Button.DoubleClicked s).eepromWrites = s.eepromWrites ∧
      (loop_encoder d1 Button.DoubleClicked
        (loop_encoder d0 Button.DoubleClicked s)).eepromWrites = s.eepromWrites ∧
      (loop_encoder d2 Button.DoubleClicked (loop_encoder d1 Button.DoubleClicked
        (loop_encoder d0 Button.DoubleClicked s))).eepromWrites =
        s.eepromWrites ++
          [(0, (handle_encoder_rotate d1
                  (loop_encoder d0 Button.DoubleClicked s)).pulse1 % 256),
           (1, (handle_encoder_rotate d1
                  (loop_encoder d0 Button.DoubleClicked s)).pulse1 / 256 % 256),
           (4, (handle_encoder_rotate d2 (loop_encoder d1 Button.DoubleClicked
                  (loop_encoder d0 Button.DoubleClicked s))).idle % 256),
           (5, (handle_encoder_rotate d2 (loop_encoder d1 Button.DoubleClicked
                  (loop_encoder d0 Button.DoubleClicked s))).idle / 256 % 256)] ∧
      (loop_encoder d2 Button.DoubleClicked (loop_encoder d1 Button.DoubleClicked
        (loop_encoder d0 Button.DoubleClicked s))).state = States.VIEW_CONTINOUS ∧
      wrapU16 (EEPROMReadInt16 P1ADDR
        (loop_encoder d2 Button.DoubleClicked (loop_encoder d1 Button.DoubleClicked
          (loop_encoder d0 Button.DoubleClicked s)))) =
        (handle_encoder_rotate d1 (loop_encoder d0 Button.DoubleClicked s)).pulse1 ∧
      wrapU16 (EEPROMReadInt16 IDLEADDR
        (loop_encoder d2 Button.DoubleClicked (loop_encoder d1 Button.DoubleClicked
          (loop_encoder d0 Button.DoubleClicked s)))) =
        (handle_encoder_rotate d2 (loop_encoder d1 Button.DoubleClicked
          (loop_encoder d0 Button.DoubleClicked s))).idle) := by
  refine ⟨?_, ?_, ?_, dbl_no_write s, ?_⟩
  · intro h hv
    rw [dbl_confirm_once s h hv]
    refine ⟨by simp [EEPROMWriteInt16, EEPROM_write, P1ADDR], ?_, ?_⟩
    · intro a ha
      have e0 : a ≠ 0 := by omega
      have e1 : a ≠ 1 := by omega
      simp [EEPROMWriteInt16, EEPROM_write, P1ADDR, e0, e1]
    · intro hp
      rw [read_state_update, read_after_write _ _ _ hp]
  · intro h hv
    rw [dbl_confirm_continuous s h hv]
    refine ⟨by simp [EEPROMWriteInt16, EEPROM_write, P1ADDR, IDLEADDR], ?_, ?_, ?_, ?_⟩
    · intro a e0 e1 e4 e5
      simp [EEPROMWriteInt16, EEPROM_write, P1ADDR, IDLEADDR, e0, e1, e4, e5]
    · rw [read_state_update, read_other_write _ _ _ _ (Or.inr (by decide)),
        read_other_write _ _ _ _ (Or.inl (by decide))]
      rfl
    · intro hp
      rw [read_state_update, read_other_write _ _ _ _ (Or.inr (by decide)),
        read_after_write _ _ _ hp]
    · intro hp
      rw [read_state_update, read_after_write _ _ _ hp]
  · intro h
    rw [dbl_confirm_twice s h]
    refine ⟨by simp [EEPROMWriteInt16, EEPROM_write, P1ADDR, P2ADDR, IDLEADDR], ?_, ?_, ?_, ?_⟩
    · intro a ha
      have e0 : a ≠ 0 := by omega
      have e1 : a ≠ 1 := by omega
      have e2 : a ≠ 2 := by omega
      have e3 : a ≠ 3 := by omega
      have e4 : a ≠ 4 := by omega
      have e5 : a ≠ 5 := by omega
      simp [EEPROMWriteInt16, EEPROM_write, P1ADDR, P2ADDR, IDLEADDR, e0, e1, e2, e3, e4, e5]
    · intro hp
      rw [read_state_update, read_other_write _ _ _ _ (Or.inr (by decide)),
        read_other_write _ _ _ _ (Or.inr (by decide)), read_after_write _ _ _ hp]
    · intro hp
      rw [read_state_update, read_other_write _ _ _ _ (Or.inr (by decide)),
        read_after_write _ _ _ hp]
    · intro hp
      rw [read_state_update, read_after_write _ _ _ hp]
  · intro h hv d0 d1 d2
    unfold loop_encoder
    generalize hr0 : handle_encoder_rotate d0 s = r0
    have f0 := rotate_frame d0 s
    rw [hr0, h, hv] at f0
    obtain ⟨f0e, f0w, f0s, f0v⟩ := f0
    generalize ha : handle_encoder_button Button.DoubleClicked r0 = a
    have as := dbl_state r0
    have af := (dbl_frame r0).1
    have aw := (dbl_no_write r0 (by simp [confirming, f0s])).1
    rw [ha] at as af aw
    rw [f0s] at as
    rw [f0v] at af
    rw [f0w] at aw
    clear ha hr0 f0e f0w f0s f0v
    generalize hr1 : handle_encoder_rotate d1 a = r1
    have f1 := rotate_frame d1 a
    have p1le : r1.pulse1 ≤ 65535 := by
      rw [← hr1, rotate_eq]
      simp [as, wrapU16_le]
    rw [hr1, as, af, aw] at f1
    obtain ⟨_, f1w, f1s, f1v⟩ := f1
    generalize hb : handle_encoder_button Button.DoubleClicked r1 = b
    have bs := dbl_state r1
    have bf := dbl_frame r1
    have bw := (dbl_no_write r1 (by simp [confirming, f1s, f1v])).1
    rw [hb] at bs bf bw
    rw [f1s, f1v] at bs
    rw [f1w] at bw
    obtain ⟨bv, bp1, _⟩ := bf
    rw [f1v] at bv
    clear hb hr1
    generalize hr2 : handle_encoder_rotate d2 b = r2
    have f2 := rotate_frame d2 b
    have e2 := rotate_eq d2 b
    rw [hr2] at f2 e2
    have p2 : r2.pulse1 = r1.pulse1 := by
      rw [e2]
      simp [bs, bp1]
    have i2 : r2.idle ≤ 65535 := by
      rw [e2]
      simp [bs, wrapU16_le]
    rw [bs, bv, bw] at f2
    obtain ⟨_, f2w, f2s, f2v⟩ := f2
    have key := dbl_confirm_continuous r2 f2s f2v
    refine ⟨aw, bw, ?_, ?_, ?_, ?_⟩
    · rw [key]
      simp [EEPROMWriteInt16, EEPROM_write, P1ADDR, IDLEADDR, f2w, p2]
    · rw [key]
    · rw [key, read_state_update, read_other_write _ _ _ _ (Or.inr (by decide)),
        read_after_write _ _ _ (by rw [p2]; exact p1le), p2]
    · rw [key, read_state_update, read_after_write _ _ _ i2]

/-- Witness of C8: the confirming double-click of a Continuous edit session with
`pulse1 = 300` and `idle = 50` makes the four writes `(0, 44)`, `(1, 1)`, `(4, 50)`,
`(5, 0)`, and the double-click that enters the session makes none. -/
theorem edit_session_persistence_witness :
    (handle_encoder_button Button.DoubleClicked
      (mk States.EDIT_IDLE States.VIEW_CONTINOUS 300 50 200)).eepromWrites =
      [(0, 44), (1, 1), (4, 50), (5, 0)] ∧
    (handle_encoder_button Button.DoubleClicked
      (mk States.VIEW_CONTINOUS States.VIEW_CONTINOUS 300 50 200)).eepromWrites = [] :=
  ⟨((edit_session_persistence
      (mk States.EDIT_IDLE States.VIEW_CONTINOUS 300 50 200)).2.1 rfl rfl).1,
   ((edit_session_persistence
      (mk States.VIEW_CONTINOUS States.VIEW_CONTINOUS 300 50 200)).2.2.2.1 (by decide)).1⟩

/-! ## Rotation -/

theorem limits_eq (x : Int) (hx : x ≤ 32767) : limits x = if x ≤ 1 then 1 else x := by
  unfold limits MIN_LENGTH
  by_cases h : x ≤ 1
  · simp [h]
  · have h2 : ¬ (65535 ≤ x) := by omega
    simp [h, h2]

theorem wrapI16_range (x : Int) : -32768 ≤ wrapI16 x ∧ wrapI16 x ≤ 32767 := by
  unfold wrapI16
  omega

theorem limits_range (x : Int) (hx : x ≤ 32767) : 1 ≤ limits x ∧ limits x ≤ 32767 := by
  rw [limits_eq x hx]
  split <;> omega

theorem rotate_encPos_range (delta : Int) (s : Machine) :
    1 ≤ (handle_encoder_rotate delta s).encPos ∧
    (handle_encoder_rotate delta s).encPos ≤ 32767 := by
  rw [rotate_encPos]
  exact limits_range _ (wrapI16_range _).2

theorem rotate_edited (delta : Int) (s : Machine) (he : editing s = true) :
    edited (handle_encoder_rotate delta s) =
      wrapU16 (limits (wrapI16 (wrapI16 (edited s) + delta))) := by
  have he2 : s.state = States.EDIT_PULSE1 ∨ s.state = States.EDIT_PULSE2 ∨
      s.state = States.EDIT_IDLE := by
    simpa [editing] using he
  have hst := (rotate_frame delta s).2.2.1
  have hp1 := congrArg Machine.pulse1 (rotate_eq delta s)
  have hp2 := congrArg Machine.pulse2 (rotate_eq delta s)
  have hid := congrArg Machine.idle (rotate_eq delta s)
  have hen := rotate_encPos delta s
  rcases he2 with h | h | h
  · simp only [h] at hp1 hen hst
    simp only [edited, hst, h]
    rw [hp1, hen]
    simp
  · simp only [h] at hp2 hen hst
    simp only [edited, hst, h]
    rw [hp2, hen]
    simp
  · simp only [h] at hid hen hst
    simp only [edited, hst, h]
    rw [hid, hen]
    simp

/-- C9, as the code runs. Adjustment in an editing state, for a current value `d` in
`[1, 65535]` of the edited duration and a rotation `delta` in the `int16_t` range: the
sum is formed in the `int16_t` variable `encPos`, so the result is
`clamp(d + delta, 1, 65535)` only while `d ≤ 32767` and `d + delta ≤ 32767`; when
`d ≤ 32767 < d + delta` the result is 1, and when `d ≥ 32768` a rotation of 0 already
sets the duration to 1.  The result is always in `[1, 32767]`. -/
theorem adjust_as_coded (s : Machine) (delta : Int) (he : editing s = true)
    (hd1 : 1 ≤ edited s) (hd : edited s ≤ 65535)
    (hl : -32768 ≤ delta) (hu : delta ≤ 32767) :
    (edited s ≤ 32767 → (edited s : Int) + delta ≤ 32767 →
      (edited (handle_encoder_rotate delta s) : Int) =
        spec_clamp ((edited s : Int) + delta) 1 65535) ∧
    (edited s ≤ 32767 → 32767 < (edited s : Int) + delta →
      edited (handle_encoder_rotate delta s) = 1) ∧
    (32768 ≤ edited s → delta = 0 → edited (handle_encoder_rotate delta s) = 1) ∧
    1 ≤ edited (handle_encoder_rotate delta s) ∧
    edited (handle_encoder_rotate delta s) ≤ 32767 := by
  rw [rotate_edited delta s he]
  generalize edited s = d at hd1 hd ⊢
  have hr := wrapI16_range (wrapI16 (d : Int) + delta)
  rw [limits_eq _ hr.2]
  unfold spec_clamp wrapU16
  refine ⟨?_, ?_, ?_, ?_, ?_⟩
  · intro h1 h2
    have e1 : wrapI16 (d : Int) = d := by unfold wrapI16; omega
    have e2 : wrapI16 ((d : Int) + delta) = d + delta := by unfold wrapI16; omega
    rw [e1, e2]
    split <;> split <;> omega
  · intro h1 h2
    have e1 : wrapI16 (d : Int) = d := by unfold wrapI16; omega
    have e2 : wrapI16 ((d : Int) + delta) = d + delta - 65536 := by unfold wrapI16; omega
    rw [e1, e2]
    split <;> omega
  · intro h1 h2
    have e1 : wrapI16 (d : Int) = d - 65536 := by unfold wrapI16; omega
    have e2 : wrapI16 ((d : Int) - 65536 + delta) = d - 65536 := by unfold wrapI16; omega
    rw [e1, e2]
    split <;> omega
  · split <;> omega
  · split <;> omega

/-- Witness of C9 on a device whose storage is blank (every byte `0xFF`): `setup` loads
`pulse1 = 65535`, a double-click enters `EDIT_PULSE1`, and the next pass of the loop, with
the encoder at rest, sets `pulse1` to 1, where the formula gives 65535. -/
theorem adjust_as_coded_witness :
    edited (handle_encoder_button Button.DoubleClicked (setup (fun _ => 255))) = 65535 ∧
    edited (handle_encoder_rotate 0
      (handle_encoder_button Button.DoubleClicked (setup (fun _ => 255)))) = 1 ∧
    spec_clamp (65535 + 0) 1 65535 = 65535 :=
  ⟨by decide,
   (adjust_as_coded (handle_encoder_button Button.DoubleClicked (setup (fun _ => 255))) 0
      (by decide) (by decide) (by decide) (by decide) (by decide)).2.2.1
      (by decide) rfl,
   by decide⟩

theorem rotate_editing (delta : Int) (s : Machine) :
    editing (handle_encoder_rotate delta s) = editing s := by
  unfold editing
  rw [(rotate_frame delta s).2.2.1]

/-- C10. The limiting step of `handle_encoder_rotate` (lines 472-480) maps every value `x`
that the `int16_t` variable `encPos` can hold (every integer up to 32767) to a result in
`[1, 65535]` and maps its own result to itself; hence after an adjustment by any `delta`
in an editing state the edited duration is in `[1, 65535]`, and a further adjustment with
rotation 0 leaves it unchanged. -/
theorem limits_in_range_idempotent (x : Int) (hx : x ≤ 32767) (s : Machine) (delta : Int)
    (he : editing s = true) :
    (1 ≤ limits x ∧ limits x ≤ 65535) ∧
    limits (limits x) = limits x ∧
    (1 ≤ edited (handle_encoder_rotate delta s) ∧
      edited (handle_encoder_rotate delta s) ≤ 65535) ∧
    edited (handle_encoder_rotate 0 (handle_encoder_rotate delta s)) =
      edited (handle_encoder_rotate delta s) := by
  have hr := limits_range x hx
  have idem : ∀ y : Int, y ≤ 32767 → limits (limits y) = limits y := by
    intro y hy
    have h1 := limits_range y hy
    rw [limits_eq (limits y) h1.2]
    split
    · omega
    · rfl
  have he2 : editing (handle_encoder_rotate delta s) = true := by
    rw [rotate_editing]; exact he
  rw [rotate_edited 0 _ he2, rotate_edited delta s he]
  have hw := wrapI16_range (wrapI16 (edited s : Int) + delta)
  have hL := limits_range _ hw.2
  generalize limits (wrapI16 (wrapI16 (edited s : Int) + delta)) = L at hL ⊢
  have e1 : ((wrapU16 L : Nat) : Int) = L := by unfold wrapU16; omega
  have e2 : wrapI16 L = L := by unfold wrapI16; omega
  refine ⟨⟨hr.1, by omega⟩, idem x hx, ⟨?_, wrapU16_le L⟩, ?_⟩
  · unfold wrapU16; omega
  · rw [e1, e2, Int.add_zero, e2, limits_eq L hL.2]
    split
    · have : L = 1 := by omega
      rw [this]
    · rfl

/-- Witness of C10: the largest `int16_t` value, and an adjustment by 100 in `EDIT_IDLE`. -/
theorem limits_in_range_idempotent_witness :
    (1 ≤ limits 32767 ∧ limits 32767 ≤ 65535) ∧
    limits (limits 32767) = limits 32767 ∧
    (1 ≤ edited (handle_encoder_rotate 100
        (mk States.EDIT_IDLE States.VIEW_TWICE 50 50 200)) ∧
      edited (handle_encoder_rotate 100
        (mk States.EDIT_IDLE States.VIEW_TWICE 50 50 200)) ≤ 65535) ∧
    edited (handle_encoder_rotate 0 (handle_encoder_rotate 100
        (mk States.EDIT_IDLE States.VIEW_TWICE 50 50 200))) =
      edited (handle_encoder_rotate 100
        (mk States.EDIT_IDLE States.VIEW_TWICE 50 50 200)) :=
  limits_in_range_idempotent 32767 (by decide)
    (mk States.EDIT_IDLE States.VIEW_TWICE 50 50 200) 100 rfl

/-! ## Long press -/

theorem viewing_cases (s : Machine) (h : viewing s = true) :
    s.state = States.VIEW_ONCE ∨ s.state = States.VIEW_TWICE ∨
      s.state = States.VIEW_CONTINOUS := by
  simpa [viewing] using h

theorem pulsing_cases (s : Machine) (h : pulsing s = true) :
    s.state = States.PULSE_ONE ∨ s.state = States.PULSE_TWO ∨
      s.state = States.PULSE_IDLE := by
  simpa [pulsing] using h

theorem editing_cases (s : Machine) (h : editing s = true) :
    s.state = States.EDIT_PULSE1 ∨ s.state = States.EDIT_PULSE2 ∨
      s.state = States.EDIT_IDLE := by
  simpa [editing] using h

theorem held_view (s : Machine) (hf : s.btn_held_handled = false) (hv : viewing s = true) :
    handle_encoder_button Button.Held s =
      { s with buttonState := Button.Held, state := next_view s.state,
               viewstate := next_view s.state, btn_held_handled := true } := by
  rcases viewing_cases s hv with h | h | h <;>
    simp [handle_encoder_button, on_held, pulsing, next_view, h, hf]

theorem held_edit (s : Machine) (hf : s.btn_held_handled = false) (he : editing s = true) :
    handle_encoder_button Button.Held s =
      { s with buttonState := Button.Held, btn_held_handled := true } := by
  rcases editing_cases s he with h | h | h <;>
    simp [handle_encoder_button, on_held, pulsing, h, hf]

theorem held_handled (s : Machine) (hf : s.btn_held_handled = true) :
    handle_encoder_button Button.Held s = { s with buttonState := Button.Held } := by
  simp [handle_encoder_button, on_held, hf]

theorem held_pulsing (s : Machine) (hp : pulsing s = true) :
    handle_encoder_button Button.Held s = { s with buttonState := Button.Held } := by
  rcases pulsing_cases s hp with h | h | h <;>
    simp [handle_encoder_button, on_held, pulsing, h]

/-- C11, amended. Mode cycling: when the current long-press has not yet fired, a Held event
in a view state sets both the state and the mode to the successor of that view state
along `VIEW_ONCE → VIEW_TWICE → VIEW_CONTINOUS → VIEW_ONCE`, so from the view state of the
current mode it advances the mode one step and leaves the view state of the new mode,
with durations and counters unchanged; in an editing state a Held event changes neither
the state nor the mode nor any duration or counter, it only marks the long-press as
fired. -/
theorem cycle_mode_held (s : Machine) (hf : s.btn_held_handled = false) :
    (viewing s = true →
      handle_encoder_button Button.Held s =
        { s with buttonState := Button.Held, state := next_view s.state,
                 viewstate := next_view s.state, btn_held_handled := true }) ∧
    (viewing s = true → s.viewstate = s.state →
      (handle_encoder_button Button.Held s).viewstate = next_view s.viewstate ∧
      (handle_encoder_button Button.Held s).state =
        (handle_encoder_button Button.Held s).viewstate ∧
      (handle_encoder_button Button.Held s).pulse1 = s.pulse1 ∧
      (handle_encoder_button Button.Held s).idle = s.idle ∧
      (handle_encoder_button Button.Held s).pulse2 = s.pulse2 ∧
      (handle_encoder_button Button.Held s).pulse1_counter = s.pulse1_counter ∧
      (handle_encoder_button Button.Held s).idle_counter = s.idle_counter ∧
      (handle_encoder_button Button.Held s).pulse2_counter = s.pulse2_counter) ∧
    (editing s = true →
      handle_encoder_button Button.Held s =
        { s with buttonState := Button.Held, btn_held_handled := true }) := by
  refine ⟨held_view s hf, ?_, held_edit s hf⟩
  intro hv hc
  rw [held_view s hf hv, hc]
  exact ⟨rfl, rfl, rfl, rfl, rfl, rfl, rfl, rfl⟩

/-- Witness of C11: from `VIEW_CONTINOUS` in mode Continuous the mode becomes Once; in
`EDIT_IDLE` of mode Twice nothing but the flag changes. -/
theorem cycle_mode_held_witness :
    (handle_encoder_button Button.Held
      (mk States.VIEW_CONTINOUS States.VIEW_CONTINOUS 50 50 200)).viewstate
        = States.VIEW_ONCE ∧
    (handle_encoder_button Button.Held
      (mk States.VIEW_CONTINOUS States.VIEW_CONTINOUS 50 50 200)).state
        = States.VIEW_ONCE ∧
    (handle_encoder_button Button.Held
      (mk States.EDIT_IDLE States.VIEW_TWICE 50 50 200)).state = States.EDIT_IDLE ∧
    (handle_encoder_button Button.Held
      (mk States.EDIT_IDLE States.VIEW_TWICE 50 50 200)).viewstate = States.VIEW_TWICE :=
  have h := cycle_mode_held (mk States.VIEW_CONTINOUS States.VIEW_CONTINOUS 50 50 200) rfl
  have g := cycle_mode_held (mk States.EDIT_IDLE States.VIEW_TWICE 50 50 200) rfl
  ⟨(h.2.1 rfl rfl).1, by rw [h.1 rfl]; rfl, by rw [g.2.2 rfl]; rfl, by rw [g.2.2 rfl]; rfl⟩

/-- Counterexample to C11 as stated: `EDIT_PULSE1` in mode Once is not a pulsing state
and the long-press has not fired, yet after a Held event the mode is still Once and the
state is still `EDIT_PULSE1`, not the view state of mode Twice. -/
theorem cycle_mode_held_counterexample :
    pulsing (mk States.EDIT_PULSE1 States.VIEW_ONCE 50 50 200) = false ∧
    (mk States.EDIT_PULSE1 States.VIEW_ONCE 50 50 200).btn_held_handled = false ∧
    (handle_encoder_button Button.Held
      (mk States.EDIT_PULSE1 States.VIEW_ONCE 50 50 200)).viewstate = States.VIEW_ONCE ∧
    (handle_encoder_button Button.Held
      (mk States.EDIT_PULSE1 States.VIEW_ONCE 50 50 200)).state = States.EDIT_PULSE1 ∧
    ¬ ((handle_encoder_button Button.Held
        (mk States.EDIT_PULSE1 States.VIEW_ONCE 50 50 200)).viewstate = States.VIEW_TWICE ∧
      (handle_encoder_button Button.Held
        (mk States.EDIT_PULSE1 States.VIEW_ONCE 50 50 200)).state = States.VIEW_TWICE) := by
  decide

/-- C12. Mode cycling is a no-op while pulsing: in `PULSE_ONE`, `PULSE_IDLE` or `PULSE_TWO`,
for any mode, counters and value of the held-handled flag, a Held event changes nothing
but the stored event, so state, mode, durations and counters are kept. -/
theorem held_while_pulsing (s : Machine) (hp : pulsing s = true) :
    handle_encoder_button Button.Held s = { s with buttonState := Button.Held } ∧
    (handle_encoder_button Button.Held s).state = s.state ∧
    (handle_encoder_button Button.Held s).viewstate = s.viewstate ∧
    (handle_encoder_button Button.Held s).pulse1 = s.pulse1 ∧
    (handle_encoder_button Button.Held s).idle = s.idle ∧
    (handle_encoder_button Button.Held s).pulse2 = s.pulse2 ∧
    (handle_encoder_button Button.Held s).pulse1_counter = s.pulse1_counter ∧
    (handle_encoder_button Button.Held s).idle_counter = s.idle_counter ∧
    (handle_encoder_button Button.Held s).pulse2_counter = s.pulse2_counter ∧
    (handle_encoder_button Button.Held s).btn_held_handled = s.btn_held_handled := by
  rw [held_pulsing s hp]
  exact ⟨rfl, rfl, rfl, rfl, rfl, rfl, rfl, rfl, rfl, rfl⟩

/-- Witness of C12: `PULSE_IDLE` of a continuous stream with the flag clear. -/
theorem held_while_pulsing_witness :
    (handle_encoder_button Button.Held
      (mk States.PULSE_IDLE States.VIEW_CONTINOUS 50 50 200)).state = States.PULSE_IDLE ∧
    (handle_encoder_button Button.Held
      (mk States.PULSE_IDLE States.VIEW_CONTINOUS 50 50 200)).viewstate
        = States.VIEW_CONTINOUS ∧
    (handle_encoder_button Button.Held
      (mk States.PULSE_IDLE States.VIEW_CONTINOUS 50 50 200)).btn_held_handled = false :=
  have h := held_while_pulsing (mk States.PULSE_IDLE States.VIEW_CONTINOUS 50 50 200) rfl
  ⟨h.2.1, h.2.2.1, h.2.2.2.2.2.2.2.2.2⟩

theorem held_again (k : Nat) (s : Machine) (hf : s.btn_held_handled = true)
    (hb : s.buttonState = Button.Held) :
    Nat.iterate (handle_encoder_button Button.Held) k s = s := by
  induction k with
  | zero => rfl
  | succ k ih =>
    have e : handle_encoder_button Button.Held s = s := by
      rw [held_handled s hf]
      cases s
      simp at hb ⊢
      exact hb.symm
    rw [Function.iterate_succ_apply, e]
    exact ih

theorem next_view_viewing (s : Machine) (hv : viewing s = true) (st : States)
    (h : st = next_view s.state) :
    st = States.VIEW_ONCE ∨ st = States.VIEW_TWICE ∨ st = States.VIEW_CONTINOUS := by
  rcases viewing_cases s hv with e | e | e <;> simp [h, e, next_view]

theorem next_view_thrice (s : Machine) (hv : viewing s = true) :
    next_view (next_view (next_view s.state)) = s.state := by
  rcases viewing_cases s hv with e | e | e <;> simp [e, next_view]

theorem press_and_release_view (k : Nat) (s : Machine) (hv : viewing s = true)
    (hf : s.btn_held_handled = false) :
    press_and_release k s =
      { s with buttonState := Button.Released, state := next_view s.state,
               viewstate := next_view s.state, btn_held_handled := false } := by
  unfold press_and_release
  rw [Function.iterate_succ_apply, held_view s hf hv, held_again k _ rfl rfl]
  rfl

/-- C18. The long press is edge-triggered: from a view state with the held-handled flag
clear, one Held event sets state and mode to the successor of the view state along
`VIEW_ONCE → VIEW_TWICE → VIEW_CONTINOUS → VIEW_ONCE`, and any number `k` of further Held
events leaves the machine exactly as the first one did; after a Released event the next
Held event advances one step further; and three long presses, of any lengths, each
followed by its release, bring back the original view state, with the mode it stands for
(the original mode when the machine started in the view state of its mode). -/
theorem long_press_edge_triggered (s : Machine) (hv : viewing s = true)
    (hf : s.btn_held_handled = false) (k k2 k3 : Nat) :
    Nat.iterate (handle_encoder_button Button.Held) k (handle_encoder_button Button.Held s) =
      handle_encoder_button Button.Held s ∧
    (handle_encoder_button Button.Held s).state = next_view s.state ∧
    (handle_encoder_button Button.Held s).viewstate = next_view s.state ∧
    (handle_encoder_button Button.Held (press_and_release k s)).state =
      next_view (next_view s.state) ∧
    (handle_encoder_button Button.Held (press_and_release k s)).viewstate =
      next_view (next_view s.state) ∧
    press_and_release k3 (press_and_release k2 (press_and_release k s)) =
      { s with buttonState := Button.Released, viewstate := s.state } ∧
    (s.viewstate = s.state →
      press_and_release k3 (press_and_release k2 (press_and_release k s)) =
        { s with buttonState := Button.Released }) := by
  have h1 := held_view s hf hv
  have p1 := press_and_release_view k s hv hf
  have v1 : viewing (press_and_release k s) = true := by
    rw [p1]
    rcases viewing_cases s hv with e | e | e <;> simp [viewing, next_view, e]
  have f1 : (press_and_release k s).btn_held_handled = false := by rw [p1]
  have s1 : (press_and_release k s).state = next_view s.state := by rw [p1]
  have p2 := press_and_release_view k2 _ v1 f1
  have v2 : viewing (press_and_release k2 (press_and_release k s)) = true := by
    rw [p2, s1]
    rcases viewing_cases s hv with e | e | e <;> simp [viewing, next_view, e]
  have f2 : (press_and_release k2 (press_and_release k s)).btn_held_handled = false := by
    rw [p2]
  have s2 : (press_and_release k2 (press_and_release k s)).state =
      next_view (next_view s.state) := by rw [p2, s1]
  have p3 := press_and_release_view k3 _ v2 f2
  have three : press_and_release k3 (press_and_release k2 (press_and_release k s)) =
      { s with buttonState := Button.Released, viewstate := s.state } := by
    rw [p3, s2, next_view_thrice s hv, p2, p1]
    cases s
    simp at hf ⊢
    exact hf
  refine ⟨?_, ?_, ?_, ?_, ?_, three, ?_⟩
  · rw [h1]
    exact held_again k _ rfl rfl
  · rw [h1]
  · rw [h1]
  · rw [held_view _ f1 v1, s1]
  · rw [held_view _ f1 v1, s1]
  · intro hc
    rw [three]
    cases s
    simp at hc ⊢
    exact hc.symm

/-- Witness of C18: from `VIEW_TWICE` in mode Twice, one Held event, and three presses of
1, 3 and 2 Held events. -/
theorem long_press_edge_triggered_witness :
    (handle_encoder_button Button.Held
      (mk States.VIEW_TWICE States.VIEW_TWICE 50 50 200)).state = States.VIEW_CONTINOUS ∧
    (press_and_release 1 (press_and_release 2 (press_and_release 0
      (mk States.VIEW_TWICE States.VIEW_TWICE 50 50 200)))).state = States.VIEW_TWICE ∧
    (press_and_release 1 (press_and_release 2 (press_and_release 0
      (mk States.VIEW_TWICE States.VIEW_TWICE 50 50 200)))).viewstate
        = States.VIEW_TWICE :=
  have h := long_press_edge_triggered (mk States.VIEW_TWICE States.VIEW_TWICE 50 50 200)
    rfl rfl 0 2 1
  ⟨h.2.1, congrArg Machine.state h.2.2.2.2.2.1, congrArg Machine.viewstate h.2.2.2.2.2.1⟩

/-- C14. Storage encoding round trip: for an unsigned 16-bit value `v` and a slot address
`a` among 0, 2, 4, `EEPROMWriteInt16(a, v)` stores the low byte of `v` at `a` and the high
byte at `a + 1`, by one write each, and changes no other byte; `EEPROMReadInt16(a)`
converted to `uint16_t` then returns `v`; and the value read from either other slot is
what it was before the write. -/
theorem storage_round_trip (a v : Nat) (s : Machine)
    (ha : a = P1ADDR ∨ a = P2ADDR ∨ a = IDLEADDR) (hv : v ≤ 65535) :
    (EEPROMWriteInt16 a v s).eeprom a = v % 256 ∧
    (EEPROMWriteInt16 a v s).eeprom (a + 1) = v / 256 ∧
    (∀ x, x ≠ a → x ≠ a + 1 → (EEPROMWriteInt16 a v s).eeprom x = s.eeprom x) ∧
    (EEPROMWriteInt16 a v s).eepromWrites =
      s.eepromWrites ++ [(a, v % 256), (a + 1, v / 256)] ∧
    wrapU16 (EEPROMReadInt16 a (EEPROMWriteInt16 a v s)) = v ∧
    (∀ b, (b = P1ADDR ∨ b = P2ADDR ∨ b = IDLEADDR) → b ≠ a →
      EEPROMReadInt16 b (EEPROMWriteInt16 a v s) = EEPROMReadInt16 b s) := by
  have hhi : v / 256 % 256 = v / 256 := Nat.mod_eq_of_lt (by omega)
  refine ⟨?_, ?_, ?_, ?_, read_after_write a v s hv, ?_⟩
  · simp [EEPROMWriteInt16, EEPROM_write]
  · simp [EEPROMWriteInt16, EEPROM_write, hhi]
  · intro x h1 h2
    simp [EEPROMWriteInt16, EEPROM_write, h1, h2]
  · simp [EEPROMWriteInt16, EEPROM_write, hhi]
  · intro b hb hne
    apply read_other_write
    unfold P1ADDR P2ADDR IDLEADDR at ha hb
    omega

/-- Witness of C14: `v = 300` in the slot at 2. -/
theorem storage_round_trip_witness :
    (EEPROMWriteInt16 P2ADDR 300 (mk States.VIEW_ONCE States.VIEW_ONCE 50 50 200)).eeprom 2
      = 44 ∧
    (EEPROMWriteInt16 P2ADDR 300 (mk States.VIEW_ONCE States.VIEW_ONCE 50 50 200)).eeprom 3
      = 1 ∧
    wrapU16 (EEPROMReadInt16 P2ADDR
      (EEPROMWriteInt16 P2ADDR 300 (mk States.VIEW_ONCE States.VIEW_ONCE 50 50 200))) = 300 :=
  have h := storage_round_trip P2ADDR 300 (mk States.VIEW_ONCE States.VIEW_ONCE 50 50 200)
    (Or.inr (Or.inl rfl)) (by decide)
  ⟨h.1, h.2.1, h.2.2.2.2.1⟩

theorem read_eq_stored (a : Nat) (s : Machine) :
    wrapU16 (EEPROMReadInt16 a s) = stored16 s.eeprom a := by
  simp only [EEPROMReadInt16, EEPROM_read, wrapU16_wrapI16, stored16]
  rw [wrapU16_natCast _ (by omega)]
  omega

theorem stored16_le (mem : Nat → Nat) (a : Nat) : stored16 mem a ≤ 65535 := by
  unfold stored16
  omega

/-! ## Startup -/

theorem setup_stages (mem : Nat → Nat) :
    setup mem =
      setup_finish (setup_load_idle (setup_load_pulse2 (setup_load_pulse1
        (setup_init mem)))) := rfl

theorem stored16_write_other (a b v : Nat) (s : Machine) (h : a + 1 < b ∨ b + 1 < a) :
    stored16 (EEPROMWriteInt16 a v s).eeprom b = stored16 s.eeprom b := by
  have e1 : b ≠ a := by omega
  have e2 : b ≠ a + 1 := by omega
  have e3 : b + 1 ≠ a := by omega
  have e4 : ¬ (b = a) := by omega
  simp [stored16, EEPROMWriteInt16, EEPROM_write, e1, e2, e3, e4]

theorem stored16_write_same (a v : Nat) (s : Machine) (hv : v ≤ 65535) :
    stored16 (EEPROMWriteInt16 a v s).eeprom a = v := by
  rw [← read_eq_stored, read_after_write a v s hv]

theorem setup_load_pulse1_eq (s : Machine) :
    setup_load_pulse1 s =
      if stored16 s.eeprom 0 = 0 then EEPROMWriteInt16 P1ADDR 50 { s with pulse1 := 50 }
      else { s with pulse1 := stored16 s.eeprom 0 } := by
  have r : wrapU16 (EEPROMReadInt16 P1ADDR s) = stored16 s.eeprom 0 :=
    read_eq_stored P1ADDR s
  unfold setup_load_pulse1
  dsimp only
  rw [r]
  by_cases h : stored16 s.eeprom 0 = 0
  · rw [if_pos h, if_pos (by rw [h]; decide)]
    rfl
  · rw [if_neg h, if_neg (by unfold MIN_LENGTH; omega)]

/-- What one load step of `setup` does: the duration is the stored value, or the default
when the stored value is 0; the default is then written to the slot; the slot reads back
the duration afterwards; nothing else changes. -/
theorem setup_load_pulse1_spec (s : Machine) :
    (setup_load_pulse1 s).pulse1 =
      (if stored16 s.eeprom 0 = 0 then 50 else stored16 s.eeprom 0) ∧
    stored16 (setup_load_pulse1 s).eeprom 0 = (setup_load_pulse1 s).pulse1 ∧
    (∀ b, 0 + 1 < b ∨ b + 1 < 0 →
      stored16 (setup_load_pulse1 s).eeprom b = stored16 s.eeprom b) ∧
    (∀ x, (setup_load_pulse1 s).eeprom x =
      if stored16 s.eeprom 0 = 0 ∧ (x = 0 ∨ x = 0 + 1) then
        (if x = 0 then 50 else 0)
      else s.eeprom x) ∧
    (setup_load_pulse1 s).eepromWrites =
      s.eepromWrites ++
        (if stored16 s.eeprom 0 = 0 then [(0, 50), (0 + 1, 0)] else []) ∧
    (setup_load_pulse1 s).pulse2 = s.pulse2 ∧
    (setup_load_pulse1 s).idle = s.idle := by
  rw [setup_load_pulse1_eq]
  by_cases h : stored16 s.eeprom 0 = 0
  · rw [if_pos h]
    refine ⟨by rw [if_pos h]; rfl, stored16_write_same _ _ _ (by decide), ?_, ?_, ?_, rfl, rfl⟩
    · intro b hb
      exact stored16_write_other _ _ _ _ hb
    · intro x
      by_cases hx0 : x = 0
      · simp [EEPROMWriteInt16, EEPROM_write, P1ADDR, h, hx0]
      · by_cases hx1 : x = 0 + 1
        · simp [EEPROMWriteInt16, EEPROM_write, P1ADDR, h, hx1]
        · simp [EEPROMWriteInt16, EEPROM_write, P1ADDR, h, hx0, hx1]
    · simp [EEPROMWriteInt16, EEPROM_write, P1ADDR, h]
  · rw [if_neg h]
    refine ⟨by rw [if_neg h], rfl, fun _ _ => rfl, ?_, ?_, rfl, rfl⟩
    · intro x
      simp [h]
    · simp [h]

theorem setup_load_pulse2_eq (s : Machine) :
    setup_load_pulse2 s =
      if stored16 s.eeprom 2 = 0 then EEPROMWriteInt16 P2ADDR 200 { s with pulse2 := 200 }
      else { s with pulse2 := stored16 s.eeprom 2 } := by
  have r : wrapU16 (EEPROMReadInt16 P2ADDR s) = stored16 s.eeprom 2 :=
    read_eq_stored P2ADDR s
  unfold setup_load_pulse2
  dsimp only
  rw [r]
  by_cases h : stored16 s.eeprom 2 = 0
  · rw [if_pos h, if_pos (by rw [h]; decide)]
    rfl
  · rw [if_neg h, if_neg (by unfold MIN_LENGTH; omega)]

/-- What one load step of `setup` does: the duration is the stored value, or the default
when the stored value is 0; the default is then written to the slot; the slot reads back
the duration afterwards; nothing else changes. -/
theorem setup_load_pulse2_spec (s : Machine) :
    (setup_load_pulse2 s).pulse2 =
      (if stored16 s.eeprom 2 = 0 then 200 else stored16 s.eeprom 2) ∧
    stored16 (setup_load_pulse2 s).eeprom 2 = (setup_load_pulse2 s).pulse2 ∧
    (∀ b, 2 + 1 < b ∨ b + 1 < 2 →
      stored16 (setup_load_pulse2 s).eeprom b = stored16 s.eeprom b) ∧
    (∀ x, (setup_load_pulse2 s).eeprom x =
      if stored16 s.eeprom 2 = 0 ∧ (x = 2 ∨ x = 2 + 1) then
        (if x = 2 then 200 else 0)
      else s.eeprom x) ∧
    (setup_load_pulse2 s).eepromWrites =
      s.eepromWrites ++
        (if stored16 s.eeprom 2 = 0 then [(2, 200), (2 + 1, 0)] else []) ∧
    (setup_load_pulse2 s).pulse1 = s.pulse1 ∧
    (setup_load_pulse2 s).idle = s.idle := by
  rw [setup_load_pulse2_eq]
  by_cases h : stored16 s.eeprom 2 = 0
  · rw [if_pos h]
    refine ⟨by rw [if_pos h]; rfl, stored16_write_same _ _ _ (by decide), ?_, ?_, ?_, rfl, rfl⟩
    · intro b hb
      exact stored16_write_other _ _ _ _ hb
    · intro x
      by_cases hx0 : x = 2
      · simp [EEPROMWriteInt16, EEPROM_write, P2ADDR, h, hx0]
      · by_cases hx1 : x = 2 + 1
        · simp [EEPROMWriteInt16, EEPROM_write, P2ADDR, h, hx1]
        · simp [EEPROMWriteInt16, EEPROM_write, P2ADDR, h, hx0, hx1]
    · simp [EEPROMWriteInt16, EEPROM_write, P2ADDR, h]
  · rw [if_neg h]
    refine ⟨by rw [if_neg h], rfl, fun _ _ => rfl, ?_, ?_, rfl, rfl⟩
    · intro x
      simp [h]
    · simp [h]

theorem setup_load_idle_eq (s : Machine) :
    setup_load_idle s =
      if stored16 s.eeprom 4 = 0 then EEPROMWriteInt16 IDLEADDR 50 { s with idle := 50 }
      else { s with idle := stored16 s.eeprom 4 } := by
  have r : wrapU16 (EEPROMReadInt16 IDLEADDR s) = stored16 s.eeprom 4 :=
    read_eq_stored IDLEADDR s
  unfold setup_load_idle
  dsimp only
  rw [r]
  by_cases h : stored16 s.eeprom 4 = 0
  · rw [if_pos h, if_pos (by rw [h]; decide)]
    rfl
  · rw [if_neg h, if_neg (by unfold MIN_LENGTH; omega)]

/-- What one load step of `setup` does: the duration is the stored value, or the default
when the stored value is 0; the default is then written to the slot; the slot reads back
the duration afterwards; nothing else changes. -/
theorem setup_load_idle_spec (s : Machine) :
    (setup_load_idle s).idle =
      (if stored16 s.eeprom 4 = 0 then 50 else stored16 s.eeprom 4) ∧
    stored16 (setup_load_idle s).eeprom 4 = (setup_load_idle s).idle ∧
    (∀ b, 4 + 1 < b ∨ b + 1 < 4 →
      stored16 (setup_load_idle s).eeprom b = stored16 s.eeprom b) ∧
    (∀ x, (setup_load_idle s).eeprom x =
      if stored16 s.eeprom 4 = 0 ∧ (x = 4 ∨ x = 4 + 1) then
        (if x = 4 then 50 else 0)
      else s.eeprom x) ∧
    (setup_load_idle s).eepromWrites =
      s.eepromWrites ++
        (if stored16 s.eeprom 4 = 0 then [(4, 50), (4 + 1, 0)] else []) ∧
    (setup_load_idle s).pulse1 = s.pulse1 ∧
    (setup_load_idle s).pulse2 = s.pulse2 := by
  rw [setup_load_idle_eq]
  by_cases h : stored16 s.eeprom 4 = 0
  · rw [if_pos h]
    refine ⟨by rw [if_pos h]; rfl, stored16_write_same _ _ _ (by decide), ?_, ?_, ?_, rfl, rfl⟩
    · intro b hb
      exact stored16_write_other _ _ _ _ hb
    · intro x
      by_cases hx0 : x = 4
      · simp [EEPROMWriteInt16, EEPROM_write, IDLEADDR, h, hx0]
      · by_cases hx1 : x = 4 + 1
        · simp [EEPROMWriteInt16, EEPROM_write, IDLEADDR, h, hx1]
        · simp [EEPROMWriteInt16, EEPROM_write, IDLEADDR, h, hx0, hx1]
    · simp [EEPROMWriteInt16, EEPROM_write, IDLEADDR, h]
  · rw [if_neg h]
    refine ⟨by rw [if_neg h], rfl, fun _ _ => rfl, ?_, ?_, rfl, rfl⟩
    · intro x
      simp [h]
    · simp [h]

theorem setup_finish_fields (s : Machine) :
    (setup_finish s).pulse1 = s.pulse1 ∧ (setup_finish s).pulse2 = s.pulse2 ∧
    (setup_finish s).idle = s.idle ∧ (setup_finish s).eeprom = s.eeprom ∧
    (setup_finish s).eepromWrites = s.eepromWrites ∧
    (setup_finish s).state = States.VIEW_ONCE ∧
    (setup_finish s).viewstate = States.VIEW_ONCE :=
  ⟨rfl, rfl, rfl, rfl, rfl, rfl, rfl⟩

/-- Contents of the machine after `setup`, for every storage content `mem`: the durations,
the storage bytes, the sequence of byte writes, the read-backs, the bounds and the state. -/
theorem setup_loaded (mem : Nat → Nat) :
    (setup mem).pulse1 = (if stored16 mem 0 = 0 then 50 else stored16 mem 0) ∧
    (setup mem).pulse2 = (if stored16 mem 2 = 0 then 200 else stored16 mem 2) ∧
    (setup mem).idle = (if stored16 mem 4 = 0 then 50 else stored16 mem 4) ∧
    (∀ x, (setup mem).eeprom x =
      if stored16 mem 4 = 0 ∧ (x = 4 ∨ x = 5) then (if x = 4 then 50 else 0)
      else if stored16 mem 2 = 0 ∧ (x = 2 ∨ x = 3) then (if x = 2 then 200 else 0)
      else if stored16 mem 0 = 0 ∧ (x = 0 ∨ x = 1) then (if x = 0 then 50 else 0)
      else mem x) ∧
    (setup mem).eepromWrites =
      (if stored16 mem 0 = 0 then [(0, 50), (1, 0)] else []) ++
      (if stored16 mem 2 = 0 then [(2, 200), (3, 0)] else []) ++
      (if stored16 mem 4 = 0 then [(4, 50), (5, 0)] else []) ∧
    wrapU16 (EEPROMReadInt16 P1ADDR (setup mem)) = (setup mem).pulse1 ∧
    wrapU16 (EEPROMReadInt16 P2ADDR (setup mem)) = (setup mem).pulse2 ∧
    wrapU16 (EEPROMReadInt16 IDLEADDR (setup mem)) = (setup mem).idle ∧
    (1 ≤ (setup mem).pulse1 ∧ (setup mem).pulse1 ≤ 65535) ∧
    (1 ≤ (setup mem).pulse2 ∧ (setup mem).pulse2 ≤ 65535) ∧
    (1 ≤ (setup mem).idle ∧ (setup mem).idle ≤ 65535) ∧
    (setup mem).state = States.VIEW_ONCE ∧
    (setup mem).viewstate = States.VIEW_ONCE := by
  obtain ⟨a1, a2, a3, a4, a5, _, _⟩ := setup_load_pulse1_spec (setup_init mem)
  obtain ⟨b1, b2, b3, b4, b5, b6, _⟩ :=
    setup_load_pulse2_spec (setup_load_pulse1 (setup_init mem))
  obtain ⟨c1, c2, c3, c4, c5, c6, c7⟩ :=
    setup_load_idle_spec (setup_load_pulse2 (setup_load_pulse1 (setup_init mem)))
  have hm : (setup_init mem).eeprom = mem := rfl
  have hw : (setup_init mem).eepromWrites = [] := rfl
  rw [hm] at a1 a3 a4 a5
  rw [a3 2 (Or.inl (by decide))] at b1 b4 b5
  rw [b3 4 (Or.inl (by decide)), a3 4 (Or.inl (by decide))] at c1 c4 c5
  have e1 : (setup mem).pulse1 =
      (setup_load_idle (setup_load_pulse2 (setup_load_pulse1 (setup_init mem)))).pulse1 := by
    rw [setup_stages]; exact (setup_finish_fields _).1
  have e2 : (setup mem).pulse2 =
      (setup_load_idle (setup_load_pulse2 (setup_load_pulse1 (setup_init mem)))).pulse2 := by
    rw [setup_stages]; exact (setup_finish_fields _).2.1
  have e3 : (setup mem).idle =
      (setup_load_idle (setup_load_pulse2 (setup_load_pulse1 (setup_init mem)))).idle := by
    rw [setup_stages]; exact (setup_finish_fields _).2.2.1
  have e4 : (setup mem).eeprom =
      (setup_load_idle (setup_load_pulse2 (setup_load_pulse1 (setup_init mem)))).eeprom := by
    rw [setup_stages]; exact (setup_finish_fields _).2.2.2.1
  have e5 : (setup mem).eepromWrites =
      (setup_load_idle (setup_load_pulse2
        (setup_load_pulse1 (setup_init mem)))).eepromWrites := by
    rw [setup_stages]; exact (setup_finish_fields _).2.2.2.2.1
  have p1 : (setup mem).pulse1 = (if stored16 mem 0 = 0 then 50 else stored16 mem 0) := by
    rw [e1, c6, b6, a1]
  have p2 : (setup mem).pulse2 = (if stored16 mem 2 = 0 then 200 else stored16 mem 2) := by
    rw [e2, c7, b1]
  have p3 : (setup mem).idle = (if stored16 mem 4 = 0 then 50 else stored16 mem 4) := by
    rw [e3, c1]
  have r1 : wrapU16 (EEPROMReadInt16 P1ADDR (setup mem)) = (setup mem).pulse1 := by
    rw [read_eq_stored, e4, e1, c6, b6]
    show stored16 _ 0 = _
    rw [c3 0 (Or.inr (by decide)), b3 0 (Or.inr (by decide))]
    exact a2
  have r2 : wrapU16 (EEPROMReadInt16 P2ADDR (setup mem)) = (setup mem).pulse2 := by
    rw [read_eq_stored, e4, e2, c7]
    show stored16 _ 2 = _
    rw [c3 2 (Or.inr (by decide))]
    exact b2
  have r3 : wrapU16 (EEPROMReadInt16 IDLEADDR (setup mem)) = (setup mem).idle := by
    rw [read_eq_stored, e4, e3]
    exact c2
  have l0 := stored16_le mem 0
  have l2 := stored16_le mem 2
  have l4 := stored16_le mem 4
  refine ⟨p1, p2, p3, ?_, ?_, r1, r2, r3, ?_, ?_, ?_, ?_, ?_⟩
  · intro x
    rw [e4, c4 x, b4 x, a4 x]
  · rw [e5, c5, b5, a5, hw]
    simp
  · rw [p1]; split <;> omega
  · rw [p2]; split <;> omega
  · rw [p3]; split <;> omega
  · rw [setup_stages]; exact (setup_finish_fields _).2.2.2.2.2.1
  · rw [setup_stages]; exact (setup_finish_fields _).2.2.2.2.2.2

/-- C13. Startup load with defaults: for every storage content `mem`, after `setup` each
duration is the 16-bit value stored in its slot when that value is not 0 and its default
(`pulse1 = 50`, `pulse2 = 200`, `idle = 50`) when it is 0; a defaulted slot holds the
default afterwards, written by one write per byte, and every other byte is what it was;
each slot reads back its duration; the three durations are in `[1, 65535]`; the state is
`VIEW_ONCE` and the mode is Once. -/
theorem startup_load (mem : Nat → Nat) :
    (setup mem).pulse1 = (if stored16 mem 0 = 0 then 50 else stored16 mem 0) ∧
    (setup mem).pulse2 = (if stored16 mem 2 = 0 then 200 else stored16 mem 2) ∧
    (setup mem).idle = (if stored16 mem 4 = 0 then 50 else stored16 mem 4) ∧
    (∀ x, (setup mem).eeprom x =
      if stored16 mem 4 = 0 ∧ (x = 4 ∨ x = 5) then (if x = 4 then 50 else 0)
      else if stored16 mem 2 = 0 ∧ (x = 2 ∨ x = 3) then (if x = 2 then 200 else 0)
      else if stored16 mem 0 = 0 ∧ (x = 0 ∨ x = 1) then (if x = 0 then 50 else 0)
      else mem x) ∧
    (setup mem).eepromWrites =
      (if stored16 mem 0 = 0 then [(0, 50), (1, 0)] else []) ++
      (if stored16 mem 2 = 0 then [(2, 200), (3, 0)] else []) ++
      (if stored16 mem 4 = 0 then [(4, 50), (5, 0)] else []) ∧
    wrapU16 (EEPROMReadInt16 P1ADDR (setup mem)) = (setup mem).pulse1 ∧
    wrapU16 (EEPROMReadInt16 P2ADDR (setup mem)) = (setup mem).pulse2 ∧
    wrapU16 (EEPROMReadInt16 IDLEADDR (setup mem)) = (setup mem).idle ∧
    (1 ≤ (setup mem).pulse1 ∧ (setup mem).pulse1 ≤ 65535) ∧
    (1 ≤ (setup mem).pulse2 ∧ (setup mem).pulse2 ≤ 65535) ∧
    (1 ≤ (setup mem).idle ∧ (setup mem).idle ≤ 65535) ∧
    (setup mem).state = States.VIEW_ONCE ∧
    (setup mem).viewstate = States.VIEW_ONCE :=
  setup_loaded mem

/-! ## Auxiliary switch -/

theorem extra_unfold (val t1 t2 : Nat) (s : Machine) :
    handle_extra_button val t1 t2 s =
      { (if (t2 % 2 ^ 32 + 2 ^ 32 -
              (if val ≠ s.extraButtonLastState then
                { s with extraButtonLastMillis := t1 % 2 ^ 32 } else s).extraButtonLastMillis)
              % 2 ^ 32 > extraButtonDebounce then
          if val ≠ (if val ≠ s.extraButtonLastState then
                { s with extraButtonLastMillis := t1 % 2 ^ 32 } else s).extraButtonState then
            if val = 0 then
              on_clicked
                { (if val ≠ s.extraButtonLastState then
                    { s with extraButtonLastMillis := t1 % 2 ^ 32 } else s) with
                  extraButtonState := val }
            else
              { (if val ≠ s.extraButtonLastState then
                  { s with extraButtonLastMillis := t1 % 2 ^ 32 } else s) with
                extraButtonState := val }
          else (if val ≠ s.extraButtonLastState then
                { s with extraButtonLastMillis := t1 % 2 ^ 32 } else s)
        else (if val ≠ s.extraButtonLastState then
                { s with extraButtonLastMillis := t1 % 2 ^ 32 } else s)) with
        extraButtonLastState := val } := rfl

theorem on_clicked_extra (s : Machine) (m x : Nat) :
    on_clicked { s with extraButtonLastMillis := m, extraButtonState := x } =
      { on_clicked s with extraButtonLastMillis := m, extraButtonState := x } := by
  rcases s with ⟨st, vs, p1, idl, p2, c1, ci, c2, o, bh, bs, ep, oep, xl, xs, xm, mem, wr⟩
  cases st <;> simp [on_clicked, pulsing, editing] <;> split <;> rfl

theorem extra_stamp_eq (val t1 : Nat) (s : Machine) :
    (if val ≠ s.extraButtonLastState then
        { s with extraButtonLastMillis := t1 % 2 ^ 32 } else s) =
      { s with extraButtonLastMillis :=
          if val ≠ s.extraButtonLastState then t1 % 2 ^ 32 else s.extraButtonLastMillis } := by
  by_cases h : val = s.extraButtonLastState
  · rw [if_neg (not_not.mpr h), if_neg (not_not.mpr h)]
  · rw [if_pos h, if_pos h]

theorem extra_press_eq (val t1 t2 : Nat) (s : Machine) (h : extra_press val t1 t2 s) :
    handle_extra_button val t1 t2 s =
      { on_clicked s with
        extraButtonLastMillis :=
          if val ≠ s.extraButtonLastState then t1 % 2 ^ 32 else s.extraButtonLastMillis,
        extraButtonState := 0, extraButtonLastState := 0 } := by
  obtain ⟨h0, hs, hd⟩ := h
  rw [extra_unfold, extra_stamp_eq]
  dsimp only
  rw [if_pos hd, if_pos hs, if_pos h0, on_clicked_extra, h0]

theorem extra_no_press_eq (val t1 t2 : Nat) (s : Machine) (h : ¬ extra_press val t1 t2 s) :
    handle_extra_button val t1 t2 s =
      { s with
        extraButtonLastMillis :=
          if val ≠ s.extraButtonLastState then t1 % 2 ^ 32 else s.extraButtonLastMillis,
        extraButtonState :=
          if (t2 % 2 ^ 32 + 2 ^ 32 -
              (if val ≠ s.extraButtonLastState then t1 % 2 ^ 32
                else s.extraButtonLastMillis)) % 2 ^ 32 > extraButtonDebounce ∧
              val ≠ s.extraButtonState then val
          else s.extraButtonState,
        extraButtonLastState := val } := by
  rw [extra_unfold, extra_stamp_eq]
  dsimp only
  unfold extra_press at h
  generalize (if val ≠ s.extraButtonLastState then t1 % 2 ^ 32
    else s.extraButtonLastMillis) = L at h ⊢
  by_cases hd : (t2 % 2 ^ 32 + 2 ^ 32 - L) % 2 ^ 32 > extraButtonDebounce
  · by_cases hs : val ≠ s.extraButtonState
    · have h0 : ¬ (val = 0) := fun h0 => h ⟨h0, hs, hd⟩
      rw [if_pos hd, if_pos hs, if_neg h0, if_pos ⟨hd, hs⟩]
    · rw [if_pos hd, if_neg hs, if_neg (fun hh => hs hh.2)]
  · rw [if_neg hd, if_neg (fun hh => hd hh.1)]

theorem on_clicked_eq (s : Machine) :
    handle_encoder_button Button.Clicked s =
      on_clicked { s with buttonState := Button.Clicked } := rfl

theorem on_clicked_button (s : Machine) (b : Button) :
    on_clicked { s with buttonState := b } = { on_clicked s with buttonState := b } := by
  rcases s with ⟨st, vs, p1, idl, p2, c1, ci, c2, o, bh, bs, ep, oep, xl, xs, xm, mem, wr⟩
  cases st <;> simp [on_clicked, pulsing, editing] <;> split <;> rfl

theorem on_clicked_start (s : Machine) (h : viewing s = true) :
    on_clicked s =
      { s with pulse1_counter := 0, pulse2_counter := 0, idle_counter := 0,
               state := States.PULSE_ONE } := by
  rcases viewing_cases s h with e | e | e <;> simp [on_clicked, pulsing, editing, e]

theorem on_clicked_stop (s : Machine) (h : pulsing s = true)
    (hv : s.viewstate = States.VIEW_CONTINOUS) :
    on_clicked s = { s with state := States.VIEW_CONTINOUS } := by
  rcases pulsing_cases s h with e | e | e <;> simp [on_clicked, pulsing, editing, e, hv]

theorem on_clicked_ignored (s : Machine)
    (h : editing s = true ∨ (pulsing s = true ∧ s.viewstate ≠ States.VIEW_CONTINOUS)) :
    on_clicked s = s := by
  rcases h with h | ⟨h, hv⟩
  · rcases editing_cases s h with e | e | e <;> simp [on_clicked, pulsing, editing, e]
  · rcases pulsing_cases s h with e | e | e <;> simp [on_clicked, pulsing, editing, e, hv]

/-- C17. The auxiliary switch acts as the primary click: on the call of
`handle_extra_button` that handles a press (level LOW, different from the debounced level,
stable for more than the debounce time) the state, the mode, the three durations and the
three counters come out as a Clicked event of `handle_encoder_button` leaves them: a start
from a view state, a stop from a pulsing state in mode Continuous, and no change in an
editing state or in a pulsing state of another mode. -/
theorem extra_press_as_click (val t1 t2 : Nat) (s : Machine)
    (h : extra_press val t1 t2 s) :
    ((handle_extra_button val t1 t2 s).state =
        (handle_encoder_button Button.Clicked s).state ∧
      (handle_extra_button val t1 t2 s).viewstate =
        (handle_encoder_button Button.Clicked s).viewstate ∧
      (handle_extra_button val t1 t2 s).pulse1 =
        (handle_encoder_button Button.Clicked s).pulse1 ∧
      (handle_extra_button val t1 t2 s).idle =
        (handle_encoder_button Button.Clicked s).idle ∧
      (handle_extra_button val t1 t2 s).pulse2 =
        (handle_encoder_button Button.Clicked s).pulse2 ∧
      (handle_extra_button val t1 t2 s).pulse1_counter =
        (handle_encoder_button Button.Clicked s).pulse1_counter ∧
      (handle_extra_button val t1 t2 s).idle_counter =
        (handle_encoder_button Button.Clicked s).idle_counter ∧
      (handle_extra_button val t1 t2 s).pulse2_counter =
        (handle_encoder_button Button.Clicked s).pulse2_counter) ∧
    (viewing s = true →
      (handle_extra_button val t1 t2 s).state = States.PULSE_ONE ∧
      (handle_extra_button val t1 t2 s).pulse1_counter = 0 ∧
      (handle_extra_button val t1 t2 s).idle_counter = 0 ∧
      (handle_extra_button val t1 t2 s).pulse2_counter = 0) ∧
    (pulsing s = true → s.viewstate = States.VIEW_CONTINOUS →
      (handle_extra_button val t1 t2 s).state = States.VIEW_CONTINOUS ∧
      (handle_extra_button val t1 t2 s).pulse1_counter = s.pulse1_counter ∧
      (handle_extra_button val t1 t2 s).idle_counter = s.idle_counter ∧
      (handle_extra_button val t1 t2 s).pulse2_counter = s.pulse2_counter) ∧
    (editing s = true ∨ (pulsing s = true ∧ s.viewstate ≠ States.VIEW_CONTINOUS) →
      (handle_extra_button val t1 t2 s).state = s.state ∧
      (handle_extra_button val t1 t2 s).pulse1_counter = s.pulse1_counter ∧
      (handle_extra_button val t1 t2 s).idle_counter = s.idle_counter ∧
      (handle_extra_button val t1 t2 s).pulse2_counter = s.pulse2_counter) := by
  have e2 : handle_encoder_button Button.Clicked s =
      { on_clicked s with buttonState := Button.Clicked } := by
    rw [on_clicked_eq, on_clicked_button]
  rw [extra_press_eq val t1 t2 s h, e2]
  refine ⟨⟨rfl, rfl, rfl, rfl, rfl, rfl, rfl, rfl⟩, ?_, ?_, ?_⟩
  · intro hv
    rw [on_clicked_start s hv]
    exact ⟨rfl, rfl, rfl, rfl⟩
  · intro hp hv
    rw [on_clicked_stop s hp hv]
    exact ⟨rfl, rfl, rfl, rfl⟩
  · intro hi
    rw [on_clicked_ignored s hi]
    exact ⟨rfl, rfl, rfl, rfl⟩

/-- Witness of C17: the switch was up (`extraButtonState = 1`), has read LOW since clock
100 and is read LOW again at clock 120, in `VIEW_TWICE` with stale counters. -/
theorem extra_press_as_click_witness :
    (handle_extra_button 0 120 120
      { mk States.VIEW_TWICE States.VIEW_TWICE 50 50 200 with
        pulse1_counter := 7, extraButtonLastState := 0, extraButtonState := 1,
        extraButtonLastMillis := 100 }).state = States.PULSE_ONE ∧
    (handle_extra_button 0 120 120
      { mk States.VIEW_TWICE States.VIEW_TWICE 50 50 200 with
        pulse1_counter := 7, extraButtonLastState := 0, extraButtonState := 1,
        extraButtonLastMillis := 100 }).pulse1_counter = 0 :=
  have h := extra_press_as_click 0 120 120
    { mk States.VIEW_TWICE States.VIEW_TWICE 50 50 200 with
      pulse1_counter := 7, extraButtonLastState := 0, extraButtonState := 1,
      extraButtonLastMillis := 100 } (by decide)
  ⟨(h.2.1 rfl).1, (h.2.1 rfl).2.1⟩

/-! ## What each routine leaves unchanged -/

theorem kept_refl (s : Machine) : kept s s := ⟨rfl, rfl, rfl, rfl, rfl, rfl⟩

theorem kept_trans {a b c : Machine} (h1 : kept a b) (h2 : kept b c) : kept a c :=
  ⟨h2.1.trans h1.1, h2.2.1.trans h1.2.1, h2.2.2.1.trans h1.2.2.1,
    h2.2.2.2.1.trans h1.2.2.2.1, h2.2.2.2.2.1.trans h1.2.2.2.2.1,
    h2.2.2.2.2.2.trans h1.2.2.2.2.2⟩

theorem pulse_one_block_kept (s : Machine) : kept s (pulse_one_block s) := by
  unfold pulse_one_block
  dsimp only
  split_ifs <;> exact ⟨rfl, rfl, rfl, rfl, rfl, rfl⟩

theorem pulse_idle_block_kept (s : Machine) : kept s (pulse_idle_block s) := by
  unfold pulse_idle_block
  dsimp only
  split_ifs <;> exact ⟨rfl, rfl, rfl, rfl, rfl, rfl⟩

theorem pulse_two_block_kept (s : Machine) : kept s (pulse_two_block s) := by
  unfold pulse_two_block
  dsimp only
  split_ifs <;> exact ⟨rfl, rfl, rfl, rfl, rfl, rfl⟩

theorem handle_pulsing_kept (s : Machine) : kept s (handle_pulsing s) := by
  unfold handle_pulsing
  dsimp only
  have k0 : kept s { s with out := false } := ⟨rfl, rfl, rfl, rfl, rfl, rfl⟩
  split_ifs
  · exact kept_trans (kept_trans (kept_trans k0
      (pulse_one_block_kept _)) (pulse_idle_block_kept _)) (pulse_two_block_kept _)
  · exact k0

theorem timerIsr_kept (s : Machine) : kept s (timerIsr s) := by
  have h := handle_pulsing_kept s
  unfold timerIsr
  dsimp only
  split_ifs <;> exact h

theorem timerIsr_state (s : Machine) : (timerIsr s).state = (handle_pulsing s).state := by
  unfold timerIsr
  dsimp only
  split_ifs <;> rfl

theorem timerIsr_out (s : Machine) : (timerIsr s).out = (handle_pulsing s).out := by
  unfold timerIsr
  dsimp only
  split_ifs <;> rfl

/-! ## State and mode stay consistent -/

theorem consistent_of_pair (s r : Machine) (h : consistent s) (hs : r.state = s.state)
    (hv : r.viewstate = s.viewstate) : consistent r := by
  unfold consistent viewing at h ⊢
  rw [hs, hv]
  exact h

theorem consistent_pulse_one_block (s : Machine) (h : consistent s) :
    consistent (pulse_one_block s) := by
  unfold pulse_one_block
  dsimp only
  split_ifs with hs hc hv
  · simp [consistent, viewing, hv]
  · have hm := h.1
    simp only [consistent, viewing]
    simp
    tauto
  · exact consistent_of_pair s _ h rfl rfl
  · exact h

theorem consistent_pulse_idle_block (s : Machine) (h : consistent s) :
    consistent (pulse_idle_block s) := by
  unfold pulse_idle_block
  dsimp only
  split_ifs with hs hc hv
  · simp [consistent, viewing, hv]
  · have hm := h.2.2.1 (Or.inl hs)
    simp only [consistent, viewing]
    simp
    tauto
  · exact consistent_of_pair s _ h rfl rfl
  · exact h

theorem consistent_pulse_two_block (s : Machine) (h : consistent s) :
    consistent (pulse_two_block s) := by
  unfold pulse_two_block
  dsimp only
  split_ifs with hs hc
  · have hm := h.2.2.2 (Or.inl hs)
    simp [consistent, viewing, hm]
  · exact consistent_of_pair s _ h rfl rfl
  · exact h

theorem consistent_timerIsr (s : Machine) (h : consistent s) : consistent (timerIsr s) := by
  apply consistent_of_pair (handle_pulsing s) _ _ (timerIsr_state s)
    ((timerIsr_kept s).1.trans (handle_pulsing_kept s).1.symm)
  unfold handle_pulsing
  dsimp only
  have h0 : consistent { s with out := false } := consistent_of_pair s _ h rfl rfl
  split_ifs
  · exact consistent_pulse_two_block _ (consistent_pulse_idle_block _
      (consistent_pulse_one_block _ h0))
  · exact h0

theorem state_class (s : Machine) :
    viewing s = true ∨ pulsing s = true ∨ editing s = true := by
  rcases s with ⟨st, vs, p1, idl, p2, c1, ci, c2, o, bh, bs, ep, oep, xl, xs, xm, mem, wr⟩
  cases st <;> simp [viewing, pulsing, editing]

theorem clicked_eq (s : Machine) :
    handle_encoder_button Button.Clicked s =
      { on_clicked s with buttonState := Button.Clicked } := by
  rw [on_clicked_eq, on_clicked_button]

theorem on_clicked_kept (s : Machine) : kept s (on_clicked s) := by
  rcases state_class s with h | h | h
  · rw [on_clicked_start s h]; exact ⟨rfl, rfl, rfl, rfl, rfl, rfl⟩
  · by_cases hv : s.viewstate = States.VIEW_CONTINOUS
    · rw [on_clicked_stop s h hv]; exact ⟨rfl, rfl, rfl, rfl, rfl, rfl⟩
    · rw [on_clicked_ignored s (Or.inr ⟨h, hv⟩)]; exact kept_refl s
  · rw [on_clicked_ignored s (Or.inl h)]; exact kept_refl s

theorem consistent_on_clicked (s : Machine) (h : consistent s) : consistent (on_clicked s) := by
  rcases state_class s with hc | hc | hc
  · rw [on_clicked_start s hc]
    have hm := h.1
    simp only [consistent, viewing]
    simp
    exact hm
  · by_cases hv : s.viewstate = States.VIEW_CONTINOUS
    · rw [on_clicked_stop s hc hv]
      simp [consistent, viewing, hv]
    · rw [on_clicked_ignored s (Or.inr ⟨hc, hv⟩)]; exact h
  · rw [on_clicked_ignored s (Or.inl hc)]; exact h

theorem consistent_held (s : Machine) (h : consistent s) :
    consistent (handle_encoder_button Button.Held s) := by
  by_cases hf : s.btn_held_handled = true
  · rw [held_handled s hf]; exact consistent_of_pair s _ h rfl rfl
  · have hf' : s.btn_held_handled = false := by simpa using hf
    rcases state_class s with hc | hc | hc
    · rw [held_view s hf' hc]
      rcases viewing_cases s hc with e | e | e <;> simp [consistent, viewing, next_view, e]
    · rw [held_pulsing s hc]; exact consistent_of_pair s _ h rfl rfl
    · rw [held_edit s hf' hc]; exact consistent_of_pair s _ h rfl rfl

theorem consistent_double_clicked (s : Machine) (h : consistent s) :
    consistent (handle_encoder_button Button.DoubleClicked s) := by
  have hs := dbl_state s
  have hv := (dbl_frame s).1
  unfold consistent viewing at h ⊢
  rw [hs, hv]
  generalize s.state = st at h ⊢
  generalize s.viewstate = vs at h ⊢
  cases st <;> cases vs <;> simp at h ⊢

theorem consistent_button (b : Button) (s : Machine) (h : consistent s) :
    consistent (handle_encoder_button b s) := by
  cases b
  · exact consistent_of_pair s _ h rfl rfl
  · exact consistent_of_pair s _ h rfl rfl
  · exact consistent_of_pair s _ h rfl rfl
  · exact consistent_held s h
  · exact consistent_of_pair s _ h rfl rfl
  · rw [clicked_eq]
    exact consistent_of_pair (on_clicked s) _ (consistent_on_clicked s h) rfl rfl
  · exact consistent_double_clicked s h

theorem consistent_extra (val t1 t2 : Nat) (s : Machine) (h : consistent s) :
    consistent (handle_extra_button val t1 t2 s) := by
  by_cases hp : extra_press val t1 t2 s
  · rw [extra_press_eq val t1 t2 s hp]
    exact consistent_of_pair (on_clicked s) _ (consistent_on_clicked s h) rfl rfl
  · rw [extra_no_press_eq val t1 t2 s hp]
    exact consistent_of_pair s _ h rfl rfl

theorem consistent_rotate (delta : Int) (s : Machine) (h : consistent s) :
    consistent (handle_encoder_rotate delta s) :=
  consistent_of_pair s _ h (rotate_frame delta s).2.2.1 (rotate_frame delta s).2.2.2

theorem consistent_step (e : Event) (s : Machine) (h : consistent s) :
    consistent (step e s) := by
  cases e with
  | tick => exact consistent_timerIsr s h
  | button b => exact consistent_button b s h
  | extra val t1 t2 => exact consistent_extra val t1 t2 s h
  | rotate delta => exact consistent_rotate delta s h

theorem consistent_run (es : List Event) (s : Machine) (h : consistent s) :
    consistent (run es s) := by
  induction es generalizing s with
  | nil => exact h
  | cons e es ih => exact ih _ (consistent_step e s h)

theorem consistent_setup (mem : Nat → Nat) : consistent (setup mem) := by
  have hs : (setup mem).state = States.VIEW_ONCE := by
    rw [setup_stages]; exact (setup_finish_fields _).2.2.2.2.2.1
  have hv : (setup mem).viewstate = States.VIEW_ONCE := by
    rw [setup_stages]; exact (setup_finish_fields _).2.2.2.2.2.2
  unfold consistent viewing
  rw [hs, hv]
  simp

/-- C15. The state is always consistent with the mode: in every state reached from
`setup`, on any storage content, by any finite sequence of timer callbacks, button
events, auxiliary-switch calls and rotations, the mode is Once, Twice or Continuous; a view
state is the view state of the mode; `PULSE_IDLE` and `EDIT_IDLE` occur only in modes Twice
and Continuous; `PULSE_TWO` and `EDIT_PULSE2` occur only in mode Twice, so `PULSE_TWO` is
never reached in mode Continuous. -/
theorem state_consistent_with_mode (mem : Nat → Nat) (es : List Event) :
    ((run es (setup mem)).viewstate = States.VIEW_ONCE ∨
      (run es (setup mem)).viewstate = States.VIEW_TWICE ∨
      (run es (setup mem)).viewstate = States.VIEW_CONTINOUS) ∧
    (viewing (run es (setup mem)) = true →
      (run es (setup mem)).state = (run es (setup mem)).viewstate) ∧
    ((run es (setup mem)).state = States.PULSE_IDLE ∨
        (run es (setup mem)).state = States.EDIT_IDLE →
      (run es (setup mem)).viewstate = States.VIEW_TWICE ∨
        (run es (setup mem)).viewstate = States.VIEW_CONTINOUS) ∧
    ((run es (setup mem)).state = States.PULSE_TWO ∨
        (run es (setup mem)).state = States.EDIT_PULSE2 →
      (run es (setup mem)).viewstate = States.VIEW_TWICE) ∧
    ((run es (setup mem)).viewstate = States.VIEW_CONTINOUS →
      (run es (setup mem)).state ≠ States.PULSE_TWO) := by
  have h := consistent_run es (setup mem) (consistent_setup mem)
  refine ⟨h.1, h.2.1, h.2.2.1, h.2.2.2, ?_⟩
  intro hv hs
  have := h.2.2.2 (Or.inl hs)
  rw [hv] at this
  cases this

/-! ## Writers of the durations and the mode -/

theorem rotate_pulse1 (delta : Int) (s : Machine) :
    (handle_encoder_rotate delta s).pulse1 =
      if s.state = States.EDIT_PULSE1 then wrapU16 (handle_encoder_rotate delta s).encPos
      else s.pulse1 :=
  congrArg Machine.pulse1 (rotate_eq delta s)

theorem rotate_pulse2 (delta : Int) (s : Machine) :
    (handle_encoder_rotate delta s).pulse2 =
      if s.state = States.EDIT_PULSE2 then wrapU16 (handle_encoder_rotate delta s).encPos
      else s.pulse2 :=
  congrArg Machine.pulse2 (rotate_eq delta s)

theorem rotate_idle (delta : Int) (s : Machine) :
    (handle_encoder_rotate delta s).idle =
      if s.state = States.EDIT_IDLE then wrapU16 (handle_encoder_rotate delta s).encPos
      else s.idle :=
  congrArg Machine.idle (rotate_eq delta s)

theorem rotate_counters (delta : Int) (s : Machine) :
    (handle_encoder_rotate delta s).pulse1_counter = s.pulse1_counter ∧
    (handle_encoder_rotate delta s).idle_counter = s.idle_counter ∧
    (handle_encoder_rotate delta s).pulse2_counter = s.pulse2_counter := by
  have h1 := congrArg Machine.pulse1_counter (rotate_eq delta s)
  have h2 := congrArg Machine.idle_counter (rotate_eq delta s)
  have h3 := congrArg Machine.pulse2_counter (rotate_eq delta s)
  exact ⟨h1, h2, h3⟩

theorem held_durations (s : Machine) :
    (handle_encoder_button Button.Held s).pulse1 = s.pulse1 ∧
    (handle_encoder_button Button.Held s).pulse2 = s.pulse2 ∧
    (handle_encoder_button Button.Held s).idle = s.idle ∧
    (handle_encoder_button Button.Held s).eeprom = s.eeprom := by
  by_cases hf : s.btn_held_handled = true
  · rw [held_handled s hf]; exact ⟨rfl, rfl, rfl, rfl⟩
  · have hf' : s.btn_held_handled = false := by simpa using hf
    rcases state_class s with hc | hc | hc
    · rw [held_view s hf' hc]; exact ⟨rfl, rfl, rfl, rfl⟩
    · rw [held_pulsing s hc]; exact ⟨rfl, rfl, rfl, rfl⟩
    · rw [held_edit s hf' hc]; exact ⟨rfl, rfl, rfl, rfl⟩

theorem button_durations (b : Button) (s : Machine) :
    (handle_encoder_button b s).pulse1 = s.pulse1 ∧
    (handle_encoder_button b s).pulse2 = s.pulse2 ∧
    (handle_encoder_button b s).idle = s.idle := by
  cases b
  · exact ⟨rfl, rfl, rfl⟩
  · exact ⟨rfl, rfl, rfl⟩
  · exact ⟨rfl, rfl, rfl⟩
  · exact ⟨(held_durations s).1, (held_durations s).2.1, (held_durations s).2.2.1⟩
  · exact ⟨rfl, rfl, rfl⟩
  · rw [clicked_eq]
    have k := on_clicked_kept s
    exact ⟨k.2.1, k.2.2.2.1, k.2.2.1⟩
  · have k := dbl_frame s
    exact ⟨k.2.1, k.2.2.2.1, k.2.2.1⟩

theorem extra_kept (val t1 t2 : Nat) (s : Machine) :
    kept s (handle_extra_button val t1 t2 s) := by
  by_cases hp : extra_press val t1 t2 s
  · rw [extra_press_eq val t1 t2 s hp]
    exact on_clicked_kept s
  · rw [extra_no_press_eq val t1 t2 s hp]
    exact ⟨rfl, rfl, rfl, rfl, rfl, rfl⟩

/-- C19. Writers of the durations and the mode: a timer callback changes none of `pulse1`,
`pulse2`, `idle` and the mode, in any state; no button event (click, double-click, Held,
Released or any other) and no call of `handle_extra_button` changes a duration; a rotation
never changes the state, the mode or a counter, changes no duration in a state that is
not an editing state, and in `EDIT_PULSE1`, `EDIT_IDLE`, `EDIT_PULSE2` leaves the two
durations other than `pulse1`, `idle`, `pulse2` respectively unchanged. -/
theorem single_writer (s : Machine) :
    ((timerIsr s).pulse1 = s.pulse1 ∧ (timerIsr s).pulse2 = s.pulse2 ∧
      (timerIsr s).idle = s.idle ∧ (timerIsr s).viewstate = s.viewstate) ∧
    (∀ b, (handle_encoder_button b s).pulse1 = s.pulse1 ∧
      (handle_encoder_button b s).pulse2 = s.pulse2 ∧
      (handle_encoder_button b s).idle = s.idle) ∧
    (∀ val t1 t2, (handle_extra_button val t1 t2 s).pulse1 = s.pulse1 ∧
      (handle_extra_button val t1 t2 s).pulse2 = s.pulse2 ∧
      (handle_extra_button val t1 t2 s).idle = s.idle ∧
      (handle_extra_button val t1 t2 s).viewstate = s.viewstate) ∧
    (∀ delta,
      ((handle_encoder_rotate delta s).state = s.state ∧
        (handle_encoder_rotate delta s).viewstate = s.viewstate ∧
        (handle_encoder_rotate delta s).pulse1_counter = s.pulse1_counter ∧
        (handle_encoder_rotate delta s).idle_counter = s.idle_counter ∧
        (handle_encoder_rotate delta s).pulse2_counter = s.pulse2_counter) ∧
      (editing s = false →
        (handle_encoder_rotate delta s).pulse1 = s.pulse1 ∧
        (handle_encoder_rotate delta s).pulse2 = s.pulse2 ∧
        (handle_encoder_rotate delta s).idle = s.idle) ∧
      (s.state = States.EDIT_PULSE1 →
        (handle_encoder_rotate delta s).idle = s.idle ∧
        (handle_encoder_rotate delta s).pulse2 = s.pulse2) ∧
      (s.state = States.EDIT_IDLE →
        (handle_encoder_rotate delta s).pulse1 = s.pulse1 ∧
        (handle_encoder_rotate delta s).pulse2 = s.pulse2) ∧
      (s.state = States.EDIT_PULSE2 →
        (handle_encoder_rotate delta s).pulse1 = s.pulse1 ∧
        (handle_encoder_rotate delta s).idle = s.idle)) := by
  have kt := timerIsr_kept s
  refine ⟨⟨kt.2.1, kt.2.2.2.1, kt.2.2.1, kt.1⟩, fun b => button_durations b s, ?_, ?_⟩
  · intro val t1 t2
    have k := extra_kept val t1 t2 s
    exact ⟨k.2.1, k.2.2.2.1, k.2.2.1, k.1⟩
  · intro delta
    have f := rotate_frame delta s
    have c := rotate_counters delta s
    have r1 := rotate_pulse1 delta s
    have r2 := rotate_pulse2 delta s
    have r3 := rotate_idle delta s
    refine ⟨⟨f.2.2.1, f.2.2.2, c.1, c.2.1, c.2.2⟩, ?_, ?_, ?_, ?_⟩
    · intro he
      have n1 : s.state ≠ States.EDIT_PULSE1 := by
        intro e; simp [editing, e] at he
      have n2 : s.state ≠ States.EDIT_PULSE2 := by
        intro e; simp [editing, e] at he
      have n3 : s.state ≠ States.EDIT_IDLE := by
        intro e; simp [editing, e] at he
      rw [if_neg n1] at r1
      rw [if_neg n2] at r2
      rw [if_neg n3] at r3
      exact ⟨r1, r2, r3⟩
    · intro e
      rw [e] at r2 r3
      exact ⟨r3, r2⟩
    · intro e
      rw [e] at r1 r2
      exact ⟨r1, r2⟩
    · intro e
      rw [e] at r1 r3
      exact ⟨r1, r3⟩

/-! ## Storage stays in step with the durations -/

theorem synced_of_same (s r : Machine) (h : synced s)
    (h1 : r.pulse1 = s.pulse1) (h2 : r.idle = s.idle) (h3 : r.pulse2 = s.pulse2)
    (hm : r.eeprom = s.eeprom) (he : editing r = editing s)
    (hv : editing s = true → r.viewstate = s.viewstate) : synced r := by
  unfold synced at h ⊢
  rw [h1, h2, h3, hm, he]
  obtain ⟨b1, b2, b3, c1, c2, c3⟩ := h
  refine ⟨b1, b2, b3, c1, ?_, ?_⟩
  · intro hc
    rcases hc with hc | hc
    · exact c2 (Or.inl hc)
    · by_cases hed : editing s = true
      · rw [hv hed] at hc
        exact c2 (Or.inr hc)
      · exact c2 (Or.inl (by simpa using hed))
  · intro hc
    by_cases hed : editing s = true
    · rw [hv hed] at hc
      exact c3 hc
    · exact c3 (Or.inl (by simpa using hed))

theorem synced_of_kept (s r : Machine) (h : synced s) (k : kept s r)
    (he : editing r = editing s) : synced r :=
  synced_of_same s r h k.2.1 k.2.2.1 k.2.2.2.1 k.2.2.2.2.1 he (fun _ => k.1)

theorem editing_pulse_one_block (s : Machine) :
    editing (pulse_one_block s) = editing s := by
  unfold pulse_one_block
  dsimp only
  split_ifs with hs <;> simp [editing, hs]

theorem editing_pulse_idle_block (s : Machine) :
    editing (pulse_idle_block s) = editing s := by
  unfold pulse_idle_block
  dsimp only
  split_ifs with hs <;> simp [editing, hs]

theorem editing_pulse_two_block (s : Machine) :
    editing (pulse_two_block s) = editing s := by
  unfold pulse_two_block
  dsimp only
  split_ifs with hs <;> simp [editing, hs]

theorem editing_of_state (s r : Machine) (h : r.state = s.state) : editing r = editing s := by
  unfold editing
  rw [h]

theorem editing_timerIsr (s : Machine) : editing (timerIsr s) = editing s := by
  rw [editing_of_state (handle_pulsing s) (timerIsr s) (timerIsr_state s)]
  unfold handle_pulsing
  dsimp only
  split_ifs
  · rw [editing_pulse_two_block, editing_pulse_idle_block, editing_pulse_one_block]
    rfl
  · rfl

theorem editing_on_clicked (s : Machine) : editing (on_clicked s) = editing s := by
  rcases state_class s with h | h | h
  · rw [on_clicked_start s h]
    rcases viewing_cases s h with e | e | e <;> simp [editing, e]
  · by_cases hv : s.viewstate = States.VIEW_CONTINOUS
    · rw [on_clicked_stop s h hv]
      rcases pulsing_cases s h with e | e | e <;> simp [editing, e]
    · rw [on_clicked_ignored s (Or.inr ⟨h, hv⟩)]
  · rw [on_clicked_ignored s (Or.inl h)]

theorem synced_timerIsr (s : Machine) (h : synced s) : synced (timerIsr s) :=
  synced_of_kept s _ h (timerIsr_kept s) (editing_timerIsr s)

theorem synced_on_clicked (s : Machine) (h : synced s) : synced (on_clicked s) :=
  synced_of_kept s _ h (on_clicked_kept s) (editing_on_clicked s)

theorem synced_extra (val t1 t2 : Nat) (s : Machine) (h : synced s) :
    synced (handle_extra_button val t1 t2 s) := by
  by_cases hp : extra_press val t1 t2 s
  · rw [extra_press_eq val t1 t2 s hp]
    exact synced_of_kept (on_clicked s) _ (synced_on_clicked s h)
      ⟨rfl, rfl, rfl, rfl, rfl, rfl⟩ rfl
  · rw [extra_no_press_eq val t1 t2 s hp]
    exact synced_of_kept s _ h ⟨rfl, rfl, rfl, rfl, rfl, rfl⟩ rfl

theorem synced_held (s : Machine) (h : synced s) :
    synced (handle_encoder_button Button.Held s) := by
  by_cases hf : s.btn_held_handled = true
  · rw [held_handled s hf]
    exact synced_of_kept s _ h ⟨rfl, rfl, rfl, rfl, rfl, rfl⟩ rfl
  · have hf' : s.btn_held_handled = false := by simpa using hf
    rcases state_class s with hc | hc | hc
    · rw [held_view s hf' hc]
      have e0 : editing s = false := by
        rcases viewing_cases s hc with e | e | e <;> simp [editing, e]
      refine synced_of_same s _ h rfl rfl rfl rfl ?_ ?_
      · rw [e0]
        rcases viewing_cases s hc with e | e | e <;> simp [editing, next_view, e]
      · intro he
        rw [e0] at he
        cases he
    · rw [held_pulsing s hc]
      exact synced_of_kept s _ h ⟨rfl, rfl, rfl, rfl, rfl, rfl⟩ rfl
    · rw [held_edit s hf' hc]
      exact synced_of_kept s _ h ⟨rfl, rfl, rfl, rfl, rfl, rfl⟩ rfl

theorem synced_rotate (delta : Int) (s : Machine) (hc : consistent s) (h : synced s) :
    synced (handle_encoder_rotate delta s) := by
  have f := rotate_frame delta s
  have r1 := rotate_pulse1 delta s
  have r2 := rotate_pulse2 delta s
  have r3 := rotate_idle delta s
  have he : editing (handle_encoder_rotate delta s) = editing s := rotate_editing delta s
  have hw := wrapU16_le (handle_encoder_rotate delta s).encPos
  obtain ⟨b1, b2, b3, c1, c2, c3⟩ := h
  unfold synced
  rw [he, f.1, f.2.2.2]
  refine ⟨?_, ?_, ?_, ?_, ?_, ?_⟩
  · rw [r1]
    split
    · exact hw
    · exact b1
  · rw [r3]
    split
    · exact hw
    · exact b2
  · rw [r2]
    split
    · exact hw
    · exact b3
  · intro hed
    have n1 : s.state ≠ States.EDIT_PULSE1 := by
      intro e; simp [editing, e] at hed
    rw [r1, if_neg n1]
    exact c1 hed
  · intro hed
    have n3 : s.state ≠ States.EDIT_IDLE := by
      intro e
      rcases hed with hed | hed
      · simp [editing, e] at hed
      · have := hc.2.2.1 (Or.inr e)
        rw [hed] at this
        simp at this
    rw [r3, if_neg n3]
    exact c2 hed
  · intro hed
    have n2 : s.state ≠ States.EDIT_PULSE2 := by
      intro e
      have hv := hc.2.2.2 (Or.inr e)
      rcases hed with hed | hed | hed
      · simp [editing, e] at hed
      · rw [hv] at hed; cases hed
      · rw [hv] at hed; cases hed
    rw [r2, if_neg n2]
    exact c3 hed

theorem dbl_view (s : Machine) (h : viewing s = true) :
    handle_encoder_button Button.DoubleClicked s =
      { s with buttonState := Button.DoubleClicked, state := States.EDIT_PULSE1 } := by
  rcases viewing_cases s h with e | e | e <;>
    simp [handle_encoder_button, on_double_clicked, pulsing, e]

theorem dbl_pulsing (s : Machine) (h : pulsing s = true) :
    handle_encoder_button Button.DoubleClicked s =
      { s with buttonState := Button.DoubleClicked } := by
  rcases pulsing_cases s h with e | e | e <;>
    simp [handle_encoder_button, on_double_clicked, pulsing, e]

theorem dbl_pulse1_next (s : Machine) (h : s.state = States.EDIT_PULSE1)
    (hv : s.viewstate = States.VIEW_TWICE ∨ s.viewstate = States.VIEW_CONTINOUS) :
    handle_encoder_button Button.DoubleClicked s =
      { s with buttonState := Button.DoubleClicked, state := States.EDIT_IDLE } := by
  rcases hv with hv | hv <;>
    simp [handle_encoder_button, on_double_clicked, pulsing, dbl_edit_pulse1, h, hv]

theorem dbl_idle_next (s : Machine) (h : s.state = States.EDIT_IDLE)
    (hv : s.viewstate = States.VIEW_TWICE) :
    handle_encoder_button Button.DoubleClicked s =
      { s with buttonState := Button.DoubleClicked, state := States.EDIT_PULSE2 } := by
  simp [handle_encoder_button, on_double_clicked, pulsing, dbl_edit_idle, h, hv]

theorem synced_after_confirm (s r : Machine)
    (b1 : s.pulse1 ≤ 65535) (b2 : s.idle ≤ 65535) (b3 : s.pulse2 ≤ 65535)
    (h1 : r.pulse1 = s.pulse1) (h2 : r.idle = s.idle) (h3 : r.pulse2 = s.pulse2)
    (m1 : stored16 r.eeprom P1ADDR = s.pulse1) (m2 : stored16 r.eeprom IDLEADDR = s.idle)
    (m3 : stored16 r.eeprom P2ADDR = s.pulse2) : synced r := by
  unfold synced
  rw [h1, h2, h3]
  exact ⟨b1, b2, b3, fun _ => m1, fun _ => m2, fun _ => m3⟩

theorem write_durations (a v : Nat) (s : Machine) :
    (EEPROMWriteInt16 a v s).pulse1 = s.pulse1 ∧ (EEPROMWriteInt16 a v s).idle = s.idle ∧
    (EEPROMWriteInt16 a v s).pulse2 = s.pulse2 := ⟨rfl, rfl, rfl⟩

theorem synced_double_clicked (s : Machine) (hc : consistent s) (h : synced s) :
    synced (handle_encoder_button Button.DoubleClicked s) := by
  obtain ⟨b1, b2, b3, c1, c2, c3⟩ := h
  rcases state_class s with hcl | hcl | hcl
  · rw [dbl_view s hcl]
    have e0 : editing s = false := by
      rcases viewing_cases s hcl with e | e | e <;> simp [editing, e]
    refine ⟨b1, b2, b3, ?_, ?_, ?_⟩
    · intro he
      simp [editing] at he
    · intro _
      exact c2 (Or.inl e0)
    · intro _
      exact c3 (Or.inl e0)
  · rw [dbl_pulsing s hcl]
    exact synced_of_kept s _ ⟨b1, b2, b3, c1, c2, c3⟩ ⟨rfl, rfl, rfl, rfl, rfl, rfl⟩ rfl
  · rcases editing_cases s hcl with e | e | e
    · rcases hc.1 with hv | hv | hv
      · rw [dbl_confirm_once s e hv]
        have m1 := stored16_write_same P1ADDR s.pulse1
          { s with buttonState := Button.DoubleClicked } b1
        have m2 := (stored16_write_other P1ADDR IDLEADDR s.pulse1
          { s with buttonState := Button.DoubleClicked } (Or.inl (by decide))).trans
          (c2 (Or.inr hv))
        have m3 := (stored16_write_other P1ADDR P2ADDR s.pulse1
          { s with buttonState := Button.DoubleClicked } (Or.inl (by decide))).trans
          (c3 (Or.inr (Or.inl hv)))
        have d := write_durations P1ADDR s.pulse1
          { s with buttonState := Button.DoubleClicked }
        exact synced_after_confirm s _ b1 b2 b3 d.1 d.2.1 d.2.2 m1 m2 m3
      · rw [dbl_pulse1_next s e (Or.inl hv)]
        exact synced_of_same s _ ⟨b1, b2, b3, c1, c2, c3⟩ rfl rfl rfl rfl
          (by simp [editing, e]) (fun _ => rfl)
      · rw [dbl_pulse1_next s e (Or.inr hv)]
        exact synced_of_same s _ ⟨b1, b2, b3, c1, c2, c3⟩ rfl rfl rfl rfl
          (by simp [editing, e]) (fun _ => rfl)
    · rw [dbl_confirm_twice s e]
      have m1 := (stored16_write_other IDLEADDR P1ADDR s.idle
        (EEPROMWriteInt16 P2ADDR s.pulse2 (EEPROMWriteInt16 P1ADDR s.pulse1
          { s with buttonState := Button.DoubleClicked })) (Or.inr (by decide))).trans
        ((stored16_write_other P2ADDR P1ADDR s.pulse2 (EEPROMWriteInt16 P1ADDR s.pulse1
          { s with buttonState := Button.DoubleClicked }) (Or.inr (by decide))).trans
          (stored16_write_same P1ADDR s.pulse1
            { s with buttonState := Button.DoubleClicked } b1))
      have m2 := stored16_write_same IDLEADDR s.idle
        (EEPROMWriteInt16 P2ADDR s.pulse2 (EEPROMWriteInt16 P1ADDR s.pulse1
          { s with buttonState := Button.DoubleClicked })) b2
      have m3 := (stored16_write_other IDLEADDR P2ADDR s.idle
        (EEPROMWriteInt16 P2ADDR s.pulse2 (EEPROMWriteInt16 P1ADDR s.pulse1
          { s with buttonState := Button.DoubleClicked })) (Or.inr (by decide))).trans
        (stored16_write_same P2ADDR s.pulse2 (EEPROMWriteInt16 P1ADDR s.pulse1
          { s with buttonState := Button.DoubleClicked }) b3)
      have d1 := write_durations P1ADDR s.pulse1
        { s with buttonState := Button.DoubleClicked }
      have d2 := write_durations P2ADDR s.pulse2 (EEPROMWriteInt16 P1ADDR s.pulse1
        { s with buttonState := Button.DoubleClicked })
      have d3 := write_durations IDLEADDR s.idle
        (EEPROMWriteInt16 P2ADDR s.pulse2 (EEPROMWriteInt16 P1ADDR s.pulse1
          { s with buttonState := Button.DoubleClicked }))
      exact synced_after_confirm s _ b1 b2 b3 (d3.1.trans (d2.1.trans d1.1))
        (d3.2.1.trans (d2.2.1.trans d1.2.1)) (d3.2.2.trans (d2.2.2.trans d1.2.2)) m1 m2 m3
    · have hm := hc.2.2.1 (Or.inr e)
      rcases hm with hv | hv
      · rw [dbl_idle_next s e hv]
        exact synced_of_same s _ ⟨b1, b2, b3, c1, c2, c3⟩ rfl rfl rfl rfl
          (by simp [editing, e]) (fun _ => rfl)
      · rw [dbl_confirm_continuous s e hv]
        have m1 := (stored16_write_other IDLEADDR P1ADDR s.idle
          (EEPROMWriteInt16 P1ADDR s.pulse1
            { s with buttonState := Button.DoubleClicked }) (Or.inr (by decide))).trans
          (stored16_write_same P1ADDR s.pulse1
            { s with buttonState := Button.DoubleClicked } b1)
        have m2 := stored16_write_same IDLEADDR s.idle
          (EEPROMWriteInt16 P1ADDR s.pulse1
            { s with buttonState := Button.DoubleClicked }) b2
        have m3 := (stored16_write_other IDLEADDR P2ADDR s.idle
          (EEPROMWriteInt16 P1ADDR s.pulse1
            { s with buttonState := Button.DoubleClicked }) (Or.inr (by decide))).trans
          ((stored16_write_other P1ADDR P2ADDR s.pulse1
            { s with buttonState := Button.DoubleClicked } (Or.inl (by decide))).trans
            (c3 (Or.inr (Or.inr hv))))
        have d1 := write_durations P1ADDR s.pulse1
          { s with buttonState := Button.DoubleClicked }
        have d3 := write_durations IDLEADDR s.idle
          (EEPROMWriteInt16 P1ADDR s.pulse1
            { s with buttonState := Button.DoubleClicked })
        exact synced_after_confirm s _ b1 b2 b3 (d3.1.trans d1.1)
          (d3.2.1.trans d1.2.1) (d3.2.2.trans d1.2.2) m1 m2 m3

theorem synced_button (b : Button) (s : Machine) (hc : consistent s) (h : synced s) :
    synced (handle_encoder_button b s) := by
  cases b
  · exact synced_of_kept s _ h ⟨rfl, rfl, rfl, rfl, rfl, rfl⟩ rfl
  · exact synced_of_kept s _ h ⟨rfl, rfl, rfl, rfl, rfl, rfl⟩ rfl
  · exact synced_of_kept s _ h ⟨rfl, rfl, rfl, rfl, rfl, rfl⟩ rfl
  · exact synced_held s h
  · exact synced_of_kept s _ h ⟨rfl, rfl, rfl, rfl, rfl, rfl⟩ rfl
  · rw [clicked_eq]
    exact synced_of_kept (on_clicked s) _ (synced_on_clicked s h)
      ⟨rfl, rfl, rfl, rfl, rfl, rfl⟩ rfl
  · exact synced_double_clicked s hc h

theorem synced_step (e : Event) (s : Machine) (hc : consistent s) (h : synced s) :
    synced (step e s) := by
  cases e with
  | tick => exact synced_timerIsr s h
  | button b => exact synced_button b s hc h
  | extra val t1 t2 => exact synced_extra val t1 t2 s h
  | rotate delta => exact synced_rotate delta s hc h

theorem synced_run (es : List Event) (s : Machine) (hc : consistent s) (h : synced s) :
    synced (run es s) := by
  induction es generalizing s with
  | nil => exact h
  | cons e es ih => exact ih _ (consistent_step e s hc) (synced_step e s hc h)

/-! ## Output level and state -/

theorem timerIsr_one_restart (s : Machine) (hs : s.state = States.PULSE_ONE)
    (hc : s.pulse1 ≤ s.pulse1_counter) (hv : s.viewstate = States.VIEW_CONTINOUS)
    (hi : s.idle ≤ s.idle_counter) :
    timerIsr s = { s with state := States.PULSE_ONE, out := false, pulse1_counter := 1,
                          idle_counter := 0, pulse2_counter := 0 } := by
  simp [timerIsr, handle_pulsing, pulsing, pulse_one_block, pulse_idle_block,
    pulse_two_block, hs, hc, hv, hi]

theorem timerIsr_one_two (s : Machine) (hs : s.state = States.PULSE_ONE)
    (hc : s.pulse1 ≤ s.pulse1_counter) (hv1 : s.viewstate ≠ States.VIEW_ONCE)
    (hv : s.viewstate ≠ States.VIEW_CONTINOUS) (hi : s.idle ≤ s.idle_counter)
    (hq : s.pulse2_counter < s.pulse2) :
    timerIsr s = { s with state := States.PULSE_TWO, out := true,
                          pulse2_counter := (s.pulse2_counter + 1) % 65536 } := by
  simp [timerIsr, handle_pulsing, pulsing, pulse_one_block, pulse_idle_block,
    pulse_two_block, hs, hc, hv1, hv, hi, Nat.not_le.mpr hq]

theorem timerIsr_one_through (s : Machine) (hs : s.state = States.PULSE_ONE)
    (hc : s.pulse1 ≤ s.pulse1_counter) (hv1 : s.viewstate ≠ States.VIEW_ONCE)
    (hv : s.viewstate ≠ States.VIEW_CONTINOUS) (hi : s.idle ≤ s.idle_counter)
    (hq : s.pulse2 ≤ s.pulse2_counter) :
    timerIsr s = { s with state := States.VIEW_TWICE, out := true } := by
  simp [timerIsr, handle_pulsing, pulsing, pulse_one_block, pulse_idle_block,
    pulse_two_block, hs, hc, hv1, hv, hi, hq]

theorem timerIsr_idle_through (s : Machine) (hs : s.state = States.PULSE_IDLE)
    (hi : s.idle ≤ s.idle_counter) (hv : s.viewstate ≠ States.VIEW_CONTINOUS)
    (hq : s.pulse2 ≤ s.pulse2_counter) :
    timerIsr s = { s with state := States.VIEW_TWICE, out := true } := by
  simp [timerIsr, handle_pulsing, pulsing, pulse_one_block, pulse_idle_block,
    pulse_two_block, hs, hi, hv, hq]

/-- C16, as the code runs. After a timer callback from any state the level written is HIGH
exactly when the callback leaves `PULSE_TWO`, or stays in `PULSE_ONE` with the first pulse
not yet over, or ends a pulsing sequence in `VIEW_TWICE`: the callback that ends the
second pulse leaves a view state and still writes HIGH, and the callback that restarts
the continuous stream leaves `PULSE_ONE` and writes LOW. -/
theorem output_level_as_coded (s : Machine) :
    (timerIsr s).out = true ↔
      ((timerIsr s).state = States.PULSE_TWO ∨
        ((timerIsr s).state = States.PULSE_ONE ∧ s.state = States.PULSE_ONE ∧
          s.pulse1_counter < s.pulse1) ∨
        ((timerIsr s).state = States.VIEW_TWICE ∧ pulsing s = true)) := by
  by_cases hp : pulsing s = true
  · rcases pulsing_cases s hp with hs | hs | hs
    · rcases Nat.lt_or_ge s.pulse1_counter s.pulse1 with hc | hc
      · rw [timerIsr_one_stay s hs hc]
        simp [hs, hc]
      · have hn : ¬ (s.pulse1_counter < s.pulse1) := Nat.not_lt.mpr hc
        by_cases hv1 : s.viewstate = States.VIEW_ONCE
        · rw [timerIsr_one_once s hs hc hv1]
          simp
        · rcases Nat.lt_or_ge s.idle_counter s.idle with hi | hi
          · rw [timerIsr_one_idle s hs hc hv1 hi]
            simp
          · by_cases hv : s.viewstate = States.VIEW_CONTINOUS
            · rw [timerIsr_one_restart s hs hc hv hi]
              simp [hn]
            · rcases Nat.lt_or_ge s.pulse2_counter s.pulse2 with hq | hq
              · rw [timerIsr_one_two s hs hc hv1 hv hi hq]
                simp
              · rw [timerIsr_one_through s hs hc hv1 hv hi hq]
                simp [hp]
    · rcases Nat.lt_or_ge s.pulse2_counter s.pulse2 with hq | hq
      · rw [timerIsr_two_stay s hs hq]
        simp [hs]
      · rw [timerIsr_two_end s hs hq]
        simp [hp]
    · rcases Nat.lt_or_ge s.idle_counter s.idle with hi | hi
      · rw [timerIsr_idle_stay s hs hi]
        simp [hs]
      · by_cases hv : s.viewstate = States.VIEW_CONTINOUS
        · rw [timerIsr_idle_restart s hs hi hv]
          simp [hs]
        · rcases Nat.lt_or_ge s.pulse2_counter s.pulse2 with hq | hq
          · rw [timerIsr_idle_two s hs hi hv hq]
            simp
          · rw [timerIsr_idle_through s hs hi hv hq]
            simp [hp]
  · have hp' : pulsing s = false := by simpa using hp
    have h1 : s.state ≠ States.PULSE_TWO := by
      intro e; simp [pulsing, e] at hp'
    have h2 : s.state ≠ States.PULSE_ONE := by
      intro e; simp [pulsing, e] at hp'
    rw [timerIsr_not_pulsing s hp']
    simp [h1, h2, hp']

set_option maxRecDepth 8000 in
/-- Witness of C16 on reachable states: the storage holds 1 in each slot. After `setup`,
a long press (mode Twice), a click and three timer callbacks the machine is in
`PULSE_TWO` with the second pulse over; the fourth callback leaves `VIEW_TWICE` and writes
HIGH. After `setup`, two long presses (mode Continuous), a click and two timer callbacks
the idle gap is over; the third callback leaves `PULSE_ONE` and writes LOW. -/
theorem output_level_as_coded_witness :
    ((timerIsr (run [Event.button Button.Held, Event.button Button.Clicked, Event.tick,
        Event.tick, Event.tick]
      (setup (fun a => if a % 2 = 0 then 1 else 0)))).state = States.VIEW_TWICE ∧
    (timerIsr (run [Event.button Button.Held, Event.button Button.Clicked, Event.tick,
        Event.tick, Event.tick]
      (setup (fun a => if a % 2 = 0 then 1 else 0)))).out = true) ∧
    ((timerIsr (run [Event.button Button.Held, Event.button Button.Released,
        Event.button Button.Held, Event.button Button.Clicked, Event.tick, Event.tick]
      (setup (fun a => if a % 2 = 0 then 1 else 0)))).state = States.PULSE_ONE ∧
    (timerIsr (run [Event.button Button.Held, Event.button Button.Released,
        Event.button Button.Held, Event.button Button.Clicked, Event.tick, Event.tick]
      (setup (fun a => if a % 2 = 0 then 1 else 0)))).out = false) :=
  ⟨⟨by decide,
    (output_level_as_coded (run [Event.button Button.Held, Event.button Button.Clicked,
        Event.tick, Event.tick, Event.tick]
      (setup (fun a => if a % 2 = 0 then 1 else 0)))).mpr
    (Or.inr (Or.inr ⟨by decide, by decide⟩))⟩,
   ⟨by decide, by decide⟩⟩

/-! ## Storage and durations stay in step -/

theorem synced_setup (mem : Nat → Nat) : synced (setup mem) := by
  obtain ⟨_, _, _, _, _, r1, r2, r3, b1, b2, b3, _, _⟩ := setup_loaded mem
  rw [read_eq_stored] at r1 r2 r3
  exact ⟨b1.2, b3.2, b2.2, fun _ => r1, fun _ => r3, fun _ => r2⟩

/-- C20. Stored values never drift from durations: after `setup` on any storage content
and any sequence of timer callbacks, button events, auxiliary-switch samples and knob
rotations, whenever the state is a view state or a pulsing state the 16-bit values read
from the three storage slots are the current `pulse1`, `pulse2` and `idle`. -/
theorem stored_values_never_drift (mem : Nat → Nat) (es : List Event)
    (h : viewing (run es (setup mem)) = true ∨ pulsing (run es (setup mem)) = true) :
    wrapU16 (EEPROMReadInt16 P1ADDR (run es (setup mem))) = (run es (setup mem)).pulse1 ∧
    wrapU16 (EEPROMReadInt16 P2ADDR (run es (setup mem))) = (run es (setup mem)).pulse2 ∧
    wrapU16 (EEPROMReadInt16 IDLEADDR (run es (setup mem))) = (run es (setup mem)).idle := by
  have hs := synced_run es (setup mem) (consistent_setup mem) (synced_setup mem)
  have he : editing (run es (setup mem)) = false := by
    rcases h with h | h
    · rcases viewing_cases _ h with e | e | e <;> simp [editing, e]
    · rcases pulsing_cases _ h with e | e | e <;> simp [editing, e]
  obtain ⟨_, _, _, s1, s2, s3⟩ := hs
  rw [read_eq_stored, read_eq_stored, read_eq_stored]
  exact ⟨s1 he, s3 (Or.inl he), s2 (Or.inl he)⟩

/-- Witness of C20: blank storage (every byte 255), then an edit session of mode Once that
turns the knob and confirms; the machine is back in `VIEW_ONCE` and the three slots read
back the durations. -/
theorem stored_values_never_drift_witness :
    (viewing (run [Event.button Button.DoubleClicked, Event.rotate 5,
        Event.button Button.DoubleClicked] (setup (fun _ => 255))) = true ∨
      pulsing (run [Event.button Button.DoubleClicked, Event.rotate 5,
        Event.button Button.DoubleClicked] (setup (fun _ => 255))) = true) ∧
    wrapU16 (EEPROMReadInt16 P1ADDR (run [Event.button Button.DoubleClicked, Event.rotate 5,
        Event.button Button.DoubleClicked] (setup (fun _ => 255)))) =
      (run [Event.button Button.DoubleClicked, Event.rotate 5,
        Event.button Button.DoubleClicked] (setup (fun _ => 255))).pulse1 :=
  ⟨Or.inl (by decide),
   (stored_values_never_drift (fun _ => 255) [Event.button Button.DoubleClicked,
      Event.rotate 5, Event.button Button.DoubleClicked] (Or.inl (by decide))).1⟩

end PulseMaker
